import Mathlib

/-
Verification development for MetagenomeScope's viewer code.

Embedded source files:
  * src/metagenomescope/support_files/js/drawer.js (class Drawer): the
    pattern/collapse bookkeeping (initPatterns, collapsePattern,
    uncollapsePattern, makeEdgeBasic, makeEdgeNonBasic) over a Cytoscape.js
    element pool, and the edge-geometry simplification
    (convertCtrlPtsToDistsAndWeights).
  * src/docs/demos/marygold/js/data-holder.js (class DataHolder): component
    rank validation and the by-id lookups.

Drawer manipulates Cytoscape.js state; the Cytoscape.js calls it makes are
embedded with their documented semantics: `eles.difference` works by element
id; `eles.remove` removes the given elements together with the descendants of
removed compound nodes and the edges incident on removed nodes;
`eles.restore` puts back exactly the elements of the stored collection (nodes
before edges, an edge only when its endpoints are back);
`cy.getElementById` is empty for removed elements, so operations on such an
element are no-ops; `edge.move` rewrites one active endpoint and keeps id,
data and classes.
-/

/-- A Cytoscape.js node element, as added by Drawer.renderNode or
Drawer.renderPattern: an id, an optional compound parent, and whether it
carries the "pattern" class. -/
structure CyNode where
  nid : Nat
  parent : Option Nat
  isPattern : Bool
deriving DecidableEq

/-- A Cytoscape.js edge element as added by Drawer.renderEdge: an id, its true
(as-drawn) source and target node ids, and whether it was given control-point
data ("cpd"/"cpw"), which renderEdge does exactly for complex
(unbundledbezier) edges. -/
structure CyEdge where
  eid : Nat
  src : Nat
  tgt : Nat
  hasCpdData : Bool
deriving DecidableEq

/-- The static element pool of one drawn Cytoscape.js instance, after
Drawer.draw has added every node, pattern and edge. -/
structure CyGraph where
  nodes : List CyNode
  edges : List CyEdge

def nodeIds (G : CyGraph) : List Nat := G.nodes.map (fun nd => nd.nid)

def edgeIds (G : CyGraph) : List Nat := G.edges.map (fun e => e.eid)

/-- Whether element `x` is a node with the "pattern" class
(Cytoscape `ele.hasClass("pattern")`). -/
def isPatternId (G : CyGraph) (x : Nat) : Bool :=
  match G.nodes.find? (fun nd => nd.nid == x) with
  | some nd => nd.isPattern
  | none => false

def parentOf (G : CyGraph) (x : Nat) : Option Nat :=
  match G.nodes.find? (fun nd => nd.nid == x) with
  | some nd => nd.parent
  | none => none

/-- Whether edge `x` has control point data (`edgeEle.data("cpd")` is
truthy in makeEdgeBasic / makeEdgeNonBasic). -/
def hasCpd (G : CyGraph) (x : Nat) : Bool :=
  match G.edges.find? (fun e => e.eid == x) with
  | some e => e.hasCpdData
  | none => false

/-- Drawer.initPatterns: `pattern.children()` — the ids of the direct
children of a compound node. -/
def childIds (G : CyGraph) (p : Nat) : List Nat :=
  (G.nodes.filter (fun nd => nd.parent == some p)).map (fun nd => nd.nid)

/-- Drawer.initPatterns: `children.incomers("edge")` — every edge whose
target is a direct child of the pattern. -/
def uIncomingEdges (G : CyGraph) (p : Nat) : List CyEdge :=
  G.edges.filter (fun e => decide (e.tgt ∈ childIds G p))

/-- Drawer.initPatterns: `children.outgoers("edge")` — every edge whose
source is a direct child of the pattern. -/
def uOutgoingEdges (G : CyGraph) (p : Nat) : List CyEdge :=
  G.edges.filter (fun e => decide (e.src ∈ childIds G p))

/-- Drawer.initPatterns: `uIncomingEdges.difference(uOutgoingEdges)`;
Cytoscape collection difference removes elements by id. -/
def incomingEdges (G : CyGraph) (p : Nat) : List CyEdge :=
  (uIncomingEdges G p).filter
    (fun e => !((uOutgoingEdges G p).any (fun f => f.eid == e.eid)))

/-- Drawer.initPatterns: `uOutgoingEdges.difference(uIncomingEdges)`. -/
def outgoingEdges (G : CyGraph) (p : Nat) : List CyEdge :=
  (uOutgoingEdges G p).filter
    (fun e => !((uIncomingEdges G p).any (fun f => f.eid == e.eid)))

/-- Drawer.initPatterns: `incomingEdgeMap` — edge id mapped to the canonical
pair [cSource, cTarget], recorded before any collapsing moves the edge. The
keys of the JS object are unique, and the list below inherits that whenever
the pool's edge ids are distinct. -/
def incomingEdgeMap (G : CyGraph) (p : Nat) : List (Nat × Nat × Nat) :=
  (incomingEdges G p).map (fun e => (e.eid, e.src, e.tgt))

/-- Drawer.initPatterns: `outgoingEdgeMap`. -/
def outgoingEdgeMap (G : CyGraph) (p : Nat) : List (Nat × Nat × Nat) :=
  (outgoingEdges G p).map (fun e => (e.eid, e.src, e.tgt))

/-- Drawer.initPatterns: `children.connectedEdges()` — every edge with at
least one endpoint among the children. -/
def connectedEdges (G : CyGraph) (p : Nat) : List CyEdge :=
  G.edges.filter
    (fun e => decide (e.src ∈ childIds G p) || decide (e.tgt ∈ childIds G p))

/-- Drawer.initPatterns: `interiorEdges = children.connectedEdges()
.difference(incomingEdges).difference(outgoingEdges)`. -/
def interiorEdges (G : CyGraph) (p : Nat) : List CyEdge :=
  ((connectedEdges G p).filter
      (fun e => !((incomingEdges G p).any (fun f => f.eid == e.eid)))).filter
    (fun e => !((outgoingEdges G p).any (fun f => f.eid == e.eid)))

/-- Drawer.initPatterns: the pattern's `_interiorEles` scratch collection,
`interiorEdges.union(children)`, kept as the list of element ids. -/
def interiorEleIds (G : CyGraph) (p : Nat) : List Nat :=
  (interiorEdges G p).map (fun e => e.eid) ++ childIds G p

/-- The mutable part of the Cytoscape.js state that Drawer.collapsePattern and
Drawer.uncollapsePattern manipulate: which element ids are currently in the
graph (not removed), each edge's active endpoints (rewritten by `edge.move`),
the style classes toggled by makeEdgeBasic / makeEdgeNonBasic, and each
pattern's "isCollapsed" data flag. Fields of removed elements persist, as
Cytoscape keeps removed elements' data and classes. -/
@[ext]
structure CyState where
  present : Nat → Bool
  eSrc : Nat → Nat
  eTgt : Nat → Nat
  basicbezier : Nat → Bool
  unbundledbezier : Nat → Bool
  notUsingPorts : Nat → Bool
  isCollapsed : Nat → Bool

/-- Drawer.makeEdgeBasic: when the edge has control point data, swap class
unbundledbezier for basicbezier; always add not_using_ports. -/
def makeEdgeBasic (G : CyGraph) (x : Nat) (s : CyState) : CyState :=
  let s1 :=
    if hasCpd G x then
      { s with
        unbundledbezier := fun y => if y = x then false else s.unbundledbezier y
        basicbezier := fun y => if y = x then true else s.basicbezier y }
    else s
  { s1 with notUsingPorts := fun y => if y = x then true else s1.notUsingPorts y }

/-- Drawer.makeEdgeNonBasic: when the edge has control point data, swap class
basicbezier for unbundledbezier; always remove not_using_ports. -/
def makeEdgeNonBasic (G : CyGraph) (x : Nat) (s : CyState) : CyState :=
  let s1 :=
    if hasCpd G x then
      { s with
        basicbezier := fun y => if y = x then false else s.basicbezier y
        unbundledbezier := fun y => if y = x then true else s.unbundledbezier y }
    else s
  { s1 with notUsingPorts := fun y => if y = x then false else s1.notUsingPorts y }

/-- One iteration of the incoming-edge loop of Drawer.collapsePattern: on a
still-present edge, makeEdgeBasic it and move its active target to the
pattern; on a removed edge cy.getElementById is empty and nothing happens. -/
def collapseInStep (G : CyGraph) (p : Nat) (s : CyState) (ent : Nat × Nat × Nat) :
    CyState :=
  if s.present ent.1 then
    let s1 := makeEdgeBasic G ent.1 s
    { s1 with eTgt := fun y => if y = ent.1 then p else s1.eTgt y }
  else s

/-- One iteration of the outgoing-edge loop of Drawer.collapsePattern. -/
def collapseOutStep (G : CyGraph) (p : Nat) (s : CyState) (ent : Nat × Nat × Nat) :
    CyState :=
  if s.present ent.1 then
    let s1 := makeEdgeBasic G ent.1 s
    { s1 with eSrc := fun y => if y = ent.1 then p else s1.eSrc y }
  else s

/-- The chain of self-and-ancestors of a node, following compound parents,
with enough fuel to exhaust any parent chain of the pool. -/
def selfAndAncestors (G : CyGraph) : Nat → Nat → List Nat
  | 0, x => [x]
  | fuel + 1, x =>
    x ::
      (match parentOf G x with
       | some q => selfAndAncestors G fuel q
       | none => [])

/-- Cytoscape eles.remove removes the descendants of a removed compound node,
so a node disappears when it or one of its ancestors is in the removed
collection. -/
def nodeRemoved (G : CyGraph) (roots : List Nat) (x : Nat) : Bool :=
  decide (x ∈ nodeIds G) &&
    (selfAndAncestors G G.nodes.length x).any (fun a => decide (a ∈ roots))

/-- Cytoscape eles.remove: an element disappears when it is in the removed
collection, is a node with a removed ancestor, or is an edge with a removed
active endpoint. -/
def removedId (G : CyGraph) (roots : List Nat) (s : CyState) (x : Nat) : Bool :=
  if decide (x ∈ nodeIds G) then nodeRemoved G roots x
  else
    if decide (x ∈ edgeIds G) then
      decide (x ∈ roots) || nodeRemoved G roots (s.eSrc x) ||
        nodeRemoved G roots (s.eTgt x)
    else false

/-- `pattern.scratch("_interiorEles").remove()` in Drawer.collapsePattern. -/
def removeEles (G : CyGraph) (roots : List Nat) (s : CyState) : CyState :=
  { s with present := fun x => s.present x && !removedId G roots s x }

/-- `pattern.scratch("_interiorEles").restore()` in Drawer.uncollapsePattern:
exactly the elements of the stored collection come back — nodes first, an
edge only when its active endpoints are then in the graph. Elements removed
only as side effects of the removal (such as the contents of a removed child
pattern) are not in the stored collection and stay removed. -/
def restoreEles (G : CyGraph) (ids : List Nat) (s : CyState) : CyState :=
  let pN : Nat → Bool :=
    fun x => s.present x || (decide (x ∈ ids) && decide (x ∈ nodeIds G))
  { s with
    present := fun x =>
      pN x ||
        (decide (x ∈ ids) && decide (x ∈ edgeIds G) && pN (s.eSrc x) &&
          pN (s.eTgt x)) }

/-- Drawer.collapsePattern: make each incoming-map edge basic and retarget it
to the pattern, same for outgoing-map edges on the source side, set the
pattern's isCollapsed data flag, and remove the interior elements. -/
def collapsePattern (G : CyGraph) (p : Nat) (s : CyState) : CyState :=
  let s1 := (incomingEdgeMap G p).foldl (collapseInStep G p) s
  let s2 := (outgoingEdgeMap G p).foldl (collapseOutStep G p) s1
  let s3 := { s2 with isCollapsed := fun x => if x = p then true else s2.isCollapsed x }
  removeEles G (interiorEleIds G p) s3

/-- One iteration of the incoming-edge loop of Drawer.uncollapsePattern: on a
still-present edge, makeEdgeNonBasic it unless its active source is a
pattern, then move its active target back to the canonical target recorded in
the map. -/
def uncollapseInStep (G : CyGraph) (p : Nat) (s : CyState) (ent : Nat × Nat × Nat) :
    CyState :=
  if s.present ent.1 then
    let s1 :=
      if isPatternId G (s.eSrc ent.1) then s else makeEdgeNonBasic G ent.1 s
    { s1 with eTgt := fun y => if y = ent.1 then ent.2.2 else s1.eTgt y }
  else s

/-- One iteration of the outgoing-edge loop of Drawer.uncollapsePattern. -/
def uncollapseOutStep (G : CyGraph) (p : Nat) (s : CyState) (ent : Nat × Nat × Nat) :
    CyState :=
  if s.present ent.1 then
    let s1 :=
      if isPatternId G (s.eTgt ent.1) then s else makeEdgeNonBasic G ent.1 s
    { s1 with eSrc := fun y => if y = ent.1 then ent.2.1 else s1.eSrc y }
  else s

/-- Drawer.uncollapsePattern: restore the stored interior elements, walk the
incoming map restoring targets (and, for edges whose active source is not a
pattern, the non-basic rendering), walk the outgoing map symmetrically, and
clear the pattern's isCollapsed data flag. -/
def uncollapsePattern (G : CyGraph) (p : Nat) (s : CyState) : CyState :=
  let s1 := restoreEles G (interiorEleIds G p) s
  let s2 := (incomingEdgeMap G p).foldl (uncollapseInStep G p) s1
  let s3 := (outgoingEdgeMap G p).foldl (uncollapseOutStep G p) s2
  { s3 with isCollapsed := fun x => if x = p then false else s3.isCollapsed x }

/-- The states reached before the interior removal inside
Drawer.collapsePattern: both edge loops have run and the isCollapsed data
flag is set. -/
def collapsePreRemove (G : CyGraph) (p : Nat) (s : CyState) : CyState :=
  let s1 := (incomingEdgeMap G p).foldl (collapseInStep G p) s
  let s2 := (outgoingEdgeMap G p).foldl (collapseOutStep G p) s1
  { s2 with isCollapsed := fun x => if x = p then true else s2.isCollapsed x }

/-- Well-formedness of a drawn pool, guaranteed by Drawer.draw: element ids
are distinct across nodes and edges, compound parents are patterns, and edge
endpoints are nodes of the pool. -/
@[reducible] def WellFormed (G : CyGraph) : Prop :=
  (nodeIds G ++ edgeIds G).Nodup ∧
    (∀ nd ∈ G.nodes, ∀ q, nd.parent = some q → isPatternId G q = true) ∧
    ∀ e ∈ G.edges, e.src ∈ nodeIds G ∧ e.tgt ∈ nodeIds G

/-- A flat pool: no pattern is nested inside another compound node. -/
@[reducible] def Flat (G : CyGraph) : Prop :=
  ∀ nd ∈ G.nodes, nd.isPattern = true → nd.parent = none

/-- Every edge's active endpoints are either its true endpoints or a pattern
node it was moved to by some collapse; every state reached by Drawer toggles
satisfies this. -/
@[reducible] def EndpointsSane (G : CyGraph) (s : CyState) : Prop :=
  ∀ e ∈ G.edges,
    (s.eSrc e.eid = e.src ∨ isPatternId G (s.eSrc e.eid) = true) ∧
      (s.eTgt e.eid = e.tgt ∨ isPatternId G (s.eTgt e.eid) = true)

/-- The state of a pattern whose own toggle is in the expanded position: flag
clear, interior elements drawable with interior edges at their true
endpoints, and each canonical-map edge present with its pattern-side endpoint
true; the far side is either displaced onto a collapsed pattern (in which
case the edge carries the simplified classes installed by makeEdgeBasic) or
in place (in which case the edge carries its as-drawn classes). -/
@[reducible] def ExpandedAt (G : CyGraph) (p : Nat) (s : CyState) : Prop :=
  s.isCollapsed p = false ∧
    (∀ x ∈ interiorEleIds G p, s.present x = true) ∧
    (∀ e ∈ interiorEdges G p, s.eSrc e.eid = e.src ∧ s.eTgt e.eid = e.tgt) ∧
    (∀ ent ∈ incomingEdgeMap G p,
      s.present ent.1 = true ∧ s.eTgt ent.1 = ent.2.2 ∧
        (if isPatternId G (s.eSrc ent.1) = true then
          s.notUsingPorts ent.1 = true ∧
            (hasCpd G ent.1 = true →
              s.basicbezier ent.1 = true ∧ s.unbundledbezier ent.1 = false)
         else
          s.notUsingPorts ent.1 = false ∧
            (hasCpd G ent.1 = true →
              s.basicbezier ent.1 = false ∧ s.unbundledbezier ent.1 = true))) ∧
    ∀ ent ∈ outgoingEdgeMap G p,
      s.present ent.1 = true ∧ s.eSrc ent.1 = ent.2.1 ∧
        (if isPatternId G (s.eTgt ent.1) = true then
          s.notUsingPorts ent.1 = true ∧
            (hasCpd G ent.1 = true →
              s.basicbezier ent.1 = true ∧ s.unbundledbezier ent.1 = false)
         else
          s.notUsingPorts ent.1 = false ∧
            (hasCpd G ent.1 = true →
              s.basicbezier ent.1 = false ∧ s.unbundledbezier ent.1 = true))

/-- Whether a node currently sits inside some collapsed pattern: one of its
proper ancestors has the isCollapsed flag set. -/
def insideCollapsed (G : CyGraph) (s : CyState) (x : Nat) : Bool :=
  ((selfAndAncestors G G.nodes.length x).drop 1).any fun a => s.isCollapsed a

/-
Embedding of src/docs/demos/marygold/js/data-holder.js (class DataHolder).
The data JSON stores per-component collections: nodes keyed by id, edges
keyed by source id then target id, and patterns as an array whose records
carry their integer pattern id. Attribute records are opaque here (type
parameters), with the node-name projection kept as a field.
-/

/-- The errors thrown by the DataHolder lookups. -/
inductive LookupErr where
  | nodeNotFound
  | edgeNotFound
  | edgeMissingFromSource
  | pattNotFound
  | pattIdInvalid
deriving DecidableEq

/-- The errors thrown by DataHolder.validateComponentRank: the
"isn't a positive integer" error and the "too large" error. -/
inductive RankErr where
  | notPositiveInteger
  | tooLarge
deriving DecidableEq

/-- One connected component of the data JSON. -/
structure DHComponent (ν ε π : Type) where
  skipped : Bool
  nodes : List (Nat × ν)
  edges : List (Nat × List (Nat × ε))
  patts : List (Int × π)

/-- The DataHolder: the loaded data JSON (components in size-rank order) plus
the projection that reads a node record's name attribute. -/
structure DataHolder (ν ε π : Type) where
  components : List (DHComponent ν ε π)
  nodeName : ν → String

/-- DataHolder.validateComponentRank: a size rank must be a positive integer
(JS `sizeRank > 0 && Number.isInteger(sizeRank)`) of at most the number of
components; errors model the two thrown messages. -/
def validateComponentRank {ν ε π : Type} (d : DataHolder ν ε π)
    (sizeRank : ℚ) : Except RankErr Bool :=
  if 0 < sizeRank ∧ sizeRank.isInt then
    if sizeRank ≤ (d.components.length : ℚ) then Except.ok true
    else Except.error RankErr.tooLarge
  else Except.error RankErr.notPositiveInteger

/-- DataHolder.getNodeInfo: scan components in order, skip the skipped ones,
return the record stored under the node id in the first component that has
it, and throw a not-found error otherwise. -/
def getNodeInfoAux {ν ε π : Type} :
    List (DHComponent ν ε π) → Nat → Except LookupErr ν
  | [], _ => Except.error LookupErr.nodeNotFound
  | c :: rest, i =>
    if c.skipped then getNodeInfoAux rest i
    else
      match c.nodes.find? (fun kv => kv.1 == i) with
      | some kv => Except.ok kv.2
      | none => getNodeInfoAux rest i

def getNodeInfo {ν ε π : Type} (d : DataHolder ν ε π) (nodeID : Nat) :
    Except LookupErr ν :=
  getNodeInfoAux d.components nodeID

/-- DataHolder.getNodeName: the same scan as getNodeInfo, returning the found
record's name attribute. -/
def getNodeNameAux {ν ε π : Type} (nameOf : ν → String) :
    List (DHComponent ν ε π) → Nat → Except LookupErr String
  | [], _ => Except.error LookupErr.nodeNotFound
  | c :: rest, i =>
    if c.skipped then getNodeNameAux nameOf rest i
    else
      match c.nodes.find? (fun kv => kv.1 == i) with
      | some kv => Except.ok (nameOf kv.2)
      | none => getNodeNameAux nameOf rest i

def getNodeName {ν ε π : Type} (d : DataHolder ν ε π) (nodeID : Nat) :
    Except LookupErr String :=
  getNodeNameAux d.nodeName d.components nodeID

/-- DataHolder.getEdgeInfo: scan non-skipped components for the source id;
once the source is found, a missing target is an immediate distinct error
("Found source node ... but couldn't find an edge"); a source found in no
non-skipped component is the not-found error. -/
def getEdgeInfoAux {ν ε π : Type} :
    List (DHComponent ν ε π) → Nat → Nat → Except LookupErr ε
  | [], _, _ => Except.error LookupErr.edgeNotFound
  | c :: rest, srcID, tgtID =>
    if c.skipped then getEdgeInfoAux rest srcID tgtID
    else
      match c.edges.find? (fun kv => kv.1 == srcID) with
      | some kv =>
        match kv.2.find? (fun tv => tv.1 == tgtID) with
        | some tv => Except.ok tv.2
        | none => Except.error LookupErr.edgeMissingFromSource
      | none => getEdgeInfoAux rest srcID tgtID

def getEdgeInfo {ν ε π : Type} (d : DataHolder ν ε π) (srcID tgtID : Nat) :
    Except LookupErr ε :=
  getEdgeInfoAux d.components srcID tgtID

/-- DataHolder.getPatternInfo's scan over the pattern arrays of the
non-skipped components, comparing each record's pattern id. -/
def getPatternInfoAux {ν ε π : Type} :
    List (DHComponent ν ε π) → Int → Except LookupErr π
  | [], _ => Except.error LookupErr.pattNotFound
  | c :: rest, pid =>
    if c.skipped then getPatternInfoAux rest pid
    else
      match c.patts.find? (fun kv => kv.1 == pid) with
      | some kv => Except.ok kv.2
      | none => getPatternInfoAux rest pid

/-- DataHolder.getPatternInfo. The guard models `utils.isValidInteger`
(utils.js is not under src/; modelled from the spec's error taxonomy and the
thrown message "is not a nonnegative integer"): a negative pattern id is
rejected before the scan. -/
def getPatternInfo {ν ε π : Type} (d : DataHolder ν ε π) (pattID : Int) :
    Except LookupErr π :=
  if pattID < 0 then Except.error LookupErr.pattIdInvalid
  else getPatternInfoAux d.components pattID

/-- A data set with one skipped component holding node 0, edge 1→2 and
pattern 5, and one laid-out component holding node 7, edge 8→9 and
pattern 6. -/
def dSkip : DataHolder String Unit Unit :=
  { components :=
      [⟨true, [(0, "zero")], [(1, [(2, ())])], [(5, ())]⟩,
       ⟨false, [(7, "seven")], [(8, [(9, ())])], [(6, ())]⟩]
    nodeName := fun v => v }

/-- A data set with two laid-out components for the rank-validation witness. -/
def dTwo : DataHolder Unit Unit Unit :=
  { components := [⟨false, [], [], []⟩, ⟨false, [], [], []⟩]
    nodeName := fun _ => "" }

/-
Embedding of Drawer.convertCtrlPtsToDistsAndWeights. Coordinates are real
numbers; the source formats the emitted distances and weights with
toFixed(2) into strings, which is abstracted here to the exact values. The
geometry helpers it calls live in utils.js, which is not under src/, and are
modelled from the spec.
-/

/-- Modelled from the spec: utils.distance, the Euclidean distance between
two points (utils.js is not under src/). -/
noncomputable def distance (a b : ℝ × ℝ) : ℝ :=
  Real.sqrt ((a.1 - b.1) ^ 2 + (a.2 - b.2) ^ 2)

/-- Modelled from the spec: utils.pointToLineDistance, the (signed)
perpendicular distance from a point to the line from `a` to `b` (utils.js is
not under src/; the spec calls it the control point's perpendicular distance
to the line from source to target, and the drawer takes its absolute value
for the threshold test). -/
noncomputable def pointToLineDistance (pt a b : ℝ × ℝ) : ℝ :=
  ((b.2 - a.2) * pt.1 - (b.1 - a.1) * pt.2 + b.1 * a.2 - b.2 * a.1) /
    distance a b

/-- Drawer's CTRL_PT_DIST_EPSILON constant (5.0). -/
def CTRL_PT_DIST_EPSILON : ℝ := 5

/-- The result object of Drawer.convertCtrlPtsToDistsAndWeights. -/
structure CtrlPtData where
  complex : Bool
  dists : List ℝ
  weights : List ℝ

open Classical in
/-- The clamping conditional of Drawer.convertCtrlPtsToDistsAndWeights: a
weight of exactly 0 at the first control point becomes 0.01, and a weight of
exactly 1 at the last control point becomes 0.99; every other weight passes
through unchanged. -/
noncomputable def clampWeight (isFirst isLast : Bool) (w0 : ℝ) : ℝ :=
  if isFirst = true ∧ w0 = 0 then 0.01
  else if isLast = true ∧ w0 = 1 then 0.99 else w0

open Classical in
/-- One iteration of the loop in Drawer.convertCtrlPtsToDistsAndWeights:
whether this control point alone forces a complex edge, its perpendicular
distance, and its (possibly boundary-clamped) weight. `isFirst` is the
`p === 0` test and `isLast` the `p == ctrlPts.length - 2` test of the
clamping conditional. -/
noncomputable def processCtrlPt (srcPos tgtPos : ℝ × ℝ) (dy : ℝ)
    (isFirst isLast : Bool) (cx cy : ℝ) : Bool × ℝ × ℝ :=
  let currPt : ℝ × ℝ := (cx, dy - cy)
  let pld := pointToLineDistance currPt srcPos tgtPos
  let pldsquared := pld ^ 2
  let dsp := distance currPt srcPos
  let dtp := distance currPt tgtPos
  let srcTgtDist := distance srcPos tgtPos
  let ws := Real.sqrt |dsp ^ 2 - pldsquared|
  let wt := Real.sqrt |dtp ^ 2 - pldsquared|
  let w0 := if wt > srcTgtDist ∧ wt > ws then -ws / srcTgtDist
            else ws / srcTgtDist
  let w := clampWeight isFirst isLast w0
  (if |pld| > CTRL_PT_DIST_EPSILON then true else false, pld, w)

/-- The loop of Drawer.convertCtrlPtsToDistsAndWeights over the flattened
[x1, y1, x2, y2, ...] control point list. -/
noncomputable def convertGo (srcPos tgtPos : ℝ × ℝ) (dy : ℝ) :
    Bool → List ℝ → Bool × List ℝ × List ℝ
  | isFirst, cx :: cy :: rest =>
    let r := processCtrlPt srcPos tgtPos dy isFirst (decide (rest = [])) cx cy
    let tailRes := convertGo srcPos tgtPos dy false rest
    (r.1 || tailRes.1, r.2.1 :: tailRes.2.1, r.2.2 :: tailRes.2.2)
  | _, _ => (false, [], [])

/-- Drawer.convertCtrlPtsToDistsAndWeights (the `dx` parameter is accepted
and unused, as in the source). -/
noncomputable def convertCtrlPtsToDistsAndWeights (srcPos tgtPos : ℝ × ℝ)
    (ctrlPts : List ℝ) (dx dy : ℝ) : CtrlPtData :=
  let r := convertGo srcPos tgtPos dy true ctrlPts
  ⟨r.1, r.2.1, r.2.2⟩

/-- The control points of the flattened coordinate list. -/
def ctrlPtPairs : List ℝ → List (ℝ × ℝ)
  | x :: y :: rest => (x, y) :: ctrlPtPairs rest
  | _ => []

/-
Concrete element pools and states used by witnesses and counterexamples.
-/

/-- A pool with a pattern (id 2) that contains a nested pattern (id 3) whose
single member is the node 4; node 1 sits outside and the single edge 10 runs
from node 1 into the nested member 4. -/
def GNest : CyGraph :=
  { nodes :=
      [⟨1, none, false⟩, ⟨2, none, true⟩, ⟨3, some 2, true⟩, ⟨4, some 3, false⟩]
    edges := [⟨10, 1, 4, false⟩] }

/-- The freshly drawn state of `GNest`: everything present, edges at their
true endpoints, nothing collapsed. -/
def sNest : CyState :=
  { present := fun x => decide (x ∈ [1, 2, 3, 4, 10])
    eSrc := fun x => if x = 10 then 1 else 0
    eTgt := fun x => if x = 10 then 4 else 0
    basicbezier := fun x => decide (x = 10)
    unbundledbezier := fun _ => false
    notUsingPorts := fun _ => false
    isCollapsed := fun _ => false }

/-- A flat pool: pattern 2 with children 3 and 4, outside nodes 1 and 5, a
childless sibling pattern 6; edge 10 enters the pattern (with control-point
data), edge 11 is interior (without), edge 12 leaves it (with). -/
def GEx : CyGraph :=
  { nodes :=
      [⟨1, none, false⟩, ⟨2, none, true⟩, ⟨3, some 2, false⟩, ⟨4, some 2, false⟩,
       ⟨5, none, false⟩, ⟨6, none, true⟩]
    edges := [⟨10, 1, 3, true⟩, ⟨11, 3, 4, false⟩, ⟨12, 4, 5, true⟩] }

/-- The freshly drawn state of `GEx`: everything present, edges at their true
endpoints, unbundledbezier exactly on the control-point edges, nothing
collapsed. -/
def sEx : CyState :=
  { present := fun x => decide (x ∈ [1, 2, 3, 4, 5, 6, 10, 11, 12])
    eSrc := fun x => if x = 10 then 1 else if x = 11 then 3 else if x = 12 then 4 else 0
    eTgt := fun x => if x = 10 then 3 else if x = 11 then 4 else if x = 12 then 5 else 0
    basicbezier := fun x => decide (x = 11)
    unbundledbezier := fun x => decide (x = 10) || decide (x = 12)
    notUsingPorts := fun _ => false
    isCollapsed := fun _ => false }

/-
Helper lemmas about the initPatterns-derived collections.
-/

lemma mem_uIncoming_iff (G : CyGraph) (p : Nat) (e : CyEdge) :
    e ∈ uIncomingEdges G p ↔ e ∈ G.edges ∧ e.tgt ∈ childIds G p := by
  simp [uIncomingEdges, List.mem_filter]

lemma mem_uOutgoing_iff (G : CyGraph) (p : Nat) (e : CyEdge) :
    e ∈ uOutgoingEdges G p ↔ e ∈ G.edges ∧ e.src ∈ childIds G p := by
  simp [uOutgoingEdges, List.mem_filter]

lemma mem_incoming_iff (G : CyGraph) (p : Nat) (e : CyEdge) :
    e ∈ incomingEdges G p ↔
      e ∈ uIncomingEdges G p ∧ ∀ f ∈ uOutgoingEdges G p, ¬f.eid = e.eid := by
  simp [incomingEdges, List.mem_filter]

lemma mem_outgoing_iff (G : CyGraph) (p : Nat) (e : CyEdge) :
    e ∈ outgoingEdges G p ↔
      e ∈ uOutgoingEdges G p ∧ ∀ f ∈ uIncomingEdges G p, ¬f.eid = e.eid := by
  simp [outgoingEdges, List.mem_filter]

lemma mem_connected_iff (G : CyGraph) (p : Nat) (e : CyEdge) :
    e ∈ connectedEdges G p ↔
      e ∈ G.edges ∧ (e.src ∈ childIds G p ∨ e.tgt ∈ childIds G p) := by
  simp [connectedEdges, List.mem_filter]

lemma mem_interior_iff (G : CyGraph) (p : Nat) (e : CyEdge) :
    e ∈ interiorEdges G p ↔
      e ∈ connectedEdges G p ∧ (∀ f ∈ incomingEdges G p, ¬f.eid = e.eid) ∧
        ∀ f ∈ outgoingEdges G p, ¬f.eid = e.eid := by
  unfold interiorEdges
  rw [List.mem_filter, List.mem_filter]
  simp only [List.any_eq_true, Bool.not_eq_true', List.any_eq_false, beq_iff_eq]
  tauto

/-- An edge of the incoming set has its target among the children and its
source outside them. -/
lemma incoming_src_tgt (G : CyGraph) (p : Nat) (e : CyEdge)
    (h : e ∈ incomingEdges G p) :
    e ∈ G.edges ∧ e.tgt ∈ childIds G p ∧ e.src ∉ childIds G p := by
  rcases (mem_incoming_iff G p e).1 h with ⟨hu, hno⟩
  rcases (mem_uIncoming_iff G p e).1 hu with ⟨he, ht⟩
  refine ⟨he, ht, fun hs => ?_⟩
  exact hno e ((mem_uOutgoing_iff G p e).2 ⟨he, hs⟩) rfl

/-- An edge of the outgoing set has its source among the children and its
target outside them. -/
lemma outgoing_src_tgt (G : CyGraph) (p : Nat) (e : CyEdge)
    (h : e ∈ outgoingEdges G p) :
    e ∈ G.edges ∧ e.src ∈ childIds G p ∧ e.tgt ∉ childIds G p := by
  rcases (mem_outgoing_iff G p e).1 h with ⟨hu, hno⟩
  rcases (mem_uOutgoing_iff G p e).1 hu with ⟨he, hs⟩
  refine ⟨he, hs, fun ht => ?_⟩
  exact hno e ((mem_uIncoming_iff G p e).2 ⟨he, ht⟩) rfl

/-- An edge in both unfiltered sets is excluded from both difference sets and
lands among the interior elements. -/
lemma both_ways_interior (G : CyGraph) (p : Nat) (e : CyEdge)
    (hui : e ∈ uIncomingEdges G p) (huo : e ∈ uOutgoingEdges G p) :
    e ∉ incomingEdges G p ∧ e ∉ outgoingEdges G p ∧
      e ∈ interiorEdges G p ∧ e.eid ∈ interiorEleIds G p := by
  have hni : e ∉ incomingEdges G p := by
    intro hi
    rcases (mem_incoming_iff G p e).1 hi with ⟨_, hno⟩
    exact hno e huo rfl
  have hno : e ∉ outgoingEdges G p := by
    intro ho
    rcases (mem_outgoing_iff G p e).1 ho with ⟨_, hno⟩
    exact hno e hui rfl
  have hint : e ∈ interiorEdges G p := by
    rcases (mem_uIncoming_iff G p e).1 hui with ⟨he, ht⟩
    refine (mem_interior_iff G p e).2
      ⟨(mem_connected_iff G p e).2 ⟨he, Or.inr ht⟩, ?_, ?_⟩
    · intro f hf hfe
      rcases (mem_incoming_iff G p f).1 hf with ⟨_, hnof⟩
      exact hnof e huo hfe.symm
    · intro f hf hfe
      rcases (mem_outgoing_iff G p f).1 hf with ⟨_, hnof⟩
      exact hnof e hui hfe.symm
  exact ⟨hni, hno, hint,
    List.mem_append.2 (Or.inl (List.mem_map.2 ⟨e, hint, rfl⟩))⟩

/-- C1: for every pattern, an edge appearing among both the children's
incoming and the children's outgoing edges is excluded from both canonical
edge maps' underlying sets and is instead placed among the interior elements;
in particular the incoming and outgoing sets are disjoint. -/
theorem C1_incoming_outgoing_disjoint (G : CyGraph) (p : Nat) (e : CyEdge) :
    (¬(e ∈ incomingEdges G p ∧ e ∈ outgoingEdges G p)) ∧
      (e ∈ uIncomingEdges G p → e ∈ uOutgoingEdges G p →
        e ∉ incomingEdges G p ∧ e ∉ outgoingEdges G p ∧
          e ∈ interiorEdges G p ∧ e.eid ∈ interiorEleIds G p) := by
  constructor
  · rintro ⟨hi, ho⟩
    rcases (mem_incoming_iff G p e).1 hi with ⟨_, hno⟩
    rcases (mem_outgoing_iff G p e).1 ho with ⟨huo, _⟩
    exact hno e huo rfl
  · exact both_ways_interior G p e

/-- Witness for C1 on a concrete pool: a two-child pattern with an internal
edge (in both unfiltered sets) and an entering edge. -/
theorem C1_incoming_outgoing_disjoint_witness :
    (⟨11, 3, 4, false⟩ : CyEdge) ∈
        uIncomingEdges
          ⟨[⟨1, none, false⟩, ⟨2, none, true⟩, ⟨3, some 2, false⟩,
            ⟨4, some 2, false⟩],
            [⟨10, 1, 3, true⟩, ⟨11, 3, 4, false⟩]⟩ 2 ∧
      (⟨11, 3, 4, false⟩ : CyEdge) ∈
        uOutgoingEdges
          ⟨[⟨1, none, false⟩, ⟨2, none, true⟩, ⟨3, some 2, false⟩,
            ⟨4, some 2, false⟩],
            [⟨10, 1, 3, true⟩, ⟨11, 3, 4, false⟩]⟩ 2 ∧
      ((⟨11, 3, 4, false⟩ : CyEdge) ∉
          incomingEdges
            ⟨[⟨1, none, false⟩, ⟨2, none, true⟩, ⟨3, some 2, false⟩,
              ⟨4, some 2, false⟩],
              [⟨10, 1, 3, true⟩, ⟨11, 3, 4, false⟩]⟩ 2 ∧
        (⟨11, 3, 4, false⟩ : CyEdge) ∉
          outgoingEdges
            ⟨[⟨1, none, false⟩, ⟨2, none, true⟩, ⟨3, some 2, false⟩,
              ⟨4, some 2, false⟩],
              [⟨10, 1, 3, true⟩, ⟨11, 3, 4, false⟩]⟩ 2 ∧
        (⟨11, 3, 4, false⟩ : CyEdge) ∈
          interiorEdges
            ⟨[⟨1, none, false⟩, ⟨2, none, true⟩, ⟨3, some 2, false⟩,
              ⟨4, some 2, false⟩],
              [⟨10, 1, 3, true⟩, ⟨11, 3, 4, false⟩]⟩ 2 ∧
        (11 : Nat) ∈
          interiorEleIds
            ⟨[⟨1, none, false⟩, ⟨2, none, true⟩, ⟨3, some 2, false⟩,
              ⟨4, some 2, false⟩],
              [⟨10, 1, 3, true⟩, ⟨11, 3, 4, false⟩]⟩ 2) :=
  ⟨by decide, by decide,
    (C1_incoming_outgoing_disjoint _ 2 _).2 (by decide) (by decide)⟩

/-- C2 counterexample: on the nested pool `GNest`, collapsing pattern 2
removes its interior node 4 (a descendant through the nested pattern 3) and
the boundary edge 10, but uncollapsing pattern 2 restores neither — the
model does not return to its prior state, although node 4 and edge 10 were
present and drawable before the collapse. -/
theorem C2_counterexample_nested_loss :
    sNest.present 4 = true ∧ sNest.present 10 = true ∧
      (collapsePattern GNest 2 sNest).present 4 = false ∧
      (collapsePattern GNest 2 sNest).present 10 = false ∧
      (uncollapsePattern GNest 2 (collapsePattern GNest 2 sNest)).present 4 =
        false ∧
      (uncollapsePattern GNest 2 (collapsePattern GNest 2 sNest)).present 10 =
        false ∧
      (uncollapsePattern GNest 2 (collapsePattern GNest 2 sNest)).isCollapsed 2 =
        false := by
  decide

/-
Pointwise characterization of the per-edge loop bodies.
-/

lemma collapseInStep_present (G : CyGraph) (p : Nat) (s : CyState)
    (ent : Nat × Nat × Nat) : (collapseInStep G p s ent).present = s.present := by
  unfold collapseInStep makeEdgeBasic
  split <;> [skip; rfl]
  split <;> rfl

lemma collapseInStep_eSrc (G : CyGraph) (p : Nat) (s : CyState)
    (ent : Nat × Nat × Nat) : (collapseInStep G p s ent).eSrc = s.eSrc := by
  unfold collapseInStep makeEdgeBasic
  split <;> [skip; rfl]
  split <;> rfl

lemma collapseInStep_isCollapsed (G : CyGraph) (p : Nat) (s : CyState)
    (ent : Nat × Nat × Nat) :
    (collapseInStep G p s ent).isCollapsed = s.isCollapsed := by
  unfold collapseInStep makeEdgeBasic
  split <;> [skip; rfl]
  split <;> rfl

lemma collapseInStep_other (G : CyGraph) (p : Nat) (s : CyState)
    (ent : Nat × Nat × Nat) (y : Nat) (hy : ¬y = ent.1) :
    (collapseInStep G p s ent).eTgt y = s.eTgt y ∧
      (collapseInStep G p s ent).basicbezier y = s.basicbezier y ∧
      (collapseInStep G p s ent).unbundledbezier y = s.unbundledbezier y ∧
      (collapseInStep G p s ent).notUsingPorts y = s.notUsingPorts y := by
  unfold collapseInStep makeEdgeBasic
  by_cases hp : s.present ent.1 = true <;>
    by_cases hc : hasCpd G ent.1 = true <;> simp [hp, hc, hy]

lemma collapseInStep_key (G : CyGraph) (p : Nat) (s : CyState)
    (ent : Nat × Nat × Nat) :
    (collapseInStep G p s ent).eTgt ent.1 =
        (if s.present ent.1 then p else s.eTgt ent.1) ∧
      (collapseInStep G p s ent).basicbezier ent.1 =
        (if s.present ent.1 && hasCpd G ent.1 then true else s.basicbezier ent.1) ∧
      (collapseInStep G p s ent).unbundledbezier ent.1 =
        (if s.present ent.1 && hasCpd G ent.1 then false
         else s.unbundledbezier ent.1) ∧
      (collapseInStep G p s ent).notUsingPorts ent.1 =
        (if s.present ent.1 then true else s.notUsingPorts ent.1) := by
  unfold collapseInStep makeEdgeBasic
  by_cases hp : s.present ent.1 = true <;>
    by_cases hc : hasCpd G ent.1 = true <;> simp [hp, hc]

lemma collapseOutStep_present (G : CyGraph) (p : Nat) (s : CyState)
    (ent : Nat × Nat × Nat) : (collapseOutStep G p s ent).present = s.present := by
  unfold collapseOutStep makeEdgeBasic
  split <;> [skip; rfl]
  split <;> rfl

lemma collapseOutStep_eTgt (G : CyGraph) (p : Nat) (s : CyState)
    (ent : Nat × Nat × Nat) : (collapseOutStep G p s ent).eTgt = s.eTgt := by
  unfold collapseOutStep makeEdgeBasic
  split <;> [skip; rfl]
  split <;> rfl

lemma collapseOutStep_isCollapsed (G : CyGraph) (p : Nat) (s : CyState)
    (ent : Nat × Nat × Nat) :
    (collapseOutStep G p s ent).isCollapsed = s.isCollapsed := by
  unfold collapseOutStep makeEdgeBasic
  split <;> [skip; rfl]
  split <;> rfl

lemma collapseOutStep_other (G : CyGraph) (p : Nat) (s : CyState)
    (ent : Nat × Nat × Nat) (y : Nat) (hy : ¬y = ent.1) :
    (collapseOutStep G p s ent).eSrc y = s.eSrc y ∧
      (collapseOutStep G p s ent).basicbezier y = s.basicbezier y ∧
      (collapseOutStep G p s ent).unbundledbezier y = s.unbundledbezier y ∧
      (collapseOutStep G p s ent).notUsingPorts y = s.notUsingPorts y := by
  unfold collapseOutStep makeEdgeBasic
  by_cases hp : s.present ent.1 = true <;>
    by_cases hc : hasCpd G ent.1 = true <;> simp [hp, hc, hy]

lemma collapseOutStep_key (G : CyGraph) (p : Nat) (s : CyState)
    (ent : Nat × Nat × Nat) :
    (collapseOutStep G p s ent).eSrc ent.1 =
        (if s.present ent.1 then p else s.eSrc ent.1) ∧
      (collapseOutStep G p s ent).basicbezier ent.1 =
        (if s.present ent.1 && hasCpd G ent.1 then true else s.basicbezier ent.1) ∧
      (collapseOutStep G p s ent).unbundledbezier ent.1 =
        (if s.present ent.1 && hasCpd G ent.1 then false
         else s.unbundledbezier ent.1) ∧
      (collapseOutStep G p s ent).notUsingPorts ent.1 =
        (if s.present ent.1 then true else s.notUsingPorts ent.1) := by
  unfold collapseOutStep makeEdgeBasic
  by_cases hp : s.present ent.1 = true <;>
    by_cases hc : hasCpd G ent.1 = true <;> simp [hp, hc]

lemma uncollapseInStep_present (G : CyGraph) (p : Nat) (s : CyState)
    (ent : Nat × Nat × Nat) :
    (uncollapseInStep G p s ent).present = s.present := by
  unfold uncollapseInStep makeEdgeNonBasic
  split <;> [skip; rfl]
  split <;> [rfl; skip]
  split <;> rfl

lemma uncollapseInStep_eSrc (G : CyGraph) (p : Nat) (s : CyState)
    (ent : Nat × Nat × Nat) : (uncollapseInStep G p s ent).eSrc = s.eSrc := by
  unfold uncollapseInStep makeEdgeNonBasic
  split <;> [skip; rfl]
  split <;> [rfl; skip]
  split <;> rfl

lemma uncollapseInStep_isCollapsed (G : CyGraph) (p : Nat) (s : CyState)
    (ent : Nat × Nat × Nat) :
    (uncollapseInStep G p s ent).isCollapsed = s.isCollapsed := by
  unfold uncollapseInStep makeEdgeNonBasic
  split <;> [skip; rfl]
  split <;> [rfl; skip]
  split <;> rfl

lemma uncollapseInStep_other (G : CyGraph) (p : Nat) (s : CyState)
    (ent : Nat × Nat × Nat) (y : Nat) (hy : ¬y = ent.1) :
    (uncollapseInStep G p s ent).eTgt y = s.eTgt y ∧
      (uncollapseInStep G p s ent).basicbezier y = s.basicbezier y ∧
      (uncollapseInStep G p s ent).unbundledbezier y = s.unbundledbezier y ∧
      (uncollapseInStep G p s ent).notUsingPorts y = s.notUsingPorts y := by
  unfold uncollapseInStep makeEdgeNonBasic
  by_cases hp : s.present ent.1 = true <;>
    by_cases hq : isPatternId G (s.eSrc ent.1) = true <;>
      by_cases hc : hasCpd G ent.1 = true <;> simp [hp, hq, hc, hy]

lemma uncollapseInStep_key (G : CyGraph) (p : Nat) (s : CyState)
    (ent : Nat × Nat × Nat) :
    (uncollapseInStep G p s ent).eTgt ent.1 =
        (if s.present ent.1 then ent.2.2 else s.eTgt ent.1) ∧
      (uncollapseInStep G p s ent).basicbezier ent.1 =
        (if s.present ent.1 && !isPatternId G (s.eSrc ent.1) && hasCpd G ent.1
         then false else s.basicbezier ent.1) ∧
      (uncollapseInStep G p s ent).unbundledbezier ent.1 =
        (if s.present ent.1 && !isPatternId G (s.eSrc ent.1) && hasCpd G ent.1
         then true else s.unbundledbezier ent.1) ∧
      (uncollapseInStep G p s ent).notUsingPorts ent.1 =
        (if s.present ent.1 && !isPatternId G (s.eSrc ent.1) then false
         else s.notUsingPorts ent.1) := by
  unfold uncollapseInStep makeEdgeNonBasic
  by_cases hp : s.present ent.1 = true <;>
    by_cases hq : isPatternId G (s.eSrc ent.1) = true <;>
      by_cases hc : hasCpd G ent.1 = true <;> simp [hp, hq, hc]

lemma uncollapseOutStep_present (G : CyGraph) (p : Nat) (s : CyState)
    (ent : Nat × Nat × Nat) :
    (uncollapseOutStep G p s ent).present = s.present := by
  unfold uncollapseOutStep makeEdgeNonBasic
  split <;> [skip; rfl]
  split <;> [rfl; skip]
  split <;> rfl

lemma uncollapseOutStep_eTgt (G : CyGraph) (p : Nat) (s : CyState)
    (ent : Nat × Nat × Nat) : (uncollapseOutStep G p s ent).eTgt = s.eTgt := by
  unfold uncollapseOutStep makeEdgeNonBasic
  split <;> [skip; rfl]
  split <;> [rfl; skip]
  split <;> rfl

lemma uncollapseOutStep_isCollapsed (G : CyGraph) (p : Nat) (s : CyState)
    (ent : Nat × Nat × Nat) :
    (uncollapseOutStep G p s ent).isCollapsed = s.isCollapsed := by
  unfold uncollapseOutStep makeEdgeNonBasic
  split <;> [skip; rfl]
  split <;> [rfl; skip]
  split <;> rfl

lemma uncollapseOutStep_other (G : CyGraph) (p : Nat) (s : CyState)
    (ent : Nat × Nat × Nat) (y : Nat) (hy : ¬y = ent.1) :
    (uncollapseOutStep G p s ent).eSrc y = s.eSrc y ∧
      (uncollapseOutStep G p s ent).basicbezier y = s.basicbezier y ∧
      (uncollapseOutStep G p s ent).unbundledbezier y = s.unbundledbezier y ∧
      (uncollapseOutStep G p s ent).notUsingPorts y = s.notUsingPorts y := by
  unfold uncollapseOutStep makeEdgeNonBasic
  by_cases hp : s.present ent.1 = true <;>
    by_cases hq : isPatternId G (s.eTgt ent.1) = true <;>
      by_cases hc : hasCpd G ent.1 = true <;> simp [hp, hq, hc, hy]

lemma uncollapseOutStep_key (G : CyGraph) (p : Nat) (s : CyState)
    (ent : Nat × Nat × Nat) :
    (uncollapseOutStep G p s ent).eSrc ent.1 =
        (if s.present ent.1 then ent.2.1 else s.eSrc ent.1) ∧
      (uncollapseOutStep G p s ent).basicbezier ent.1 =
        (if s.present ent.1 && !isPatternId G (s.eTgt ent.1) && hasCpd G ent.1
         then false else s.basicbezier ent.1) ∧
      (uncollapseOutStep G p s ent).unbundledbezier ent.1 =
        (if s.present ent.1 && !isPatternId G (s.eTgt ent.1) && hasCpd G ent.1
         then true else s.unbundledbezier ent.1) ∧
      (uncollapseOutStep G p s ent).notUsingPorts ent.1 =
        (if s.present ent.1 && !isPatternId G (s.eTgt ent.1) then false
         else s.notUsingPorts ent.1) := by
  unfold uncollapseOutStep makeEdgeNonBasic
  by_cases hp : s.present ent.1 = true <;>
    by_cases hq : isPatternId G (s.eTgt ent.1) = true <;>
      by_cases hc : hasCpd G ent.1 = true <;> simp [hp, hq, hc]

/-
Characterization of the four per-map folds.
-/

lemma foldInC_present (G : CyGraph) (p : Nat) (l : List (Nat × Nat × Nat))
    (s : CyState) :
    (l.foldl (collapseInStep G p) s).present = s.present := by
  induction l generalizing s with
  | nil => rfl
  | cons a t ih =>
    simpa [collapseInStep_present] using ih (collapseInStep G p s a)

lemma foldInC_eSrc (G : CyGraph) (p : Nat) (l : List (Nat × Nat × Nat))
    (s : CyState) :
    (l.foldl (collapseInStep G p) s).eSrc = s.eSrc := by
  induction l generalizing s with
  | nil => rfl
  | cons a t ih =>
    simpa [collapseInStep_eSrc] using ih (collapseInStep G p s a)

lemma foldInC_isCollapsed (G : CyGraph) (p : Nat) (l : List (Nat × Nat × Nat))
    (s : CyState) :
    (l.foldl (collapseInStep G p) s).isCollapsed = s.isCollapsed := by
  induction l generalizing s with
  | nil => rfl
  | cons a t ih =>
    simpa [collapseInStep_isCollapsed] using ih (collapseInStep G p s a)

lemma foldInC_notMem (G : CyGraph) (p : Nat) (l : List (Nat × Nat × Nat))
    (y : Nat) (hy : y ∉ l.map (fun ent => ent.1)) (s : CyState) :
    (l.foldl (collapseInStep G p) s).eTgt y = s.eTgt y ∧
      (l.foldl (collapseInStep G p) s).basicbezier y = s.basicbezier y ∧
      (l.foldl (collapseInStep G p) s).unbundledbezier y = s.unbundledbezier y ∧
      (l.foldl (collapseInStep G p) s).notUsingPorts y = s.notUsingPorts y := by
  induction l generalizing s with
  | nil => exact ⟨rfl, rfl, rfl, rfl⟩
  | cons a t ih =>
    simp only [List.map_cons, List.mem_cons, not_or] at hy
    have hstep := collapseInStep_other G p s a y hy.1
    have hrest := ih hy.2 (collapseInStep G p s a)
    simp only [List.foldl_cons]
    exact ⟨hrest.1.trans hstep.1, hrest.2.1.trans hstep.2.1,
      hrest.2.2.1.trans hstep.2.2.1, hrest.2.2.2.trans hstep.2.2.2⟩

lemma foldInC_mem (G : CyGraph) (p : Nat) (l : List (Nat × Nat × Nat))
    (hN : (l.map (fun ent => ent.1)).Nodup) (ent : Nat × Nat × Nat)
    (hent : ent ∈ l) (s : CyState) :
    (l.foldl (collapseInStep G p) s).eTgt ent.1 =
        (if s.present ent.1 then p else s.eTgt ent.1) ∧
      (l.foldl (collapseInStep G p) s).basicbezier ent.1 =
        (if s.present ent.1 && hasCpd G ent.1 then true
         else s.basicbezier ent.1) ∧
      (l.foldl (collapseInStep G p) s).unbundledbezier ent.1 =
        (if s.present ent.1 && hasCpd G ent.1 then false
         else s.unbundledbezier ent.1) ∧
      (l.foldl (collapseInStep G p) s).notUsingPorts ent.1 =
        (if s.present ent.1 then true else s.notUsingPorts ent.1) := by
  induction l generalizing s with
  | nil => cases hent
  | cons a t ih =>
    simp only [List.map_cons, List.nodup_cons] at hN
    simp only [List.foldl_cons]
    rcases List.mem_cons.1 hent with rfl | hent'
    · have hkey := collapseInStep_key G p s ent
      have hrest := foldInC_notMem G p t ent.1 hN.1 (collapseInStep G p s ent)
      exact ⟨hrest.1.trans hkey.1, hrest.2.1.trans hkey.2.1,
        hrest.2.2.1.trans hkey.2.2.1, hrest.2.2.2.trans hkey.2.2.2⟩
    · have hne : ¬ent.1 = a.1 := by
        intro hcontra
        exact hN.1 (hcontra ▸ List.mem_map.2 ⟨ent, hent', rfl⟩)
      have hstep := collapseInStep_other G p s a ent.1 hne
      have hpres := collapseInStep_present G p s a
      have hrest := ih hN.2 hent' (collapseInStep G p s a)
      rw [hrest.1, hrest.2.1, hrest.2.2.1, hrest.2.2.2, hpres, hstep.1,
        hstep.2.1, hstep.2.2.1, hstep.2.2.2]
      exact ⟨rfl, rfl, rfl, rfl⟩

lemma foldOutC_present (G : CyGraph) (p : Nat) (l : List (Nat × Nat × Nat))
    (s : CyState) :
    (l.foldl (collapseOutStep G p) s).present = s.present := by
  induction l generalizing s with
  | nil => rfl
  | cons a t ih =>
    simpa [collapseOutStep_present] using ih (collapseOutStep G p s a)

lemma foldOutC_eTgt (G : CyGraph) (p : Nat) (l : List (Nat × Nat × Nat))
    (s : CyState) :
    (l.foldl (collapseOutStep G p) s).eTgt = s.eTgt := by
  induction l generalizing s with
  | nil => rfl
  | cons a t ih =>
    simpa [collapseOutStep_eTgt] using ih (collapseOutStep G p s a)

lemma foldOutC_isCollapsed (G : CyGraph) (p : Nat) (l : List (Nat × Nat × Nat))
    (s : CyState) :
    (l.foldl (collapseOutStep G p) s).isCollapsed = s.isCollapsed := by
  induction l generalizing s with
  | nil => rfl
  | cons a t ih =>
    simpa [collapseOutStep_isCollapsed] using ih (collapseOutStep G p s a)

lemma foldOutC_notMem (G : CyGraph) (p : Nat) (l : List (Nat × Nat × Nat))
    (y : Nat) (hy : y ∉ l.map (fun ent => ent.1)) (s : CyState) :
    (l.foldl (collapseOutStep G p) s).eSrc y = s.eSrc y ∧
      (l.foldl (collapseOutStep G p) s).basicbezier y = s.basicbezier y ∧
      (l.foldl (collapseOutStep G p) s).unbundledbezier y = s.unbundledbezier y ∧
      (l.foldl (collapseOutStep G p) s).notUsingPorts y = s.notUsingPorts y := by
  induction l generalizing s with
  | nil => exact ⟨rfl, rfl, rfl, rfl⟩
  | cons a t ih =>
    simp only [List.map_cons, List.mem_cons, not_or] at hy
    have hstep := collapseOutStep_other G p s a y hy.1
    have hrest := ih hy.2 (collapseOutStep G p s a)
    simp only [List.foldl_cons]
    exact ⟨hrest.1.trans hstep.1, hrest.2.1.trans hstep.2.1,
      hrest.2.2.1.trans hstep.2.2.1, hrest.2.2.2.trans hstep.2.2.2⟩

lemma foldOutC_mem (G : CyGraph) (p : Nat) (l : List (Nat × Nat × Nat))
    (hN : (l.map (fun ent => ent.1)).Nodup) (ent : Nat × Nat × Nat)
    (hent : ent ∈ l) (s : CyState) :
    (l.foldl (collapseOutStep G p) s).eSrc ent.1 =
        (if s.present ent.1 then p else s.eSrc ent.1) ∧
      (l.foldl (collapseOutStep G p) s).basicbezier ent.1 =
        (if s.present ent.1 && hasCpd G ent.1 then true
         else s.basicbezier ent.1) ∧
      (l.foldl (collapseOutStep G p) s).unbundledbezier ent.1 =
        (if s.present ent.1 && hasCpd G ent.1 then false
         else s.unbundledbezier ent.1) ∧
      (l.foldl (collapseOutStep G p) s).notUsingPorts ent.1 =
        (if s.present ent.1 then true else s.notUsingPorts ent.1) := by
  induction l generalizing s with
  | nil => cases hent
  | cons a t ih =>
    simp only [List.map_cons, List.nodup_cons] at hN
    simp only [List.foldl_cons]
    rcases List.mem_cons.1 hent with rfl | hent'
    · have hkey := collapseOutStep_key G p s ent
      have hrest := foldOutC_notMem G p t ent.1 hN.1 (collapseOutStep G p s ent)
      exact ⟨hrest.1.trans hkey.1, hrest.2.1.trans hkey.2.1,
        hrest.2.2.1.trans hkey.2.2.1, hrest.2.2.2.trans hkey.2.2.2⟩
    · have hne : ¬ent.1 = a.1 := by
        intro hcontra
        exact hN.1 (hcontra ▸ List.mem_map.2 ⟨ent, hent', rfl⟩)
      have hstep := collapseOutStep_other G p s a ent.1 hne
      have hpres := collapseOutStep_present G p s a
      have hrest := ih hN.2 hent' (collapseOutStep G p s a)
      rw [hrest.1, hrest.2.1, hrest.2.2.1, hrest.2.2.2, hpres, hstep.1,
        hstep.2.1, hstep.2.2.1, hstep.2.2.2]
      exact ⟨rfl, rfl, rfl, rfl⟩

lemma foldInU_present (G : CyGraph) (p : Nat) (l : List (Nat × Nat × Nat))
    (s : CyState) :
    (l.foldl (uncollapseInStep G p) s).present = s.present := by
  induction l generalizing s with
  | nil => rfl
  | cons a t ih =>
    simpa [uncollapseInStep_present] using ih (uncollapseInStep G p s a)

lemma foldInU_eSrc (G : CyGraph) (p : Nat) (l : List (Nat × Nat × Nat))
    (s : CyState) :
    (l.foldl (uncollapseInStep G p) s).eSrc = s.eSrc := by
  induction l generalizing s with
  | nil => rfl
  | cons a t ih =>
    simpa [uncollapseInStep_eSrc] using ih (uncollapseInStep G p s a)

lemma foldInU_isCollapsed (G : CyGraph) (p : Nat) (l : List (Nat × Nat × Nat))
    (s : CyState) :
    (l.foldl (uncollapseInStep G p) s).isCollapsed = s.isCollapsed := by
  induction l generalizing s with
  | nil => rfl
  | cons a t ih =>
    simpa [uncollapseInStep_isCollapsed] using ih (uncollapseInStep G p s a)

lemma foldInU_notMem (G : CyGraph) (p : Nat) (l : List (Nat × Nat × Nat))
    (y : Nat) (hy : y ∉ l.map (fun ent => ent.1)) (s : CyState) :
    (l.foldl (uncollapseInStep G p) s).eTgt y = s.eTgt y ∧
      (l.foldl (uncollapseInStep G p) s).basicbezier y = s.basicbezier y ∧
      (l.foldl (uncollapseInStep G p) s).unbundledbezier y = s.unbundledbezier y ∧
      (l.foldl (uncollapseInStep G p) s).notUsingPorts y = s.notUsingPorts y := by
  induction l generalizing s with
  | nil => exact ⟨rfl, rfl, rfl, rfl⟩
  | cons a t ih =>
    simp only [List.map_cons, List.mem_cons, not_or] at hy
    have hstep := uncollapseInStep_other G p s a y hy.1
    have hrest := ih hy.2 (uncollapseInStep G p s a)
    simp only [List.foldl_cons]
    exact ⟨hrest.1.trans hstep.1, hrest.2.1.trans hstep.2.1,
      hrest.2.2.1.trans hstep.2.2.1, hrest.2.2.2.trans hstep.2.2.2⟩

lemma foldInU_mem (G : CyGraph) (p : Nat) (l : List (Nat × Nat × Nat))
    (hN : (l.map (fun ent => ent.1)).Nodup) (ent : Nat × Nat × Nat)
    (hent : ent ∈ l) (s : CyState) :
    (l.foldl (uncollapseInStep G p) s).eTgt ent.1 =
        (if s.present ent.1 then ent.2.2 else s.eTgt ent.1) ∧
      (l.foldl (uncollapseInStep G p) s).basicbezier ent.1 =
        (if s.present ent.1 && !isPatternId G (s.eSrc ent.1) && hasCpd G ent.1
         then false else s.basicbezier ent.1) ∧
      (l.foldl (uncollapseInStep G p) s).unbundledbezier ent.1 =
        (if s.present ent.1 && !isPatternId G (s.eSrc ent.1) && hasCpd G ent.1
         then true else s.unbundledbezier ent.1) ∧
      (l.foldl (uncollapseInStep G p) s).notUsingPorts ent.1 =
        (if s.present ent.1 && !isPatternId G (s.eSrc ent.1) then false
         else s.notUsingPorts ent.1) := by
  induction l generalizing s with
  | nil => cases hent
  | cons a t ih =>
    simp only [List.map_cons, List.nodup_cons] at hN
    simp only [List.foldl_cons]
    rcases List.mem_cons.1 hent with rfl | hent'
    · have hkey := uncollapseInStep_key G p s ent
      have hrest := foldInU_notMem G p t ent.1 hN.1 (uncollapseInStep G p s ent)
      exact ⟨hrest.1.trans hkey.1, hrest.2.1.trans hkey.2.1,
        hrest.2.2.1.trans hkey.2.2.1, hrest.2.2.2.trans hkey.2.2.2⟩
    · have hne : ¬ent.1 = a.1 := by
        intro hcontra
        exact hN.1 (hcontra ▸ List.mem_map.2 ⟨ent, hent', rfl⟩)
      have hstep := uncollapseInStep_other G p s a ent.1 hne
      have hpres := uncollapseInStep_present G p s a
      have hsrc := uncollapseInStep_eSrc G p s a
      have hrest := ih hN.2 hent' (uncollapseInStep G p s a)
      rw [hrest.1, hrest.2.1, hrest.2.2.1, hrest.2.2.2, hpres, hsrc, hstep.1,
        hstep.2.1, hstep.2.2.1, hstep.2.2.2]
      exact ⟨rfl, rfl, rfl, rfl⟩

lemma foldOutU_present (G : CyGraph) (p : Nat) (l : List (Nat × Nat × Nat))
    (s : CyState) :
    (l.foldl (uncollapseOutStep G p) s).present = s.present := by
  induction l generalizing s with
  | nil => rfl
  | cons a t ih =>
    simpa [uncollapseOutStep_present] using ih (uncollapseOutStep G p s a)

lemma foldOutU_eTgt (G : CyGraph) (p : Nat) (l : List (Nat × Nat × Nat))
    (s : CyState) :
    (l.foldl (uncollapseOutStep G p) s).eTgt = s.eTgt := by
  induction l generalizing s with
  | nil => rfl
  | cons a t ih =>
    simpa [uncollapseOutStep_eTgt] using ih (uncollapseOutStep G p s a)

lemma foldOutU_isCollapsed (G : CyGraph) (p : Nat) (l : List (Nat × Nat × Nat))
    (s : CyState) :
    (l.foldl (uncollapseOutStep G p) s).isCollapsed = s.isCollapsed := by
  induction l generalizing s with
  | nil => rfl
  | cons a t ih =>
    simpa [uncollapseOutStep_isCollapsed] using ih (uncollapseOutStep G p s a)

lemma foldOutU_notMem (G : CyGraph) (p : Nat) (l : List (Nat × Nat × Nat))
    (y : Nat) (hy : y ∉ l.map (fun ent => ent.1)) (s : CyState) :
    (l.foldl (uncollapseOutStep G p) s).eSrc y = s.eSrc y ∧
      (l.foldl (uncollapseOutStep G p) s).basicbezier y = s.basicbezier y ∧
      (l.foldl (uncollapseOutStep G p) s).unbundledbezier y = s.unbundledbezier y ∧
      (l.foldl (uncollapseOutStep G p) s).notUsingPorts y = s.notUsingPorts y := by
  induction l generalizing s with
  | nil => exact ⟨rfl, rfl, rfl, rfl⟩
  | cons a t ih =>
    simp only [List.map_cons, List.mem_cons, not_or] at hy
    have hstep := uncollapseOutStep_other G p s a y hy.1
    have hrest := ih hy.2 (uncollapseOutStep G p s a)
    simp only [List.foldl_cons]
    exact ⟨hrest.1.trans hstep.1, hrest.2.1.trans hstep.2.1,
      hrest.2.2.1.trans hstep.2.2.1, hrest.2.2.2.trans hstep.2.2.2⟩

lemma foldOutU_mem (G : CyGraph) (p : Nat) (l : List (Nat × Nat × Nat))
    (hN : (l.map (fun ent => ent.1)).Nodup) (ent : Nat × Nat × Nat)
    (hent : ent ∈ l) (s : CyState) :
    (l.foldl (uncollapseOutStep G p) s).eSrc ent.1 =
        (if s.present ent.1 then ent.2.1 else s.eSrc ent.1) ∧
      (l.foldl (uncollapseOutStep G p) s).basicbezier ent.1 =
        (if s.present ent.1 && !isPatternId G (s.eTgt ent.1) && hasCpd G ent.1
         then false else s.basicbezier ent.1) ∧
      (l.foldl (uncollapseOutStep G p) s).unbundledbezier ent.1 =
        (if s.present ent.1 && !isPatternId G (s.eTgt ent.1) && hasCpd G ent.1
         then true else s.unbundledbezier ent.1) ∧
      (l.foldl (uncollapseOutStep G p) s).notUsingPorts ent.1 =
        (if s.present ent.1 && !isPatternId G (s.eTgt ent.1) then false
         else s.notUsingPorts ent.1) := by
  induction l generalizing s with
  | nil => cases hent
  | cons a t ih =>
    simp only [List.map_cons, List.nodup_cons] at hN
    simp only [List.foldl_cons]
    rcases List.mem_cons.1 hent with rfl | hent'
    · have hkey := uncollapseOutStep_key G p s ent
      have hrest := foldOutU_notMem G p t ent.1 hN.1 (uncollapseOutStep G p s ent)
      exact ⟨hrest.1.trans hkey.1, hrest.2.1.trans hkey.2.1,
        hrest.2.2.1.trans hkey.2.2.1, hrest.2.2.2.trans hkey.2.2.2⟩
    · have hne : ¬ent.1 = a.1 := by
        intro hcontra
        exact hN.1 (hcontra ▸ List.mem_map.2 ⟨ent, hent', rfl⟩)
      have hstep := uncollapseOutStep_other G p s a ent.1 hne
      have hpres := uncollapseOutStep_present G p s a
      have htgt := uncollapseOutStep_eTgt G p s a
      have hrest := ih hN.2 hent' (uncollapseOutStep G p s a)
      rw [hrest.1, hrest.2.1, hrest.2.2.1, hrest.2.2.2, hpres, htgt, hstep.1,
        hstep.2.1, hstep.2.2.1, hstep.2.2.2]
      exact ⟨rfl, rfl, rfl, rfl⟩

/-
Key-list bookkeeping for the canonical edge maps.
-/

lemma imKeys_eq (G : CyGraph) (p : Nat) :
    (incomingEdgeMap G p).map (fun ent => ent.1) =
      (incomingEdges G p).map (fun e => e.eid) := by
  simp [incomingEdgeMap]

lemma omKeys_eq (G : CyGraph) (p : Nat) :
    (outgoingEdgeMap G p).map (fun ent => ent.1) =
      (outgoingEdges G p).map (fun e => e.eid) := by
  simp [outgoingEdgeMap]

lemma incoming_sublist (G : CyGraph) (p : Nat) :
    List.Sublist (incomingEdges G p) G.edges :=
  List.Sublist.trans (List.filter_sublist _) (List.filter_sublist _)

lemma outgoing_sublist (G : CyGraph) (p : Nat) :
    List.Sublist (outgoingEdges G p) G.edges :=
  List.Sublist.trans (List.filter_sublist _) (List.filter_sublist _)

lemma imKeys_nodup (G : CyGraph) (p : Nat) (h : (edgeIds G).Nodup) :
    ((incomingEdgeMap G p).map (fun ent => ent.1)).Nodup := by
  rw [imKeys_eq]
  exact List.Nodup.sublist (List.Sublist.map _ (incoming_sublist G p)) h

lemma omKeys_nodup (G : CyGraph) (p : Nat) (h : (edgeIds G).Nodup) :
    ((outgoingEdgeMap G p).map (fun ent => ent.1)).Nodup := by
  rw [omKeys_eq]
  exact List.Nodup.sublist (List.Sublist.map _ (outgoing_sublist G p)) h

lemma mem_imKeys_iff (G : CyGraph) (p : Nat) (x : Nat) :
    x ∈ (incomingEdgeMap G p).map (fun ent => ent.1) ↔
      ∃ e ∈ incomingEdges G p, e.eid = x := by
  rw [imKeys_eq]
  simp

lemma mem_omKeys_iff (G : CyGraph) (p : Nat) (x : Nat) :
    x ∈ (outgoingEdgeMap G p).map (fun ent => ent.1) ↔
      ∃ e ∈ outgoingEdges G p, e.eid = x := by
  rw [omKeys_eq]
  simp

lemma imKeys_omKeys_disjoint (G : CyGraph) (p : Nat) (x : Nat)
    (hi : x ∈ (incomingEdgeMap G p).map (fun ent => ent.1)) :
    x ∉ (outgoingEdgeMap G p).map (fun ent => ent.1) := by
  intro ho
  rcases (mem_imKeys_iff G p x).1 hi with ⟨e, he, hex⟩
  rcases (mem_omKeys_iff G p x).1 ho with ⟨f, hf, hfx⟩
  rcases (mem_incoming_iff G p e).1 he with ⟨_, hno⟩
  rcases (mem_outgoing_iff G p f).1 hf with ⟨hfu, _⟩
  exact hno f hfu (hfx.trans hex.symm)

lemma interior_not_imKeys (G : CyGraph) (p : Nat) (e : CyEdge)
    (he : e ∈ interiorEdges G p) :
    e.eid ∉ (incomingEdgeMap G p).map (fun ent => ent.1) := by
  intro hi
  rcases (mem_imKeys_iff G p e.eid).1 hi with ⟨f, hf, hfx⟩
  rcases (mem_interior_iff G p e).1 he with ⟨_, hni, _⟩
  exact hni f hf hfx

lemma interior_not_omKeys (G : CyGraph) (p : Nat) (e : CyEdge)
    (he : e ∈ interiorEdges G p) :
    e.eid ∉ (outgoingEdgeMap G p).map (fun ent => ent.1) := by
  intro hi
  rcases (mem_omKeys_iff G p e.eid).1 hi with ⟨f, hf, hfx⟩
  rcases (mem_interior_iff G p e).1 he with ⟨_, _, hno⟩
  exact hno f hf hfx

/-
Characterization of collapsePattern and uncollapsePattern, field by field.
-/

lemma collapsePattern_eq (G : CyGraph) (p : Nat) (s : CyState) :
    collapsePattern G p s =
      removeEles G (interiorEleIds G p) (collapsePreRemove G p s) := rfl

lemma removeEles_present (G : CyGraph) (roots : List Nat) (u : CyState)
    (x : Nat) :
    (removeEles G roots u).present x = (u.present x && !removedId G roots u x) :=
  rfl

lemma cpr_present (G : CyGraph) (p : Nat) (s : CyState) :
    (collapsePreRemove G p s).present = s.present := by
  show ((outgoingEdgeMap G p).foldl (collapseOutStep G p)
      ((incomingEdgeMap G p).foldl (collapseInStep G p) s)).present = s.present
  rw [foldOutC_present, foldInC_present]

lemma cpr_isCollapsed (G : CyGraph) (p : Nat) (s : CyState) (x : Nat) :
    (collapsePreRemove G p s).isCollapsed x =
      (if x = p then true else s.isCollapsed x) := by
  show (if x = p then true
      else ((outgoingEdgeMap G p).foldl (collapseOutStep G p)
        ((incomingEdgeMap G p).foldl (collapseInStep G p) s)).isCollapsed x) = _
  rw [foldOutC_isCollapsed, foldInC_isCollapsed]

lemma cpr_eSrc_notOM (G : CyGraph) (p : Nat) (s : CyState) (x : Nat)
    (hx : x ∉ (outgoingEdgeMap G p).map (fun ent => ent.1)) :
    (collapsePreRemove G p s).eSrc x = s.eSrc x := by
  show ((outgoingEdgeMap G p).foldl (collapseOutStep G p)
      ((incomingEdgeMap G p).foldl (collapseInStep G p) s)).eSrc x = _
  rw [(foldOutC_notMem G p _ x hx _).1, foldInC_eSrc]

lemma cpr_eTgt_notIM (G : CyGraph) (p : Nat) (s : CyState) (x : Nat)
    (hx : x ∉ (incomingEdgeMap G p).map (fun ent => ent.1)) :
    (collapsePreRemove G p s).eTgt x = s.eTgt x := by
  show ((outgoingEdgeMap G p).foldl (collapseOutStep G p)
      ((incomingEdgeMap G p).foldl (collapseInStep G p) s)).eTgt x = _
  rw [foldOutC_eTgt, (foldInC_notMem G p _ x hx _).1]

lemma cpr_eSrc_OM (G : CyGraph) (p : Nat) (s : CyState)
    (hN : (edgeIds G).Nodup) (ent : Nat × Nat × Nat)
    (hent : ent ∈ outgoingEdgeMap G p) :
    (collapsePreRemove G p s).eSrc ent.1 =
      (if s.present ent.1 then p else s.eSrc ent.1) := by
  show ((outgoingEdgeMap G p).foldl (collapseOutStep G p)
      ((incomingEdgeMap G p).foldl (collapseInStep G p) s)).eSrc ent.1 = _
  rw [(foldOutC_mem G p _ (omKeys_nodup G p hN) ent hent _).1, foldInC_present,
    foldInC_eSrc]

lemma cpr_eTgt_IM (G : CyGraph) (p : Nat) (s : CyState)
    (hN : (edgeIds G).Nodup) (ent : Nat × Nat × Nat)
    (hent : ent ∈ incomingEdgeMap G p) :
    (collapsePreRemove G p s).eTgt ent.1 =
      (if s.present ent.1 then p else s.eTgt ent.1) := by
  have hx : ent.1 ∉ (outgoingEdgeMap G p).map (fun e => e.1) :=
    imKeys_omKeys_disjoint G p ent.1 (List.mem_map.2 ⟨ent, hent, rfl⟩)
  show ((outgoingEdgeMap G p).foldl (collapseOutStep G p)
      ((incomingEdgeMap G p).foldl (collapseInStep G p) s)).eTgt ent.1 = _
  rw [foldOutC_eTgt, (foldInC_mem G p _ (imKeys_nodup G p hN) ent hent _).1]

lemma cpr_classes_notIMOM (G : CyGraph) (p : Nat) (s : CyState) (x : Nat)
    (hxi : x ∉ (incomingEdgeMap G p).map (fun ent => ent.1))
    (hxo : x ∉ (outgoingEdgeMap G p).map (fun ent => ent.1)) :
    (collapsePreRemove G p s).basicbezier x = s.basicbezier x ∧
      (collapsePreRemove G p s).unbundledbezier x = s.unbundledbezier x ∧
      (collapsePreRemove G p s).notUsingPorts x = s.notUsingPorts x := by
  have h1 := foldInC_notMem G p (incomingEdgeMap G p) x hxi s
  have h2 := foldOutC_notMem G p (outgoingEdgeMap G p) x hxo
    ((incomingEdgeMap G p).foldl (collapseInStep G p) s)
  exact ⟨h2.2.1.trans h1.2.1, h2.2.2.1.trans h1.2.2.1, h2.2.2.2.trans h1.2.2.2⟩

lemma cpr_classes_IM (G : CyGraph) (p : Nat) (s : CyState)
    (hN : (edgeIds G).Nodup) (ent : Nat × Nat × Nat)
    (hent : ent ∈ incomingEdgeMap G p) :
    (collapsePreRemove G p s).basicbezier ent.1 =
        (if s.present ent.1 && hasCpd G ent.1 then true
         else s.basicbezier ent.1) ∧
      (collapsePreRemove G p s).unbundledbezier ent.1 =
        (if s.present ent.1 && hasCpd G ent.1 then false
         else s.unbundledbezier ent.1) ∧
      (collapsePreRemove G p s).notUsingPorts ent.1 =
        (if s.present ent.1 then true else s.notUsingPorts ent.1) := by
  have hx : ent.1 ∉ (outgoingEdgeMap G p).map (fun e => e.1) :=
    imKeys_omKeys_disjoint G p ent.1 (List.mem_map.2 ⟨ent, hent, rfl⟩)
  have h1 := foldInC_mem G p (incomingEdgeMap G p) (imKeys_nodup G p hN) ent
    hent s
  have h2 := foldOutC_notMem G p (outgoingEdgeMap G p) ent.1 hx
    ((incomingEdgeMap G p).foldl (collapseInStep G p) s)
  exact ⟨h2.2.1.trans h1.2.1, h2.2.2.1.trans h1.2.2.1, h2.2.2.2.trans h1.2.2.2⟩

lemma cpr_classes_OM (G : CyGraph) (p : Nat) (s : CyState)
    (hN : (edgeIds G).Nodup) (ent : Nat × Nat × Nat)
    (hent : ent ∈ outgoingEdgeMap G p) :
    (collapsePreRemove G p s).basicbezier ent.1 =
        (if s.present ent.1 && hasCpd G ent.1 then true
         else s.basicbezier ent.1) ∧
      (collapsePreRemove G p s).unbundledbezier ent.1 =
        (if s.present ent.1 && hasCpd G ent.1 then false
         else s.unbundledbezier ent.1) ∧
      (collapsePreRemove G p s).notUsingPorts ent.1 =
        (if s.present ent.1 then true else s.notUsingPorts ent.1) := by
  have hx : ent.1 ∉ (incomingEdgeMap G p).map (fun e => e.1) := by
    intro hmem
    exact imKeys_omKeys_disjoint G p ent.1 hmem (List.mem_map.2 ⟨ent, hent, rfl⟩)
  have h1 := foldInC_notMem G p (incomingEdgeMap G p) ent.1 hx s
  have h2 := foldOutC_mem G p (outgoingEdgeMap G p) (omKeys_nodup G p hN) ent
    hent ((incomingEdgeMap G p).foldl (collapseInStep G p) s)
  refine ⟨?_, ?_, ?_⟩
  · show ((outgoingEdgeMap G p).foldl (collapseOutStep G p)
        ((incomingEdgeMap G p).foldl (collapseInStep G p) s)).basicbezier ent.1 = _
    rw [h2.2.1, foldInC_present, h1.2.1]
  · show ((outgoingEdgeMap G p).foldl (collapseOutStep G p)
        ((incomingEdgeMap G p).foldl (collapseInStep G p) s)).unbundledbezier ent.1 = _
    rw [h2.2.2.1, foldInC_present, h1.2.2.1]
  · show ((outgoingEdgeMap G p).foldl (collapseOutStep G p)
        ((incomingEdgeMap G p).foldl (collapseInStep G p) s)).notUsingPorts ent.1 = _
    rw [h2.2.2.2, foldInC_present, h1.2.2.2]

lemma unc_present (G : CyGraph) (p : Nat) (s : CyState) :
    (uncollapsePattern G p s).present =
      (restoreEles G (interiorEleIds G p) s).present := by
  show ((outgoingEdgeMap G p).foldl (uncollapseOutStep G p)
      ((incomingEdgeMap G p).foldl (uncollapseInStep G p)
        (restoreEles G (interiorEleIds G p) s))).present = _
  rw [foldOutU_present, foldInU_present]

lemma unc_isCollapsed (G : CyGraph) (p : Nat) (s : CyState) (x : Nat) :
    (uncollapsePattern G p s).isCollapsed x =
      (if x = p then false else s.isCollapsed x) := by
  show (if x = p then false
      else ((outgoingEdgeMap G p).foldl (uncollapseOutStep G p)
        ((incomingEdgeMap G p).foldl (uncollapseInStep G p)
          (restoreEles G (interiorEleIds G p) s))).isCollapsed x) = _
  rw [foldOutU_isCollapsed, foldInU_isCollapsed]
  rfl

lemma unc_eSrc_notOM (G : CyGraph) (p : Nat) (s : CyState) (x : Nat)
    (hx : x ∉ (outgoingEdgeMap G p).map (fun ent => ent.1)) :
    (uncollapsePattern G p s).eSrc x = s.eSrc x := by
  show ((outgoingEdgeMap G p).foldl (uncollapseOutStep G p)
      ((incomingEdgeMap G p).foldl (uncollapseInStep G p)
        (restoreEles G (interiorEleIds G p) s))).eSrc x = _
  rw [(foldOutU_notMem G p _ x hx _).1, foldInU_eSrc]
  rfl

lemma unc_eTgt_notIM (G : CyGraph) (p : Nat) (s : CyState) (x : Nat)
    (hx : x ∉ (incomingEdgeMap G p).map (fun ent => ent.1)) :
    (uncollapsePattern G p s).eTgt x = s.eTgt x := by
  show ((outgoingEdgeMap G p).foldl (uncollapseOutStep G p)
      ((incomingEdgeMap G p).foldl (uncollapseInStep G p)
        (restoreEles G (interiorEleIds G p) s))).eTgt x = _
  rw [foldOutU_eTgt, (foldInU_notMem G p _ x hx _).1]
  rfl

lemma unc_eSrc_OM (G : CyGraph) (p : Nat) (s : CyState)
    (hN : (edgeIds G).Nodup) (ent : Nat × Nat × Nat)
    (hent : ent ∈ outgoingEdgeMap G p) :
    (uncollapsePattern G p s).eSrc ent.1 =
      (if (restoreEles G (interiorEleIds G p) s).present ent.1 then ent.2.1
       else s.eSrc ent.1) := by
  show ((outgoingEdgeMap G p).foldl (uncollapseOutStep G p)
      ((incomingEdgeMap G p).foldl (uncollapseInStep G p)
        (restoreEles G (interiorEleIds G p) s))).eSrc ent.1 = _
  rw [(foldOutU_mem G p _ (omKeys_nodup G p hN) ent hent _).1, foldInU_present,
    foldInU_eSrc]
  rfl

lemma unc_eTgt_IM (G : CyGraph) (p : Nat) (s : CyState)
    (hN : (edgeIds G).Nodup) (ent : Nat × Nat × Nat)
    (hent : ent ∈ incomingEdgeMap G p) :
    (uncollapsePattern G p s).eTgt ent.1 =
      (if (restoreEles G (interiorEleIds G p) s).present ent.1 then ent.2.2
       else s.eTgt ent.1) := by
  have hx : ent.1 ∉ (outgoingEdgeMap G p).map (fun e => e.1) :=
    imKeys_omKeys_disjoint G p ent.1 (List.mem_map.2 ⟨ent, hent, rfl⟩)
  show ((outgoingEdgeMap G p).foldl (uncollapseOutStep G p)
      ((incomingEdgeMap G p).foldl (uncollapseInStep G p)
        (restoreEles G (interiorEleIds G p) s))).eTgt ent.1 = _
  rw [foldOutU_eTgt, (foldInU_mem G p _ (imKeys_nodup G p hN) ent hent _).1]
  rfl

lemma unc_classes_notIMOM (G : CyGraph) (p : Nat) (s : CyState) (x : Nat)
    (hxi : x ∉ (incomingEdgeMap G p).map (fun ent => ent.1))
    (hxo : x ∉ (outgoingEdgeMap G p).map (fun ent => ent.1)) :
    (uncollapsePattern G p s).basicbezier x = s.basicbezier x ∧
      (uncollapsePattern G p s).unbundledbezier x = s.unbundledbezier x ∧
      (uncollapsePattern G p s).notUsingPorts x = s.notUsingPorts x := by
  have h1 := foldInU_notMem G p (incomingEdgeMap G p) x hxi
    (restoreEles G (interiorEleIds G p) s)
  have h2 := foldOutU_notMem G p (outgoingEdgeMap G p) x hxo
    ((incomingEdgeMap G p).foldl (uncollapseInStep G p)
      (restoreEles G (interiorEleIds G p) s))
  exact ⟨h2.2.1.trans h1.2.1, h2.2.2.1.trans h1.2.2.1, h2.2.2.2.trans h1.2.2.2⟩

lemma unc_classes_IM (G : CyGraph) (p : Nat) (s : CyState)
    (hN : (edgeIds G).Nodup) (ent : Nat × Nat × Nat)
    (hent : ent ∈ incomingEdgeMap G p) :
    (uncollapsePattern G p s).basicbezier ent.1 =
        (if (restoreEles G (interiorEleIds G p) s).present ent.1 &&
            !isPatternId G (s.eSrc ent.1) && hasCpd G ent.1 then false
         else s.basicbezier ent.1) ∧
      (uncollapsePattern G p s).unbundledbezier ent.1 =
        (if (restoreEles G (interiorEleIds G p) s).present ent.1 &&
            !isPatternId G (s.eSrc ent.1) && hasCpd G ent.1 then true
         else s.unbundledbezier ent.1) ∧
      (uncollapsePattern G p s).notUsingPorts ent.1 =
        (if (restoreEles G (interiorEleIds G p) s).present ent.1 &&
            !isPatternId G (s.eSrc ent.1) then false
         else s.notUsingPorts ent.1) := by
  have hx : ent.1 ∉ (outgoingEdgeMap G p).map (fun e => e.1) :=
    imKeys_omKeys_disjoint G p ent.1 (List.mem_map.2 ⟨ent, hent, rfl⟩)
  have h1 := foldInU_mem G p (incomingEdgeMap G p) (imKeys_nodup G p hN) ent
    hent (restoreEles G (interiorEleIds G p) s)
  have h2 := foldOutU_notMem G p (outgoingEdgeMap G p) ent.1 hx
    ((incomingEdgeMap G p).foldl (uncollapseInStep G p)
      (restoreEles G (interiorEleIds G p) s))
  exact ⟨h2.2.1.trans h1.2.1, h2.2.2.1.trans h1.2.2.1, h2.2.2.2.trans h1.2.2.2⟩

lemma unc_classes_OM (G : CyGraph) (p : Nat) (s : CyState)
    (hN : (edgeIds G).Nodup) (ent : Nat × Nat × Nat)
    (hent : ent ∈ outgoingEdgeMap G p) :
    (uncollapsePattern G p s).basicbezier ent.1 =
        (if (restoreEles G (interiorEleIds G p) s).present ent.1 &&
            !isPatternId G (s.eTgt ent.1) && hasCpd G ent.1 then false
         else s.basicbezier ent.1) ∧
      (uncollapsePattern G p s).unbundledbezier ent.1 =
        (if (restoreEles G (interiorEleIds G p) s).present ent.1 &&
            !isPatternId G (s.eTgt ent.1) && hasCpd G ent.1 then true
         else s.unbundledbezier ent.1) ∧
      (uncollapsePattern G p s).notUsingPorts ent.1 =
        (if (restoreEles G (interiorEleIds G p) s).present ent.1 &&
            !isPatternId G (s.eTgt ent.1) then false
         else s.notUsingPorts ent.1) := by
  have hx : ent.1 ∉ (incomingEdgeMap G p).map (fun e => e.1) := by
    intro hmem
    exact imKeys_omKeys_disjoint G p ent.1 hmem (List.mem_map.2 ⟨ent, hent, rfl⟩)
  have h1 := foldInU_notMem G p (incomingEdgeMap G p) ent.1 hx
    (restoreEles G (interiorEleIds G p) s)
  have h2 := foldOutU_mem G p (outgoingEdgeMap G p) (omKeys_nodup G p hN) ent
    hent ((incomingEdgeMap G p).foldl (uncollapseInStep G p)
      (restoreEles G (interiorEleIds G p) s))
  refine ⟨?_, ?_, ?_⟩
  · show ((outgoingEdgeMap G p).foldl (uncollapseOutStep G p)
        ((incomingEdgeMap G p).foldl (uncollapseInStep G p)
          (restoreEles G (interiorEleIds G p) s))).basicbezier ent.1 = _
    rw [h2.2.1, foldInU_present, h1.2.1, h1.1]
    rfl
  · show ((outgoingEdgeMap G p).foldl (uncollapseOutStep G p)
        ((incomingEdgeMap G p).foldl (uncollapseInStep G p)
          (restoreEles G (interiorEleIds G p) s))).unbundledbezier ent.1 = _
    rw [h2.2.2.1, foldInU_present, h1.2.2.1, h1.1]
    rfl
  · show ((outgoingEdgeMap G p).foldl (uncollapseOutStep G p)
        ((incomingEdgeMap G p).foldl (uncollapseInStep G p)
          (restoreEles G (interiorEleIds G p) s))).notUsingPorts ent.1 = _
    rw [h2.2.2.2, foldInU_present, h1.2.2.2, h1.1]
    rfl

lemma removedId_congr (G : CyGraph) (roots : List Nat) (u v : CyState) (x : Nat)
    (hs : u.eSrc x = v.eSrc x) (ht : u.eTgt x = v.eTgt x) :
    removedId G roots u x = removedId G roots v x := by
  unfold removedId
  rw [hs, ht]

lemma collapse_present_formula (G : CyGraph) (p : Nat) (s : CyState) (x : Nat) :
    (collapsePattern G p s).present x =
      (s.present x &&
        !removedId G (interiorEleIds G p) (collapsePreRemove G p s) x) := by
  rw [collapsePattern_eq, removeEles_present, cpr_present]

lemma collapse_present_imp (G : CyGraph) (p : Nat) (s : CyState) (x : Nat)
    (h : (collapsePattern G p s).present x = true) : s.present x = true := by
  rw [collapse_present_formula] at h
  simp only [Bool.and_eq_true] at h
  exact h.1

lemma collapse_present_notRemoved (G : CyGraph) (p : Nat) (s : CyState) (x : Nat)
    (h : (collapsePattern G p s).present x = true) :
    removedId G (interiorEleIds G p) (collapsePreRemove G p s) x = false := by
  rw [collapse_present_formula] at h
  simp only [Bool.and_eq_true, Bool.not_eq_true'] at h
  exact h.2

lemma collapsePattern_idem (G : CyGraph) (p : Nat)
    (hN : (edgeIds G).Nodup) (s : CyState) :
    collapsePattern G p (collapsePattern G p s) = collapsePattern G p s := by
  set r := collapsePattern G p s with hr
  -- the r-relative characterization of the second collapse's pre-removal state
  have hpres2 : (collapsePreRemove G p r).present = r.present := cpr_present G p r
  have heSrc2 : ∀ x, (collapsePreRemove G p r).eSrc x = r.eSrc x := by
    intro x
    by_cases hx : x ∈ (outgoingEdgeMap G p).map (fun ent => ent.1)
    · rcases List.mem_map.1 hx with ⟨ent, hent, rfl⟩
      rw [cpr_eSrc_OM G p r hN ent hent]
      by_cases hp : r.present ent.1 = true
      · rw [if_pos hp]
        have hsp : s.present ent.1 = true := collapse_present_imp G p s ent.1 hp
        have : r.eSrc ent.1 = (collapsePreRemove G p s).eSrc ent.1 := rfl
        rw [this, cpr_eSrc_OM G p s hN ent hent, if_pos hsp]
      · rw [if_neg hp]
    · rw [cpr_eSrc_notOM G p r x hx]
  have heTgt2 : ∀ x, (collapsePreRemove G p r).eTgt x = r.eTgt x := by
    intro x
    by_cases hx : x ∈ (incomingEdgeMap G p).map (fun ent => ent.1)
    · rcases List.mem_map.1 hx with ⟨ent, hent, rfl⟩
      rw [cpr_eTgt_IM G p r hN ent hent]
      by_cases hp : r.present ent.1 = true
      · rw [if_pos hp]
        have hsp : s.present ent.1 = true := collapse_present_imp G p s ent.1 hp
        have : r.eTgt ent.1 = (collapsePreRemove G p s).eTgt ent.1 := rfl
        rw [this, cpr_eTgt_IM G p s hN ent hent, if_pos hsp]
      · rw [if_neg hp]
    · rw [cpr_eTgt_notIM G p r x hx]
  have hclasses2 : ∀ x,
      (collapsePreRemove G p r).basicbezier x = r.basicbezier x ∧
        (collapsePreRemove G p r).unbundledbezier x = r.unbundledbezier x ∧
        (collapsePreRemove G p r).notUsingPorts x = r.notUsingPorts x := by
    intro x
    by_cases hxi : x ∈ (incomingEdgeMap G p).map (fun ent => ent.1)
    · rcases List.mem_map.1 hxi with ⟨ent, hent, rfl⟩
      have hch := cpr_classes_IM G p r hN ent hent
      have hch1 := cpr_classes_IM G p s hN ent hent
      by_cases hp : r.present ent.1 = true
      · have hsp : s.present ent.1 = true := collapse_present_imp G p s ent.1 hp
        have hb : r.basicbezier ent.1 =
            (if s.present ent.1 && hasCpd G ent.1 then true
             else s.basicbezier ent.1) := hch1.1
        have hu : r.unbundledbezier ent.1 =
            (if s.present ent.1 && hasCpd G ent.1 then false
             else s.unbundledbezier ent.1) := hch1.2.1
        have hn : r.notUsingPorts ent.1 =
            (if s.present ent.1 then true else s.notUsingPorts ent.1) :=
          hch1.2.2
        refine ⟨hch.1.trans ?_, hch.2.1.trans ?_, hch.2.2.trans ?_⟩
        · by_cases hc : hasCpd G ent.1 = true
          · rw [hp, hc, hb, hsp, hc]
            rfl
          · simp [hc]
        · by_cases hc : hasCpd G ent.1 = true
          · rw [hp, hc, hu, hsp, hc]
            rfl
          · simp [hc]
        · rw [if_pos hp, hn, if_pos hsp]
      · have hpf : r.present ent.1 = false := by
          cases hq : r.present ent.1
          · rfl
          · exact absurd hq hp
        refine ⟨hch.1.trans ?_, hch.2.1.trans ?_, hch.2.2.trans ?_⟩ <;>
          rw [hpf] <;> simp
    · by_cases hxo : x ∈ (outgoingEdgeMap G p).map (fun ent => ent.1)
      · rcases List.mem_map.1 hxo with ⟨ent, hent, rfl⟩
        have hch := cpr_classes_OM G p r hN ent hent
        have hch1 := cpr_classes_OM G p s hN ent hent
        by_cases hp : r.present ent.1 = true
        · have hsp : s.present ent.1 = true := collapse_present_imp G p s ent.1 hp
          have hb : r.basicbezier ent.1 =
              (if s.present ent.1 && hasCpd G ent.1 then true
               else s.basicbezier ent.1) := hch1.1
          have hu : r.unbundledbezier ent.1 =
              (if s.present ent.1 && hasCpd G ent.1 then false
               else s.unbundledbezier ent.1) := hch1.2.1
          have hn : r.notUsingPorts ent.1 =
              (if s.present ent.1 then true else s.notUsingPorts ent.1) :=
            hch1.2.2
          refine ⟨hch.1.trans ?_, hch.2.1.trans ?_, hch.2.2.trans ?_⟩
          · by_cases hc : hasCpd G ent.1 = true
            · rw [hp, hc, hb, hsp, hc]
              rfl
            · simp [hc]
          · by_cases hc : hasCpd G ent.1 = true
            · rw [hp, hc, hu, hsp, hc]
              rfl
            · simp [hc]
          · rw [if_pos hp, hn, if_pos hsp]
        · have hpf : r.present ent.1 = false := by
            cases hq : r.present ent.1
            · rfl
            · exact absurd hq hp
          refine ⟨hch.1.trans ?_, hch.2.1.trans ?_, hch.2.2.trans ?_⟩ <;>
            rw [hpf] <;> simp
      · exact cpr_classes_notIMOM G p r x hxi hxo
  have hcol2 : ∀ x, (collapsePreRemove G p r).isCollapsed x = r.isCollapsed x := by
    intro x
    rw [cpr_isCollapsed]
    have hrc : r.isCollapsed x = (if x = p then true else s.isCollapsed x) := by
      have hh : r.isCollapsed x = (collapsePreRemove G p s).isCollapsed x := rfl
      rw [hh, cpr_isCollapsed]
    rw [hrc]
    by_cases hx : x = p
    · rw [if_pos hx, if_pos hx]
    · rw [if_neg hx, if_neg hx]
  have hrm : ∀ x,
      removedId G (interiorEleIds G p) (collapsePreRemove G p r) x =
        removedId G (interiorEleIds G p) (collapsePreRemove G p s) x := by
    intro x
    have h1 : (collapsePreRemove G p r).eSrc x =
        (collapsePreRemove G p s).eSrc x := (heSrc2 x).trans rfl
    have h2 : (collapsePreRemove G p r).eTgt x =
        (collapsePreRemove G p s).eTgt x := (heTgt2 x).trans rfl
    exact removedId_congr G _ _ _ x h1 h2
  -- now prove the state equality field by field
  apply CyState.ext
  · funext x
    rw [collapse_present_formula G p r x, hrm x, collapse_present_formula G p s x]
    cases hsp : s.present x <;>
      cases hrm2 : removedId G (interiorEleIds G p) (collapsePreRemove G p s) x <;>
        rfl
  · funext x
    exact (heSrc2 x : (collapsePattern G p r).eSrc x = r.eSrc x)
  · funext x
    exact (heTgt2 x : (collapsePattern G p r).eTgt x = r.eTgt x)
  · funext x
    exact ((hclasses2 x).1 : (collapsePattern G p r).basicbezier x = _)
  · funext x
    exact ((hclasses2 x).2.1 : (collapsePattern G p r).unbundledbezier x = _)
  · funext x
    exact ((hclasses2 x).2.2 : (collapsePattern G p r).notUsingPorts x = _)
  · funext x
    exact (hcol2 x : (collapsePattern G p r).isCollapsed x = _)

lemma restore_noop (G : CyGraph) (p : Nat) (s : CyState)
    (hint : ∀ x ∈ interiorEleIds G p, s.present x = true) :
    restoreEles G (interiorEleIds G p) s = s := by
  refine CyState.ext ?_ rfl rfl rfl rfl rfl rfl
  funext x
  by_cases hx : x ∈ interiorEleIds G p
  · have hp := hint x hx
    simp [restoreEles, hp]
  · simp [restoreEles, hx]

lemma uncollapse_noop (G : CyGraph) (p : Nat) (s : CyState)
    (hN : (edgeIds G).Nodup) (hE : ExpandedAt G p s) :
    uncollapsePattern G p s = s := by
  obtain ⟨hflag, hint, _hintE, hinc, hout⟩ := hE
  have hres : restoreEles G (interiorEleIds G p) s = s := restore_noop G p s hint
  apply CyState.ext
  · rw [unc_present, hres]
  · funext x
    by_cases hx : x ∈ (outgoingEdgeMap G p).map (fun ent => ent.1)
    · rcases List.mem_map.1 hx with ⟨ent, hent, rfl⟩
      rw [unc_eSrc_OM G p s hN ent hent, hres]
      rcases hout ent hent with ⟨hp, hs, _⟩
      rw [if_pos hp, hs]
    · exact unc_eSrc_notOM G p s x hx
  · funext x
    by_cases hx : x ∈ (incomingEdgeMap G p).map (fun ent => ent.1)
    · rcases List.mem_map.1 hx with ⟨ent, hent, rfl⟩
      rw [unc_eTgt_IM G p s hN ent hent, hres]
      rcases hinc ent hent with ⟨hp, ht, _⟩
      rw [if_pos hp, ht]
    · exact unc_eTgt_notIM G p s x hx
  · funext x
    by_cases hxi : x ∈ (incomingEdgeMap G p).map (fun ent => ent.1)
    · rcases List.mem_map.1 hxi with ⟨ent, hent, rfl⟩
      have hch := (unc_classes_IM G p s hN ent hent).1
      rw [hres] at hch
      rcases hinc ent hent with ⟨hp, _, hcls⟩
      rw [hch, hp]
      by_cases hq : isPatternId G (s.eSrc ent.1) = true
      · simp [hq]
      · rw [if_neg hq] at hcls
        by_cases hc : hasCpd G ent.1 = true
        · simp [hq, hc, (hcls.2 hc).1]
        · simp [hc]
    · by_cases hxo : x ∈ (outgoingEdgeMap G p).map (fun ent => ent.1)
      · rcases List.mem_map.1 hxo with ⟨ent, hent, rfl⟩
        have hch := (unc_classes_OM G p s hN ent hent).1
        rw [hres] at hch
        rcases hout ent hent with ⟨hp, _, hcls⟩
        rw [hch, hp]
        by_cases hq : isPatternId G (s.eTgt ent.1) = true
        · simp [hq]
        · rw [if_neg hq] at hcls
          by_cases hc : hasCpd G ent.1 = true
          · simp [hq, hc, (hcls.2 hc).1]
          · simp [hc]
      · exact (unc_classes_notIMOM G p s x hxi hxo).1
  · funext x
    by_cases hxi : x ∈ (incomingEdgeMap G p).map (fun ent => ent.1)
    · rcases List.mem_map.1 hxi with ⟨ent, hent, rfl⟩
      have hch := (unc_classes_IM G p s hN ent hent).2.1
      rw [hres] at hch
      rcases hinc ent hent with ⟨hp, _, hcls⟩
      rw [hch, hp]
      by_cases hq : isPatternId G (s.eSrc ent.1) = true
      · simp [hq]
      · rw [if_neg hq] at hcls
        by_cases hc : hasCpd G ent.1 = true
        · simp [hq, hc, (hcls.2 hc).2]
        · simp [hc]
    · by_cases hxo : x ∈ (outgoingEdgeMap G p).map (fun ent => ent.1)
      · rcases List.mem_map.1 hxo with ⟨ent, hent, rfl⟩
        have hch := (unc_classes_OM G p s hN ent hent).2.1
        rw [hres] at hch
        rcases hout ent hent with ⟨hp, _, hcls⟩
        rw [hch, hp]
        by_cases hq : isPatternId G (s.eTgt ent.1) = true
        · simp [hq]
        · rw [if_neg hq] at hcls
          by_cases hc : hasCpd G ent.1 = true
          · simp [hq, hc, (hcls.2 hc).2]
          · simp [hc]
      · exact (unc_classes_notIMOM G p s x hxi hxo).2.1
  · funext x
    by_cases hxi : x ∈ (incomingEdgeMap G p).map (fun ent => ent.1)
    · rcases List.mem_map.1 hxi with ⟨ent, hent, rfl⟩
      have hch := (unc_classes_IM G p s hN ent hent).2.2
      rw [hres] at hch
      rcases hinc ent hent with ⟨hp, _, hcls⟩
      rw [hch, hp]
      by_cases hq : isPatternId G (s.eSrc ent.1) = true
      · simp [hq]
      · rw [if_neg hq] at hcls
        simp [hq, hcls.1]
    · by_cases hxo : x ∈ (outgoingEdgeMap G p).map (fun ent => ent.1)
      · rcases List.mem_map.1 hxo with ⟨ent, hent, rfl⟩
        have hch := (unc_classes_OM G p s hN ent hent).2.2
        rw [hres] at hch
        rcases hout ent hent with ⟨hp, _, hcls⟩
        rw [hch, hp]
        by_cases hq : isPatternId G (s.eTgt ent.1) = true
        · simp [hq]
        · rw [if_neg hq] at hcls
          simp [hq, hcls.1]
      · exact (unc_classes_notIMOM G p s x hxi hxo).2.2
  · funext x
    rw [unc_isCollapsed]
    by_cases hx : x = p
    · rw [if_pos hx, hx, hflag]
    · rw [if_neg hx]

/-- C3: collapse and uncollapse are idempotent — from any expanded state of a
pattern, running Drawer.collapsePattern twice gives exactly the state that
running it once gives, and running Drawer.uncollapsePattern on the
already-expanded pattern is a no-op on the whole state (visible elements,
active endpoints, classes, isCollapsed flags). The collapse half in fact
holds from an arbitrary state. -/
theorem C3_collapse_uncollapse_idempotent (G : CyGraph) (p : Nat) (s : CyState)
    (hN : (edgeIds G).Nodup) (hE : ExpandedAt G p s) :
    collapsePattern G p (collapsePattern G p s) = collapsePattern G p s ∧
      uncollapsePattern G p s = s :=
  ⟨collapsePattern_idem G p hN s, uncollapse_noop G p s hN hE⟩

/-- Witness for C3 on the concrete flat pool `GEx` in its as-drawn state. -/
theorem C3_collapse_uncollapse_idempotent_witness :
    (edgeIds GEx).Nodup ∧ ExpandedAt GEx 2 sEx ∧
      (collapsePattern GEx 2 (collapsePattern GEx 2 sEx) =
          collapsePattern GEx 2 sEx ∧
        uncollapsePattern GEx 2 sEx = sEx) :=
  ⟨by decide, by decide,
    C3_collapse_uncollapse_idempotent GEx 2 sEx (by decide) (by decide)⟩

/-- C4: toggling one pattern is purely local to it — Drawer.collapsePattern
and Drawer.uncollapsePattern on `p` leave the isCollapsed flag of every other
pattern `q` exactly as it was. -/
theorem C4_toggle_preserves_other_flags (G : CyGraph) (p q : Nat) (s : CyState)
    (hqp : isPatternId G q = true) (hq : ¬q = p) :
    (collapsePattern G p s).isCollapsed q = s.isCollapsed q ∧
      (uncollapsePattern G p s).isCollapsed q = s.isCollapsed q := by
  constructor
  · have h : (collapsePattern G p s).isCollapsed q =
        (collapsePreRemove G p s).isCollapsed q := rfl
    rw [h, cpr_isCollapsed, if_neg hq]
  · rw [unc_isCollapsed, if_neg hq]

/-- Witness for C4: toggling pattern 2 of `GEx` leaves the sibling pattern 6
untouched. -/
theorem C4_toggle_preserves_other_flags_witness :
    isPatternId GEx 6 = true ∧ ¬(6 : Nat) = 2 ∧
      ((collapsePattern GEx 2 sEx).isCollapsed 6 = sEx.isCollapsed 6 ∧
        (uncollapsePattern GEx 2 sEx).isCollapsed 6 = sEx.isCollapsed 6) :=
  ⟨by decide, by decide,
    C4_toggle_preserves_other_flags GEx 2 6 sEx (by decide) (by decide)⟩

/-
Consequences of WellFormed and Flat used by the flat round-trip theorem.
-/

lemma wf_nodeIds_nodup (G : CyGraph) (hWf : WellFormed G) : (nodeIds G).Nodup :=
  ((List.nodup_append.1 hWf.1).1)

lemma wf_edgeIds_nodup (G : CyGraph) (hWf : WellFormed G) : (edgeIds G).Nodup :=
  ((List.nodup_append.1 hWf.1).2.1)

lemma wf_ids_disjoint (G : CyGraph) (hWf : WellFormed G) (x : Nat)
    (hn : x ∈ nodeIds G) : x ∉ edgeIds G :=
  fun he => (List.nodup_append.1 hWf.1).2.2 hn he

lemma childIds_subset_nodeIds (G : CyGraph) (p : Nat) (x : Nat)
    (hx : x ∈ childIds G p) : x ∈ nodeIds G := by
  rcases List.mem_map.1 hx with ⟨nd, hnd, rfl⟩
  exact List.mem_map.2 ⟨nd, (List.mem_filter.1 hnd).1, rfl⟩

lemma interiorEdgeIds_subset_edgeIds (G : CyGraph) (p : Nat) (x : Nat)
    (hx : x ∈ (interiorEdges G p).map (fun e => e.eid)) : x ∈ edgeIds G := by
  rcases List.mem_map.1 hx with ⟨e, he, rfl⟩
  exact List.mem_map.2 ⟨e, ((mem_connected_iff G p e).1
    ((mem_interior_iff G p e).1 he).1).1, rfl⟩

lemma find_node_of_mem (G : CyGraph) (hWf : WellFormed G) (nd : CyNode)
    (hnd : nd ∈ G.nodes) :
    G.nodes.find? (fun m => m.nid == nd.nid) = some nd := by
  cases hfind : G.nodes.find? (fun m => m.nid == nd.nid) with
  | none =>
    have := List.find?_eq_none.1 hfind nd hnd
    simp at this
  | some nd' =>
    have hmem := List.mem_of_find?_eq_some hfind
    have hpred := List.find?_some hfind
    simp only [beq_iff_eq] at hpred
    have hinj := List.inj_on_of_nodup_map
      (wf_nodeIds_nodup G hWf) hmem hnd hpred
    rw [hinj]

lemma pattern_mem_nodeIds (G : CyGraph) (q : Nat)
    (hq : isPatternId G q = true) : q ∈ nodeIds G := by
  unfold isPatternId at hq
  cases hfind : G.nodes.find? (fun m => m.nid == q) with
  | none => rw [hfind] at hq; cases hq
  | some nd =>
    have hmem := List.mem_of_find?_eq_some hfind
    have hpred := List.find?_some hfind
    simp only [beq_iff_eq] at hpred
    exact hpred ▸ List.mem_map.2 ⟨nd, hmem, rfl⟩

lemma parentOf_pattern (G : CyGraph) (hWf : WellFormed G) (x q : Nat)
    (h : parentOf G x = some q) : isPatternId G q = true := by
  unfold parentOf at h
  cases hfind : G.nodes.find? (fun m => m.nid == x) with
  | none => rw [hfind] at h; cases h
  | some nd =>
    rw [hfind] at h
    exact hWf.2.1 nd (List.mem_of_find?_eq_some hfind) q h

lemma pattern_parent_none (G : CyGraph) (hWf : WellFormed G) (hFlat : Flat G)
    (q : Nat) (hq : isPatternId G q = true) : parentOf G q = none := by
  unfold isPatternId at hq
  unfold parentOf
  cases hfind : G.nodes.find? (fun m => m.nid == q) with
  | none => rfl
  | some nd =>
    rw [hfind] at hq
    have hq' : nd.isPattern = true := hq
    show nd.parent = none
    exact hFlat nd (List.mem_of_find?_eq_some hfind) hq'

lemma child_not_pattern (G : CyGraph) (hWf : WellFormed G) (hFlat : Flat G)
    (p c : Nat) (hc : c ∈ childIds G p) : isPatternId G c = false := by
  rcases List.mem_map.1 hc with ⟨nd, hnd, rfl⟩
  rcases List.mem_filter.1 hnd with ⟨hmem, hpar⟩
  simp only [beq_iff_eq] at hpar
  unfold isPatternId
  rw [find_node_of_mem G hWf nd hmem]
  cases hpat : nd.isPattern
  · exact hpat
  · rw [hFlat nd hmem hpat] at hpar
    cases hpar

lemma childIds_parentOf (G : CyGraph) (hWf : WellFormed G) (p c : Nat)
    (hc : c ∈ childIds G p) : parentOf G c = some p := by
  rcases List.mem_map.1 hc with ⟨nd, hnd, rfl⟩
  rcases List.mem_filter.1 hnd with ⟨hmem, hpar⟩
  simp only [beq_iff_eq] at hpar
  unfold parentOf
  rw [find_node_of_mem G hWf nd hmem]
  exact hpar

lemma mem_selfAnc (G : CyGraph) (hWf : WellFormed G) (hFlat : Flat G)
    (fuel x a : Nat) (ha : a ∈ selfAndAncestors G fuel x) :
    a = x ∨ parentOf G x = some a := by
  induction fuel with
  | zero =>
    simp only [selfAndAncestors, List.mem_singleton] at ha
    exact Or.inl ha
  | succ n ih =>
    simp only [selfAndAncestors] at ha
    rcases List.mem_cons.1 ha with rfl | hrest
    · exact Or.inl rfl
    · cases hpar : parentOf G x with
      | none => rw [hpar] at hrest; cases hrest
      | some q =>
        rw [hpar] at hrest
        have hq : isPatternId G q = true := parentOf_pattern G hWf x q hpar
        have hqnone : parentOf G q = none := pattern_parent_none G hWf hFlat q hq
        -- the chain below q is just [q]
        have : a ∈ selfAndAncestors G n q := hrest
        clear ih
        cases n with
        | zero =>
          simp only [selfAndAncestors, List.mem_singleton] at this
          exact Or.inr (by rw [this])
        | succ m =>
          simp only [selfAndAncestors, hqnone] at this
          rcases List.mem_cons.1 this with rfl | hfalse
          · exact Or.inr rfl
          · cases hfalse

lemma self_mem_selfAnc (G : CyGraph) (fuel x : Nat) :
    x ∈ selfAndAncestors G fuel x := by
  cases fuel with
  | zero => exact List.mem_singleton.2 rfl
  | succ n => exact List.mem_cons_self _ _

/-- Under WellFormed and Flat, a node is removed by collapsing `p` exactly
when it is a direct child of `p`. -/
lemma nodeRemoved_iff (G : CyGraph) (p : Nat) (hWf : WellFormed G)
    (hFlat : Flat G) (x : Nat) :
    nodeRemoved G (interiorEleIds G p) x = true ↔ x ∈ childIds G p := by
  constructor
  · intro h
    unfold nodeRemoved at h
    simp only [Bool.and_eq_true, List.any_eq_true, decide_eq_true_eq] at h
    rcases h with ⟨hxn, a, ha, haroots⟩
    rcases mem_selfAnc G hWf hFlat _ x a ha with rfl | hpar
    · rcases List.mem_append.1 haroots with he | hc
      · exact absurd (interiorEdgeIds_subset_edgeIds G p a he)
          (wf_ids_disjoint G hWf a hxn)
      · exact hc
    · have hapat : isPatternId G a = true := parentOf_pattern G hWf x a hpar
      rcases List.mem_append.1 haroots with he | hc
      · exact absurd (interiorEdgeIds_subset_edgeIds G p a he)
          (wf_ids_disjoint G hWf a (pattern_mem_nodeIds G a hapat))
      · rw [child_not_pattern G hWf hFlat p a hc] at hapat
        cases hapat
  · intro h
    unfold nodeRemoved
    simp only [Bool.and_eq_true, List.any_eq_true, decide_eq_true_eq]
    exact ⟨childIds_subset_nodeIds G p x h,
      x, self_mem_selfAnc G _ x, List.mem_append.2 (Or.inr h)⟩

lemma nodeRemoved_false_of_not_child (G : CyGraph) (p : Nat)
    (hWf : WellFormed G) (hFlat : Flat G) (x : Nat) (hx : x ∉ childIds G p) :
    nodeRemoved G (interiorEleIds G p) x = false := by
  cases h : nodeRemoved G (interiorEleIds G p) x
  · rfl
  · exact absurd ((nodeRemoved_iff G p hWf hFlat x).1 h) hx

lemma eid_injOn (G : CyGraph) (hN : (edgeIds G).Nodup) (e f : CyEdge)
    (he : e ∈ G.edges) (hf : f ∈ G.edges) (hef : e.eid = f.eid) : e = f :=
  List.inj_on_of_nodup_map hN he hf hef

/-- Under distinct edge ids, an edge with its source among the children is
either an outgoing-map edge or an interior edge. -/
lemma src_child_partition (G : CyGraph) (p : Nat) (hN : (edgeIds G).Nodup)
    (e : CyEdge) (he : e ∈ G.edges) (hs : e.src ∈ childIds G p) :
    e.eid ∈ (outgoingEdgeMap G p).map (fun ent => ent.1) ∨
      e.eid ∈ (interiorEdges G p).map (fun f => f.eid) := by
  have huo : e ∈ uOutgoingEdges G p := (mem_uOutgoing_iff G p e).2 ⟨he, hs⟩
  by_cases ht : e.tgt ∈ childIds G p
  · right
    have hui : e ∈ uIncomingEdges G p := (mem_uIncoming_iff G p e).2 ⟨he, ht⟩
    exact List.mem_map.2
      ⟨e, (both_ways_interior G p e hui huo).2.2.1, rfl⟩
  · left
    refine (mem_omKeys_iff G p e.eid).2 ⟨e, ?_, rfl⟩
    refine (mem_outgoing_iff G p e).2 ⟨huo, fun f hfu hfe => ?_⟩
    have hfG : f ∈ G.edges := ((mem_uIncoming_iff G p f).1 hfu).1
    have : f = e := eid_injOn G hN f e hfG he hfe
    exact ht (this ▸ ((mem_uIncoming_iff G p f).1 hfu).2)

/-- Under distinct edge ids, an edge with its target among the children is
either an incoming-map edge or an interior edge. -/
lemma tgt_child_partition (G : CyGraph) (p : Nat) (hN : (edgeIds G).Nodup)
    (e : CyEdge) (he : e ∈ G.edges) (ht : e.tgt ∈ childIds G p) :
    e.eid ∈ (incomingEdgeMap G p).map (fun ent => ent.1) ∨
      e.eid ∈ (interiorEdges G p).map (fun f => f.eid) := by
  have hui : e ∈ uIncomingEdges G p := (mem_uIncoming_iff G p e).2 ⟨he, ht⟩
  by_cases hs : e.src ∈ childIds G p
  · right
    have huo : e ∈ uOutgoingEdges G p := (mem_uOutgoing_iff G p e).2 ⟨he, hs⟩
    exact List.mem_map.2
      ⟨e, (both_ways_interior G p e hui huo).2.2.1, rfl⟩
  · left
    refine (mem_imKeys_iff G p e.eid).2 ⟨e, ?_, rfl⟩
    refine (mem_incoming_iff G p e).2 ⟨hui, fun f hfu hfe => ?_⟩
    have hfG : f ∈ G.edges := ((mem_uOutgoing_iff G p f).1 hfu).1
    have : f = e := eid_injOn G hN f e hfG he hfe
    exact hs (this ▸ ((mem_uOutgoing_iff G p f).1 hfu).2)

/-- Under distinct edge ids, an interior edge has both endpoints among the
children. -/
lemma interior_src_tgt (G : CyGraph) (p : Nat) (hN : (edgeIds G).Nodup)
    (e : CyEdge) (he : e ∈ interiorEdges G p) :
    e ∈ G.edges ∧ e.src ∈ childIds G p ∧ e.tgt ∈ childIds G p := by
  rcases (mem_interior_iff G p e).1 he with ⟨hc, hni, hno⟩
  rcases (mem_connected_iff G p e).1 hc with ⟨heG, hor⟩
  refine ⟨heG, ?_⟩
  rcases hor with hs | ht
  · refine ⟨hs, ?_⟩
    by_contra ht
    have huo : e ∈ uOutgoingEdges G p := (mem_uOutgoing_iff G p e).2 ⟨heG, hs⟩
    have : e ∈ outgoingEdges G p := by
      refine (mem_outgoing_iff G p e).2 ⟨huo, fun f hfu hfe => ?_⟩
      have hfG : f ∈ G.edges := ((mem_uIncoming_iff G p f).1 hfu).1
      have : f = e := eid_injOn G hN f e hfG heG hfe
      exact ht (this ▸ ((mem_uIncoming_iff G p f).1 hfu).2)
    exact hno e this rfl
  · refine ⟨?_, ht⟩
    by_contra hs
    have hui : e ∈ uIncomingEdges G p := (mem_uIncoming_iff G p e).2 ⟨heG, ht⟩
    have : e ∈ incomingEdges G p := by
      refine (mem_incoming_iff G p e).2 ⟨hui, fun f hfu hfe => ?_⟩
      have hfG : f ∈ G.edges := ((mem_uOutgoing_iff G p f).1 hfu).1
      have : f = e := eid_injOn G hN f e hfG heG hfe
      exact hs (this ▸ ((mem_uOutgoing_iff G p f).1 hfu).2)
    exact hni e this rfl

lemma roots_subset_ids (G : CyGraph) (p : Nat) (x : Nat)
    (hx : x ∈ interiorEleIds G p) : x ∈ edgeIds G ∨ x ∈ nodeIds G := by
  rcases List.mem_append.1 hx with he | hc
  · exact Or.inl (interiorEdgeIds_subset_edgeIds G p x he)
  · exact Or.inr (childIds_subset_nodeIds G p x hc)

lemma nodeRemoved_pattern_false (G : CyGraph) (p : Nat) (hWf : WellFormed G)
    (hFlat : Flat G) (q : Nat) (hq : isPatternId G q = true) :
    nodeRemoved G (interiorEleIds G p) q = false := by
  refine nodeRemoved_false_of_not_child G p hWf hFlat q (fun hc => ?_)
  rw [child_not_pattern G hWf hFlat p q hc] at hq
  cases hq

lemma incomingEdgeMap_edge (G : CyGraph) (p : Nat) (ent : Nat × Nat × Nat)
    (hent : ent ∈ incomingEdgeMap G p) :
    ∃ e ∈ incomingEdges G p, e.eid = ent.1 ∧ e.src = ent.2.1 ∧ e.tgt = ent.2.2 := by
  rcases List.mem_map.1 hent with ⟨e, he, heq⟩
  exact ⟨e, he, by rw [← heq], by rw [← heq], by rw [← heq]⟩

lemma outgoingEdgeMap_edge (G : CyGraph) (p : Nat) (ent : Nat × Nat × Nat)
    (hent : ent ∈ outgoingEdgeMap G p) :
    ∃ e ∈ outgoingEdges G p, e.eid = ent.1 ∧ e.src = ent.2.1 ∧ e.tgt = ent.2.2 := by
  rcases List.mem_map.1 hent with ⟨e, he, heq⟩
  exact ⟨e, he, by rw [← heq], by rw [← heq], by rw [← heq]⟩

/-- At the pre-removal state of a flat, well-formed collapse of an expanded
pattern, the Cytoscape removal closure is exactly the stored interior
collection: the moves have already detached every boundary edge from the
children, so no extra element is dragged away. -/
lemma removedId_cpr (G : CyGraph) (p : Nat) (s : CyState)
    (hWf : WellFormed G) (hFlat : Flat G) (hp : isPatternId G p = true)
    (hE : ExpandedAt G p s) (hSane : EndpointsSane G s) (x : Nat) :
    removedId G (interiorEleIds G p) (collapsePreRemove G p s) x =
      decide (x ∈ interiorEleIds G p) := by
  have hN : (edgeIds G).Nodup := wf_edgeIds_nodup G hWf
  obtain ⟨_hflag, _hint, _hintE, hinc, hout⟩ := hE
  unfold removedId
  by_cases hxn : x ∈ nodeIds G
  · simp only [hxn, decide_eq_true_eq, if_true]
    by_cases hc : x ∈ childIds G p
    · rw [(nodeRemoved_iff G p hWf hFlat x).2 hc]
      have hr : x ∈ interiorEleIds G p := List.mem_append.2 (Or.inr hc)
      simp [hr]
    · rw [nodeRemoved_false_of_not_child G p hWf hFlat x hc]
      have hr : x ∉ interiorEleIds G p := by
        intro hx
        rcases List.mem_append.1 hx with he | hcc
        · exact wf_ids_disjoint G hWf x hxn
            (interiorEdgeIds_subset_edgeIds G p x he)
        · exact hc hcc
      simp [hr]
  · by_cases hxe : x ∈ edgeIds G
    · rw [if_neg (by simpa using hxn), if_pos (by simpa using hxe)]
      rcases List.mem_map.1 hxe with ⟨e, heG, hex⟩
      subst hex
      by_cases hxr : e.eid ∈ (interiorEdges G p).map (fun f => f.eid)
      · have hr : e.eid ∈ interiorEleIds G p := List.mem_append.2 (Or.inl hxr)
        simp [hr]
      · have hr : e.eid ∉ interiorEleIds G p := by
          intro hx
          rcases List.mem_append.1 hx with he | hcc
          · exact hxr he
          · exact hxn (childIds_subset_nodeIds G p e.eid hcc)
        have hsrcPatF : ∀ q, isPatternId G q = true →
            nodeRemoved G (interiorEleIds G p) q = false := fun q hq =>
          nodeRemoved_pattern_false G p hWf hFlat q hq
        by_cases hxi : e.eid ∈ (incomingEdgeMap G p).map (fun ent => ent.1)
        · rcases List.mem_map.1 hxi with ⟨ent, hent, hentx⟩
          have hpx : s.present ent.1 = true := (hinc ent hent).1
          have htgt : (collapsePreRemove G p s).eTgt ent.1 = p := by
            rw [cpr_eTgt_IM G p s hN ent hent, if_pos hpx]
          have hsrc : (collapsePreRemove G p s).eSrc ent.1 = s.eSrc ent.1 :=
            cpr_eSrc_notOM G p s ent.1
              (imKeys_omKeys_disjoint G p ent.1
                (List.mem_map.2 ⟨ent, hent, rfl⟩))
          rw [← hentx]
          rw [htgt, hsrc]
          have hnrT : nodeRemoved G (interiorEleIds G p) p = false :=
            hsrcPatF p hp
          have hnrS : nodeRemoved G (interiorEleIds G p) (s.eSrc ent.1) = false := by
            rcases (hSane e heG).1 with hv | hpat
            · rw [← hentx] at hv
              rw [hv]
              refine nodeRemoved_false_of_not_child G p hWf hFlat e.src
                (fun hcs => ?_)
              rcases incomingEdgeMap_edge G p ent hent with ⟨f, hf, hfid, _, _⟩
              have hfe : f = e := eid_injOn G hN f e
                ((incoming_sublist G p).subset hf) heG (hfid.trans hentx)
              rcases incoming_src_tgt G p f hf with ⟨_, _, hfs⟩
              rw [hfe] at hfs
              exact hfs hcs
            · rw [← hentx] at hpat
              rw [hsrcPatF _ hpat]
          rw [hnrS, hnrT]
          rw [hentx]
          simp
        · by_cases hxo : e.eid ∈ (outgoingEdgeMap G p).map (fun ent => ent.1)
          · rcases List.mem_map.1 hxo with ⟨ent, hent, hentx⟩
            have hpx : s.present ent.1 = true := (hout ent hent).1
            have hsrc : (collapsePreRemove G p s).eSrc ent.1 = p := by
              rw [cpr_eSrc_OM G p s hN ent hent, if_pos hpx]
            have htgt : (collapsePreRemove G p s).eTgt ent.1 = s.eTgt ent.1 := by
              refine cpr_eTgt_notIM G p s ent.1 (fun hmem => ?_)
              exact imKeys_omKeys_disjoint G p ent.1 hmem
                (List.mem_map.2 ⟨ent, hent, rfl⟩)
            rw [← hentx]
            rw [htgt, hsrc]
            have hnrS : nodeRemoved G (interiorEleIds G p) p = false :=
              hsrcPatF p hp
            have hnrT : nodeRemoved G (interiorEleIds G p) (s.eTgt ent.1) = false := by
              rcases (hSane e heG).2 with hv | hpat
              · rw [← hentx] at hv
                rw [hv]
                refine nodeRemoved_false_of_not_child G p hWf hFlat e.tgt
                  (fun hct => ?_)
                rcases outgoingEdgeMap_edge G p ent hent with ⟨f, hf, hfid, _, _⟩
                have hfe : f = e := eid_injOn G hN f e
                  ((outgoing_sublist G p).subset hf) heG (hfid.trans hentx)
                rcases outgoing_src_tgt G p f hf with ⟨_, _, hft⟩
                rw [hfe] at hft
                exact hft hct
              · rw [← hentx] at hpat
                rw [hsrcPatF _ hpat]
            rw [hnrS, hnrT]
            rw [hentx]
            simp
          · have hsrc : (collapsePreRemove G p s).eSrc e.eid = s.eSrc e.eid :=
              cpr_eSrc_notOM G p s e.eid hxo
            have htgt : (collapsePreRemove G p s).eTgt e.eid = s.eTgt e.eid :=
              cpr_eTgt_notIM G p s e.eid hxi
            rw [hsrc, htgt]
            have hnrS : nodeRemoved G (interiorEleIds G p) (s.eSrc e.eid) = false := by
              rcases (hSane e heG).1 with hv | hpat
              · rw [hv]
                refine nodeRemoved_false_of_not_child G p hWf hFlat e.src
                  (fun hcs => ?_)
                rcases src_child_partition G p hN e heG hcs with hom | hint2
                · exact hxo hom
                · exact hxr hint2
              · rw [hsrcPatF _ hpat]
            have hnrT : nodeRemoved G (interiorEleIds G p) (s.eTgt e.eid) = false := by
              rcases (hSane e heG).2 with hv | hpat
              · rw [hv]
                refine nodeRemoved_false_of_not_child G p hWf hFlat e.tgt
                  (fun hct => ?_)
                rcases tgt_child_partition G p hN e heG hct with him | hint2
                · exact hxi him
                · exact hxr hint2
              · rw [hsrcPatF _ hpat]
            rw [hnrS, hnrT]
            simp [hr]
    · have hr : x ∉ interiorEleIds G p := by
        intro hx
        rcases roots_subset_ids G p x hx with he | hn
        · exact hxe he
        · exact hxn hn
      simp [hxn, hxe, hr]

lemma restoreEles_present_eq (G : CyGraph) (ids : List Nat) (u : CyState)
    (x : Nat) :
    (restoreEles G ids u).present x =
      ((u.present x || (decide (x ∈ ids) && decide (x ∈ nodeIds G))) ||
        (decide (x ∈ ids) && decide (x ∈ edgeIds G) &&
          (u.present (u.eSrc x) ||
            (decide (u.eSrc x ∈ ids) && decide (u.eSrc x ∈ nodeIds G))) &&
          (u.present (u.eTgt x) ||
            (decide (u.eTgt x ∈ ids) && decide (u.eTgt x ∈ nodeIds G))))) := rfl

lemma collapse_eSrc (G : CyGraph) (p : Nat) (s : CyState) :
    (collapsePattern G p s).eSrc = (collapsePreRemove G p s).eSrc := rfl

lemma collapse_eTgt (G : CyGraph) (p : Nat) (s : CyState) :
    (collapsePattern G p s).eTgt = (collapsePreRemove G p s).eTgt := rfl

lemma collapse_basic (G : CyGraph) (p : Nat) (s : CyState) :
    (collapsePattern G p s).basicbezier = (collapsePreRemove G p s).basicbezier :=
  rfl

lemma collapse_unb (G : CyGraph) (p : Nat) (s : CyState) :
    (collapsePattern G p s).unbundledbezier =
      (collapsePreRemove G p s).unbundledbezier := rfl

lemma collapse_ports (G : CyGraph) (p : Nat) (s : CyState) :
    (collapsePattern G p s).notUsingPorts =
      (collapsePreRemove G p s).notUsingPorts := rfl

lemma collapse_flag (G : CyGraph) (p : Nat) (s : CyState) :
    (collapsePattern G p s).isCollapsed = (collapsePreRemove G p s).isCollapsed :=
  rfl

/-- After a flat, well-formed collapse of an expanded pattern, restoring the
stored interior collection brings the drawable set back to exactly what it
was before the collapse. -/
lemma roundtrip_present (G : CyGraph) (p : Nat) (s : CyState)
    (hWf : WellFormed G) (hFlat : Flat G) (hp : isPatternId G p = true)
    (hE : ExpandedAt G p s) (hSane : EndpointsSane G s) (x : Nat) :
    (restoreEles G (interiorEleIds G p) (collapsePattern G p s)).present x =
      s.present x := by
  have hN : (edgeIds G).Nodup := wf_edgeIds_nodup G hWf
  have hcp : ∀ y, (collapsePattern G p s).present y =
      (s.present y && !decide (y ∈ interiorEleIds G p)) := by
    intro y
    rw [collapse_present_formula, removedId_cpr G p s hWf hFlat hp hE hSane]
  obtain ⟨_hflag, hint, hintE, _hinc, _hout⟩ := hE
  rw [restoreEles_present_eq]
  by_cases hx : x ∈ interiorEleIds G p
  · have hpres : s.present x = true := hint x hx
    rcases List.mem_append.1 hx with hxe | hxc
    · -- x is an interior edge id
      rcases List.mem_map.1 hxe with ⟨e, heI, hex⟩
      subst hex
      have hxen : e.eid ∉ nodeIds G := fun hn =>
        wf_ids_disjoint G hWf e.eid hn (interiorEdgeIds_subset_edgeIds G p e.eid hxe)
      have hxee : e.eid ∈ edgeIds G := interiorEdgeIds_subset_edgeIds G p e.eid hxe
      have hsrc : (collapsePattern G p s).eSrc e.eid = e.src := by
        rw [collapse_eSrc, cpr_eSrc_notOM G p s e.eid (interior_not_omKeys G p e heI)]
        exact (hintE e heI).1
      have htgt : (collapsePattern G p s).eTgt e.eid = e.tgt := by
        rw [collapse_eTgt, cpr_eTgt_notIM G p s e.eid (interior_not_imKeys G p e heI)]
        exact (hintE e heI).2
      rcases interior_src_tgt G p hN e heI with ⟨_, hsc, htc⟩
      have hsroot : e.src ∈ interiorEleIds G p := List.mem_append.2 (Or.inr hsc)
      have htroot : e.tgt ∈ interiorEleIds G p := List.mem_append.2 (Or.inr htc)
      have hsn : e.src ∈ nodeIds G := childIds_subset_nodeIds G p e.src hsc
      have htn : e.tgt ∈ nodeIds G := childIds_subset_nodeIds G p e.tgt htc
      rw [hsrc, htgt, hpres]
      simp [hx, hxee, hsroot, htroot, hsn, htn]
    · -- x is a child node id
      have hxn : x ∈ nodeIds G := childIds_subset_nodeIds G p x hxc
      have hxe2 : x ∉ edgeIds G := wf_ids_disjoint G hWf x hxn
      rw [hpres]
      simp [hx, hxn, hxe2]
  · -- x is not interior at all: nothing was removed, nothing is restored
    rw [hcp x]
    simp [hx]

/-- C2 (amended): in a flat hierarchy (no pattern nested inside another),
with well-formed ids and sane active endpoints, Drawer.collapsePattern
followed by Drawer.uncollapsePattern on the same expanded pattern is the
identity on the entire state — drawable set, active endpoints, style classes
and isCollapsed flags — regardless of sibling collapse states. -/
theorem C2_flat_roundtrip_identity (G : CyGraph) (p : Nat) (s : CyState)
    (hWf : WellFormed G) (hFlat : Flat G) (hp : isPatternId G p = true)
    (hE : ExpandedAt G p s) (hSane : EndpointsSane G s) :
    uncollapsePattern G p (collapsePattern G p s) = s := by
  have hN : (edgeIds G).Nodup := wf_edgeIds_nodup G hWf
  have hrp := roundtrip_present G p s hWf hFlat hp hE hSane
  obtain ⟨hflag, hint, hintE, hinc, hout⟩ := hE
  -- active endpoints and classes of boundary edges at the collapsed state
  have hceSrcIM : ∀ ent ∈ incomingEdgeMap G p,
      (collapsePattern G p s).eSrc ent.1 = s.eSrc ent.1 := by
    intro ent hent
    rw [collapse_eSrc]
    exact cpr_eSrc_notOM G p s ent.1
      (imKeys_omKeys_disjoint G p ent.1 (List.mem_map.2 ⟨ent, hent, rfl⟩))
  have hceTgtOM : ∀ ent ∈ outgoingEdgeMap G p,
      (collapsePattern G p s).eTgt ent.1 = s.eTgt ent.1 := by
    intro ent hent
    rw [collapse_eTgt]
    refine cpr_eTgt_notIM G p s ent.1 (fun hmem => ?_)
    exact imKeys_omKeys_disjoint G p ent.1 hmem
      (List.mem_map.2 ⟨ent, hent, rfl⟩)
  apply CyState.ext
  · funext x
    rw [unc_present, hrp x]
  · funext x
    by_cases hxo : x ∈ (outgoingEdgeMap G p).map (fun ent => ent.1)
    · rcases List.mem_map.1 hxo with ⟨ent, hent, rfl⟩
      rw [unc_eSrc_OM G p (collapsePattern G p s) hN ent hent, hrp ent.1,
        if_pos (hout ent hent).1]
      exact (hout ent hent).2.1.symm
    · rw [unc_eSrc_notOM G p (collapsePattern G p s) x hxo, collapse_eSrc,
        cpr_eSrc_notOM G p s x hxo]
  · funext x
    by_cases hxi : x ∈ (incomingEdgeMap G p).map (fun ent => ent.1)
    · rcases List.mem_map.1 hxi with ⟨ent, hent, rfl⟩
      rw [unc_eTgt_IM G p (collapsePattern G p s) hN ent hent, hrp ent.1,
        if_pos (hinc ent hent).1]
      exact (hinc ent hent).2.1.symm
    · rw [unc_eTgt_notIM G p (collapsePattern G p s) x hxi, collapse_eTgt,
        cpr_eTgt_notIM G p s x hxi]
  · funext x
    by_cases hxi : x ∈ (incomingEdgeMap G p).map (fun ent => ent.1)
    · rcases List.mem_map.1 hxi with ⟨ent, hent, rfl⟩
      have hch := (unc_classes_IM G p (collapsePattern G p s) hN ent hent).1
      rw [hrp ent.1, (hinc ent hent).1, hceSrcIM ent hent] at hch
      have hcb : (collapsePattern G p s).basicbezier ent.1 =
          (if s.present ent.1 && hasCpd G ent.1 then true
           else s.basicbezier ent.1) := (cpr_classes_IM G p s hN ent hent).1
      rw [(hinc ent hent).1] at hcb
      rw [hch, hcb]
      have hcls := (hinc ent hent).2.2
      by_cases hq : isPatternId G (s.eSrc ent.1) = true
      · rw [if_pos hq] at hcls
        by_cases hc : hasCpd G ent.1 = true
        · simp [hq, hc, (hcls.2 hc).1]
        · simp [hq, hc]
      · rw [if_neg hq] at hcls
        by_cases hc : hasCpd G ent.1 = true
        · simp [hq, hc, (hcls.2 hc).1]
        · simp [hq, hc]
    · by_cases hxo : x ∈ (outgoingEdgeMap G p).map (fun ent => ent.1)
      · rcases List.mem_map.1 hxo with ⟨ent, hent, rfl⟩
        have hch := (unc_classes_OM G p (collapsePattern G p s) hN ent hent).1
        rw [hrp ent.1, (hout ent hent).1, hceTgtOM ent hent] at hch
        have hcb : (collapsePattern G p s).basicbezier ent.1 =
            (if s.present ent.1 && hasCpd G ent.1 then true
             else s.basicbezier ent.1) := (cpr_classes_OM G p s hN ent hent).1
        rw [(hout ent hent).1] at hcb
        rw [hch, hcb]
        have hcls := (hout ent hent).2.2
        by_cases hq : isPatternId G (s.eTgt ent.1) = true
        · rw [if_pos hq] at hcls
          by_cases hc : hasCpd G ent.1 = true
          · simp [hq, hc, (hcls.2 hc).1]
          · simp [hq, hc]
        · rw [if_neg hq] at hcls
          by_cases hc : hasCpd G ent.1 = true
          · simp [hq, hc, (hcls.2 hc).1]
          · simp [hq, hc]
      · rw [(unc_classes_notIMOM G p (collapsePattern G p s) x hxi hxo).1,
          collapse_basic, (cpr_classes_notIMOM G p s x hxi hxo).1]
  · funext x
    by_cases hxi : x ∈ (incomingEdgeMap G p).map (fun ent => ent.1)
    · rcases List.mem_map.1 hxi with ⟨ent, hent, rfl⟩
      have hch := (unc_classes_IM G p (collapsePattern G p s) hN ent hent).2.1
      rw [hrp ent.1, (hinc ent hent).1, hceSrcIM ent hent] at hch
      have hcb : (collapsePattern G p s).unbundledbezier ent.1 =
          (if s.present ent.1 && hasCpd G ent.1 then false
           else s.unbundledbezier ent.1) := (cpr_classes_IM G p s hN ent hent).2.1
      rw [(hinc ent hent).1] at hcb
      rw [hch, hcb]
      have hcls := (hinc ent hent).2.2
      by_cases hq : isPatternId G (s.eSrc ent.1) = true
      · rw [if_pos hq] at hcls
        by_cases hc : hasCpd G ent.1 = true
        · simp [hq, hc, (hcls.2 hc).2]
        · simp [hq, hc]
      · rw [if_neg hq] at hcls
        by_cases hc : hasCpd G ent.1 = true
        · simp [hq, hc, (hcls.2 hc).2]
        · simp [hq, hc]
    · by_cases hxo : x ∈ (outgoingEdgeMap G p).map (fun ent => ent.1)
      · rcases List.mem_map.1 hxo with ⟨ent, hent, rfl⟩
        have hch := (unc_classes_OM G p (collapsePattern G p s) hN ent hent).2.1
        rw [hrp ent.1, (hout ent hent).1, hceTgtOM ent hent] at hch
        have hcb : (collapsePattern G p s).unbundledbezier ent.1 =
            (if s.present ent.1 && hasCpd G ent.1 then false
             else s.unbundledbezier ent.1) := (cpr_classes_OM G p s hN ent hent).2.1
        rw [(hout ent hent).1] at hcb
        rw [hch, hcb]
        have hcls := (hout ent hent).2.2
        by_cases hq : isPatternId G (s.eTgt ent.1) = true
        · rw [if_pos hq] at hcls
          by_cases hc : hasCpd G ent.1 = true
          · simp [hq, hc, (hcls.2 hc).2]
          · simp [hq, hc]
        · rw [if_neg hq] at hcls
          by_cases hc : hasCpd G ent.1 = true
          · simp [hq, hc, (hcls.2 hc).2]
          · simp [hq, hc]
      · rw [(unc_classes_notIMOM G p (collapsePattern G p s) x hxi hxo).2.1,
          collapse_unb, (cpr_classes_notIMOM G p s x hxi hxo).2.1]
  · funext x
    by_cases hxi : x ∈ (incomingEdgeMap G p).map (fun ent => ent.1)
    · rcases List.mem_map.1 hxi with ⟨ent, hent, rfl⟩
      have hch := (unc_classes_IM G p (collapsePattern G p s) hN ent hent).2.2
      rw [hrp ent.1, (hinc ent hent).1, hceSrcIM ent hent] at hch
      have hcb : (collapsePattern G p s).notUsingPorts ent.1 =
          (if s.present ent.1 then true else s.notUsingPorts ent.1) :=
        (cpr_classes_IM G p s hN ent hent).2.2
      rw [(hinc ent hent).1] at hcb
      rw [hch, hcb]
      have hcls := (hinc ent hent).2.2
      by_cases hq : isPatternId G (s.eSrc ent.1) = true
      · rw [if_pos hq] at hcls
        simp [hq, hcls.1]
      · rw [if_neg hq] at hcls
        simp [hq, hcls.1]
    · by_cases hxo : x ∈ (outgoingEdgeMap G p).map (fun ent => ent.1)
      · rcases List.mem_map.1 hxo with ⟨ent, hent, rfl⟩
        have hch := (unc_classes_OM G p (collapsePattern G p s) hN ent hent).2.2
        rw [hrp ent.1, (hout ent hent).1, hceTgtOM ent hent] at hch
        have hcb : (collapsePattern G p s).notUsingPorts ent.1 =
            (if s.present ent.1 then true else s.notUsingPorts ent.1) :=
          (cpr_classes_OM G p s hN ent hent).2.2
        rw [(hout ent hent).1] at hcb
        rw [hch, hcb]
        have hcls := (hout ent hent).2.2
        by_cases hq : isPatternId G (s.eTgt ent.1) = true
        · rw [if_pos hq] at hcls
          simp [hq, hcls.1]
        · rw [if_neg hq] at hcls
          simp [hq, hcls.1]
      · rw [(unc_classes_notIMOM G p (collapsePattern G p s) x hxi hxo).2.2,
          collapse_ports, (cpr_classes_notIMOM G p s x hxi hxo).2.2]
  · funext x
    rw [unc_isCollapsed]
    have hcf : (collapsePattern G p s).isCollapsed x =
        (if x = p then true else s.isCollapsed x) := by
      rw [collapse_flag, cpr_isCollapsed]
    rw [hcf]
    by_cases hx : x = p
    · rw [if_pos hx, hx, hflag]
    · rw [if_neg hx, if_neg hx]

/-- Witness for the amended C2 on the concrete flat pool `GEx`. -/
theorem C2_flat_roundtrip_identity_witness :
    WellFormed GEx ∧ Flat GEx ∧ isPatternId GEx 2 = true ∧
      ExpandedAt GEx 2 sEx ∧ EndpointsSane GEx sEx ∧
      uncollapsePattern GEx 2 (collapsePattern GEx 2 sEx) = sEx :=
  ⟨by decide, by decide, by decide, by decide, by decide,
    C2_flat_roundtrip_identity GEx 2 sEx (by decide) (by decide) (by decide)
      (by decide) (by decide)⟩

lemma restore_present_of_present (G : CyGraph) (ids : List Nat) (s : CyState)
    (x : Nat) (h : s.present x = true) :
    (restoreEles G ids s).present x = true := by
  rw [restoreEles_present_eq, h]
  rfl

/-- C5: when Drawer.uncollapsePattern processes a present incoming-map
(respectively outgoing-map) edge, it always moves the edge's active target
(respectively active source) back to the canonical endpoint recorded in the
map; in both loops it restores the unbundled (control-point based) rendering
exactly when the edge's far true endpoint — the true source for incoming
edges, the true target for outgoing edges — is not still inside a collapsed
pattern (equivalently, when the corresponding active endpoint is not a
pattern node) and the edge has genuine control-point data; otherwise the
edge keeps the simplified straight rendering. -/
theorem C5_uncollapse_restores_target_and_geometry (G : CyGraph) (p : Nat)
    (s : CyState) (hN : (edgeIds G).Nodup) :
    (∀ ent ∈ incomingEdgeMap G p, s.present ent.1 = true →
      isPatternId G (s.eSrc ent.1) = insideCollapsed G s ent.2.1 →
      s.unbundledbezier ent.1 = false →
      (uncollapsePattern G p s).eTgt ent.1 = ent.2.2 ∧
        (uncollapsePattern G p s).unbundledbezier ent.1 =
          (!insideCollapsed G s ent.2.1 && hasCpd G ent.1)) ∧
    ∀ ent ∈ outgoingEdgeMap G p, s.present ent.1 = true →
      isPatternId G (s.eTgt ent.1) = insideCollapsed G s ent.2.2 →
      s.unbundledbezier ent.1 = false →
      (uncollapsePattern G p s).eSrc ent.1 = ent.2.1 ∧
        (uncollapsePattern G p s).unbundledbezier ent.1 =
          (!insideCollapsed G s ent.2.2 && hasCpd G ent.1) := by
  constructor
  · intro ent hent hpres hInv hsimpl
    have hrp : (restoreEles G (interiorEleIds G p) s).present ent.1 = true :=
      restore_present_of_present G _ s ent.1 hpres
    constructor
    · rw [unc_eTgt_IM G p s hN ent hent, if_pos hrp]
    · rw [(unc_classes_IM G p s hN ent hent).2.1, hrp, hInv]
      cases hic : insideCollapsed G s ent.2.1 with
      | false =>
        cases hc : hasCpd G ent.1 with
        | false => simpa using hsimpl
        | true => simp
      | true =>
        simpa using hsimpl
  · intro ent hent hpres hInv hsimpl
    have hrp : (restoreEles G (interiorEleIds G p) s).present ent.1 = true :=
      restore_present_of_present G _ s ent.1 hpres
    constructor
    · rw [unc_eSrc_OM G p s hN ent hent, if_pos hrp]
    · rw [(unc_classes_OM G p s hN ent hent).2.1, hrp, hInv]
      cases hic : insideCollapsed G s ent.2.2 with
      | false =>
        cases hc : hasCpd G ent.1 with
        | false => simpa using hsimpl
        | true => simp
      | true =>
        simpa using hsimpl

/-- Witness for C5: uncollapsing pattern 2 from the collapsed state of `GEx`.
Incoming edge 10's active target returns to node 3 and outgoing edge 12's
active source returns to node 4; both far true endpoints (nodes 1 and 5) are
in no collapsed pattern and both edges carry control-point data, so both
regain the unbundled rendering. -/
theorem C5_uncollapse_restores_target_and_geometry_witness :
    (edgeIds GEx).Nodup ∧
      (((10 : Nat), (1 : Nat), (3 : Nat)) ∈ incomingEdgeMap GEx 2 ∧
        (collapsePattern GEx 2 sEx).present 10 = true ∧
        isPatternId GEx ((collapsePattern GEx 2 sEx).eSrc 10) =
          insideCollapsed GEx (collapsePattern GEx 2 sEx) 1 ∧
        (collapsePattern GEx 2 sEx).unbundledbezier 10 = false ∧
        ((uncollapsePattern GEx 2 (collapsePattern GEx 2 sEx)).eTgt 10 = 3 ∧
          (uncollapsePattern GEx 2
              (collapsePattern GEx 2 sEx)).unbundledbezier 10 =
            (!insideCollapsed GEx (collapsePattern GEx 2 sEx) 1 &&
              hasCpd GEx 10))) ∧
      ((12 : Nat), (4 : Nat), (5 : Nat)) ∈ outgoingEdgeMap GEx 2 ∧
      (collapsePattern GEx 2 sEx).present 12 = true ∧
      isPatternId GEx ((collapsePattern GEx 2 sEx).eTgt 12) =
        insideCollapsed GEx (collapsePattern GEx 2 sEx) 5 ∧
      (collapsePattern GEx 2 sEx).unbundledbezier 12 = false ∧
      ((uncollapsePattern GEx 2 (collapsePattern GEx 2 sEx)).eSrc 12 = 4 ∧
        (uncollapsePattern GEx 2
            (collapsePattern GEx 2 sEx)).unbundledbezier 12 =
          (!insideCollapsed GEx (collapsePattern GEx 2 sEx) 5 &&
            hasCpd GEx 12)) :=
  ⟨by decide,
    ⟨by decide, by decide, by decide, by decide,
      (C5_uncollapse_restores_target_and_geometry GEx 2
          (collapsePattern GEx 2 sEx) (by decide)).1 (10, 1, 3) (by decide)
        (by decide) (by decide) (by decide)⟩,
    by decide, by decide, by decide, by decide,
    (C5_uncollapse_restores_target_and_geometry GEx 2
        (collapsePattern GEx 2 sEx) (by decide)).2 (12, 4, 5) (by decide)
      (by decide) (by decide) (by decide)⟩

/-
Lemmas about the DataHolder lookups.
-/

lemma getNodeInfoAux_error {ν ε π : Type} (l : List (DHComponent ν ε π))
    (i : Nat)
    (h : ∀ c ∈ l, c.skipped = false → ∀ kv ∈ c.nodes, ¬kv.1 = i) :
    getNodeInfoAux l i = Except.error LookupErr.nodeNotFound := by
  induction l with
  | nil => rfl
  | cons c rest ih =>
    by_cases hs : c.skipped = true
    · simp only [getNodeInfoAux, hs, if_true]
      exact ih (fun c' hc' => h c' (List.mem_cons_of_mem c hc'))
    · have hs' : c.skipped = false := by
        cases hcs : c.skipped
        · rfl
        · exact absurd hcs hs
      have hfind : c.nodes.find? (fun kv => kv.1 == i) = none := by
        apply List.find?_eq_none.2
        intro kv hkv
        simpa using h c (List.mem_cons_self c rest) hs' kv hkv
      simp only [getNodeInfoAux, hs', if_false, hfind, Bool.false_eq_true]
      exact ih (fun c' hc' => h c' (List.mem_cons_of_mem c hc'))

lemma getNodeInfoAux_ok {ν ε π : Type} (l : List (DHComponent ν ε π))
    (i : Nat) (r : ν) (h : getNodeInfoAux l i = Except.ok r) :
    ∃ c ∈ l, c.skipped = false ∧ (i, r) ∈ c.nodes := by
  induction l with
  | nil => cases h
  | cons c rest ih =>
    by_cases hs : c.skipped = true
    · simp only [getNodeInfoAux, hs, if_true] at h
      rcases ih h with ⟨c', hc', hcs, hkv⟩
      exact ⟨c', List.mem_cons_of_mem c hc', hcs, hkv⟩
    · have hs' : c.skipped = false := by
        cases hcs : c.skipped
        · rfl
        · exact absurd hcs hs
      simp only [getNodeInfoAux, hs', Bool.false_eq_true, if_false] at h
      cases hfind : c.nodes.find? (fun kv => kv.1 == i) with
      | none =>
        rw [hfind] at h
        rcases ih h with ⟨c', hc', hcs, hkv⟩
        exact ⟨c', List.mem_cons_of_mem c hc', hcs, hkv⟩
      | some kv =>
        rw [hfind] at h
        have hr : kv.2 = r := by
          simpa using h
        have hkey : kv.1 = i := by
          simpa using List.find?_some hfind
        refine ⟨c, List.mem_cons_self c rest, hs', ?_⟩
        have : kv = (i, r) := by
          cases kv
          simp_all
        exact this ▸ List.mem_of_find?_eq_some hfind

lemma getNodeNameAux_error {ν ε π : Type} (nameOf : ν → String)
    (l : List (DHComponent ν ε π)) (i : Nat)
    (h : ∀ c ∈ l, c.skipped = false → ∀ kv ∈ c.nodes, ¬kv.1 = i) :
    getNodeNameAux nameOf l i = Except.error LookupErr.nodeNotFound := by
  induction l with
  | nil => rfl
  | cons c rest ih =>
    by_cases hs : c.skipped = true
    · simp only [getNodeNameAux, hs, if_true]
      exact ih (fun c' hc' => h c' (List.mem_cons_of_mem c hc'))
    · have hs' : c.skipped = false := by
        cases hcs : c.skipped
        · rfl
        · exact absurd hcs hs
      have hfind : c.nodes.find? (fun kv => kv.1 == i) = none := by
        apply List.find?_eq_none.2
        intro kv hkv
        simpa using h c (List.mem_cons_self c rest) hs' kv hkv
      simp only [getNodeNameAux, hs', if_false, hfind, Bool.false_eq_true]
      exact ih (fun c' hc' => h c' (List.mem_cons_of_mem c hc'))

lemma getNodeNameAux_ok {ν ε π : Type} (nameOf : ν → String)
    (l : List (DHComponent ν ε π)) (i : Nat) (r : String)
    (h : getNodeNameAux nameOf l i = Except.ok r) :
    ∃ c ∈ l, c.skipped = false ∧ ∃ kv ∈ c.nodes, kv.1 = i ∧ r = nameOf kv.2 := by
  induction l with
  | nil => cases h
  | cons c rest ih =>
    by_cases hs : c.skipped = true
    · simp only [getNodeNameAux, hs, if_true] at h
      rcases ih h with ⟨c', hc', hcs, hkv⟩
      exact ⟨c', List.mem_cons_of_mem c hc', hcs, hkv⟩
    · have hs' : c.skipped = false := by
        cases hcs : c.skipped
        · rfl
        · exact absurd hcs hs
      simp only [getNodeNameAux, hs', Bool.false_eq_true, if_false] at h
      cases hfind : c.nodes.find? (fun kv => kv.1 == i) with
      | none =>
        rw [hfind] at h
        rcases ih h with ⟨c', hc', hcs, hkv⟩
        exact ⟨c', List.mem_cons_of_mem c hc', hcs, hkv⟩
      | some kv =>
        rw [hfind] at h
        have hr : nameOf kv.2 = r := by
          simpa using h
        have hkey : kv.1 = i := by
          simpa using List.find?_some hfind
        exact ⟨c, List.mem_cons_self c rest, hs',
          kv, List.mem_of_find?_eq_some hfind, hkey, hr.symm⟩

lemma getEdgeInfoAux_error {ν ε π : Type} (l : List (DHComponent ν ε π))
    (srcID tgtID : Nat)
    (h : ∀ c ∈ l, c.skipped = false → ∀ kv ∈ c.edges, ¬kv.1 = srcID) :
    getEdgeInfoAux l srcID tgtID = Except.error LookupErr.edgeNotFound := by
  induction l with
  | nil => rfl
  | cons c rest ih =>
    by_cases hs : c.skipped = true
    · simp only [getEdgeInfoAux, hs, if_true]
      exact ih (fun c' hc' => h c' (List.mem_cons_of_mem c hc'))
    · have hs' : c.skipped = false := by
        cases hcs : c.skipped
        · rfl
        · exact absurd hcs hs
      have hfind : c.edges.find? (fun kv => kv.1 == srcID) = none := by
        apply List.find?_eq_none.2
        intro kv hkv
        simpa using h c (List.mem_cons_self c rest) hs' kv hkv
      simp only [getEdgeInfoAux, hs', if_false, hfind, Bool.false_eq_true]
      exact ih (fun c' hc' => h c' (List.mem_cons_of_mem c hc'))

lemma getEdgeInfoAux_ok {ν ε π : Type} (l : List (DHComponent ν ε π))
    (srcID tgtID : Nat) (r : ε) (h : getEdgeInfoAux l srcID tgtID = Except.ok r) :
    ∃ c ∈ l, c.skipped = false ∧
      ∃ kv ∈ c.edges, kv.1 = srcID ∧ (tgtID, r) ∈ kv.2 := by
  induction l with
  | nil => cases h
  | cons c rest ih =>
    by_cases hs : c.skipped = true
    · simp only [getEdgeInfoAux, hs, if_true] at h
      rcases ih h with ⟨c', hc', hcs, hkv⟩
      exact ⟨c', List.mem_cons_of_mem c hc', hcs, hkv⟩
    · have hs' : c.skipped = false := by
        cases hcs : c.skipped
        · rfl
        · exact absurd hcs hs
      simp only [getEdgeInfoAux, hs', Bool.false_eq_true, if_false] at h
      cases hfind : c.edges.find? (fun kv => kv.1 == srcID) with
      | none =>
        rw [hfind] at h
        rcases ih h with ⟨c', hc', hcs, hkv⟩
        exact ⟨c', List.mem_cons_of_mem c hc', hcs, hkv⟩
      | some kv =>
        rw [hfind] at h
        have h' : (match kv.2.find? (fun tv => tv.1 == tgtID) with
            | some tv => Except.ok tv.2
            | none =>
              (Except.error LookupErr.edgeMissingFromSource :
                Except LookupErr ε)) = Except.ok r := h
        cases hfind2 : kv.2.find? (fun tv => tv.1 == tgtID) with
        | none =>
          rw [hfind2] at h'
          cases h'
        | some tv =>
          rw [hfind2] at h'
          have hr : tv.2 = r := by
            simpa using h'
          have hkey : kv.1 = srcID := by
            simpa using List.find?_some hfind
          have htkey : tv.1 = tgtID := by
            simpa using List.find?_some hfind2
          refine ⟨c, List.mem_cons_self c rest, hs',
            kv, List.mem_of_find?_eq_some hfind, hkey, ?_⟩
          have : tv = (tgtID, r) := by
            cases tv
            simp_all
          exact this ▸ List.mem_of_find?_eq_some hfind2

lemma getPatternInfoAux_error {ν ε π : Type} (l : List (DHComponent ν ε π))
    (pid : Int)
    (h : ∀ c ∈ l, c.skipped = false → ∀ kv ∈ c.patts, ¬kv.1 = pid) :
    getPatternInfoAux l pid = Except.error LookupErr.pattNotFound := by
  induction l with
  | nil => rfl
  | cons c rest ih =>
    by_cases hs : c.skipped = true
    · simp only [getPatternInfoAux, hs, if_true]
      exact ih (fun c' hc' => h c' (List.mem_cons_of_mem c hc'))
    · have hs' : c.skipped = false := by
        cases hcs : c.skipped
        · rfl
        · exact absurd hcs hs
      have hfind : c.patts.find? (fun kv => kv.1 == pid) = none := by
        apply List.find?_eq_none.2
        intro kv hkv
        simpa using h c (List.mem_cons_self c rest) hs' kv hkv
      simp only [getPatternInfoAux, hs', if_false, hfind, Bool.false_eq_true]
      exact ih (fun c' hc' => h c' (List.mem_cons_of_mem c hc'))

lemma getPatternInfoAux_ok {ν ε π : Type} (l : List (DHComponent ν ε π))
    (pid : Int) (r : π) (h : getPatternInfoAux l pid = Except.ok r) :
    ∃ c ∈ l, c.skipped = false ∧ (pid, r) ∈ c.patts := by
  induction l with
  | nil => cases h
  | cons c rest ih =>
    by_cases hs : c.skipped = true
    · simp only [getPatternInfoAux, hs, if_true] at h
      rcases ih h with ⟨c', hc', hcs, hkv⟩
      exact ⟨c', List.mem_cons_of_mem c hc', hcs, hkv⟩
    · have hs' : c.skipped = false := by
        cases hcs : c.skipped
        · rfl
        · exact absurd hcs hs
      simp only [getPatternInfoAux, hs', Bool.false_eq_true, if_false] at h
      cases hfind : c.patts.find? (fun kv => kv.1 == pid) with
      | none =>
        rw [hfind] at h
        rcases ih h with ⟨c', hc', hcs, hkv⟩
        exact ⟨c', List.mem_cons_of_mem c hc', hcs, hkv⟩
      | some kv =>
        rw [hfind] at h
        have hr : kv.2 = r := by
          simpa using h
        have hkey : kv.1 = pid := by
          simpa using List.find?_some hfind
        refine ⟨c, List.mem_cons_self c rest, hs', ?_⟩
        have : kv = (pid, r) := by
          cases kv
          simp_all
        exact this ▸ List.mem_of_find?_eq_some hfind

lemma getNodeInfoAux_found {ν ε π : Type} (l : List (DHComponent ν ε π))
    (i : Nat) (h : ∃ c ∈ l, c.skipped = false ∧ ∃ kv ∈ c.nodes, kv.1 = i) :
    ∃ r, getNodeInfoAux l i = Except.ok r := by
  induction l with
  | nil =>
    rcases h with ⟨c, hc, _⟩
    cases hc
  | cons c rest ih =>
    by_cases hs : c.skipped = true
    · have heq : getNodeInfoAux (c :: rest) i = getNodeInfoAux rest i := by
        simp only [getNodeInfoAux, hs, if_true]
      rw [heq]
      apply ih
      rcases h with ⟨c', hc', hcs, hkv⟩
      rcases List.mem_cons.1 hc' with rfl | hmem
      · rw [hs] at hcs
        cases hcs
      · exact ⟨c', hmem, hcs, hkv⟩
    · have hs' : c.skipped = false := by
        cases hcs : c.skipped
        · rfl
        · exact absurd hcs hs
      cases hfind : c.nodes.find? (fun kv => kv.1 == i) with
      | some kv =>
        refine ⟨kv.2, ?_⟩
        simp only [getNodeInfoAux, hs', Bool.false_eq_true, if_false, hfind]
      | none =>
        have heq : getNodeInfoAux (c :: rest) i = getNodeInfoAux rest i := by
          simp only [getNodeInfoAux, hs', Bool.false_eq_true, if_false, hfind]
        rw [heq]
        apply ih
        rcases h with ⟨c', hc', hcs, kv, hkv, hkey⟩
        rcases List.mem_cons.1 hc' with rfl | hmem
        · have hnone := List.find?_eq_none.1 hfind kv hkv
          simp [hkey] at hnone
        · exact ⟨c', hmem, hcs, kv, hkv, hkey⟩

lemma getNodeNameAux_found {ν ε π : Type} (nameOf : ν → String)
    (l : List (DHComponent ν ε π)) (i : Nat)
    (h : ∃ c ∈ l, c.skipped = false ∧ ∃ kv ∈ c.nodes, kv.1 = i) :
    ∃ r, getNodeNameAux nameOf l i = Except.ok r := by
  induction l with
  | nil =>
    rcases h with ⟨c, hc, _⟩
    cases hc
  | cons c rest ih =>
    by_cases hs : c.skipped = true
    · have heq : getNodeNameAux nameOf (c :: rest) i =
          getNodeNameAux nameOf rest i := by
        simp only [getNodeNameAux, hs, if_true]
      rw [heq]
      apply ih
      rcases h with ⟨c', hc', hcs, hkv⟩
      rcases List.mem_cons.1 hc' with rfl | hmem
      · rw [hs] at hcs
        cases hcs
      · exact ⟨c', hmem, hcs, hkv⟩
    · have hs' : c.skipped = false := by
        cases hcs : c.skipped
        · rfl
        · exact absurd hcs hs
      cases hfind : c.nodes.find? (fun kv => kv.1 == i) with
      | some kv =>
        refine ⟨nameOf kv.2, ?_⟩
        simp only [getNodeNameAux, hs', Bool.false_eq_true, if_false, hfind]
      | none =>
        have heq : getNodeNameAux nameOf (c :: rest) i =
            getNodeNameAux nameOf rest i := by
          simp only [getNodeNameAux, hs', Bool.false_eq_true, if_false, hfind]
        rw [heq]
        apply ih
        rcases h with ⟨c', hc', hcs, kv, hkv, hkey⟩
        rcases List.mem_cons.1 hc' with rfl | hmem
        · have hnone := List.find?_eq_none.1 hfind kv hkv
          simp [hkey] at hnone
        · exact ⟨c', hmem, hcs, kv, hkv, hkey⟩

lemma getEdgeInfoAux_srcFound {ν ε π : Type} (l : List (DHComponent ν ε π))
    (srcID tgtID : Nat)
    (h : ∃ c ∈ l, c.skipped = false ∧ ∃ kv ∈ c.edges, kv.1 = srcID) :
    (∃ r, getEdgeInfoAux l srcID tgtID = Except.ok r) ∨
      getEdgeInfoAux l srcID tgtID =
        Except.error LookupErr.edgeMissingFromSource := by
  induction l with
  | nil =>
    rcases h with ⟨c, hc, _⟩
    cases hc
  | cons c rest ih =>
    by_cases hs : c.skipped = true
    · have heq : getEdgeInfoAux (c :: rest) srcID tgtID =
          getEdgeInfoAux rest srcID tgtID := by
        simp only [getEdgeInfoAux, hs, if_true]
      rw [heq]
      apply ih
      rcases h with ⟨c', hc', hcs, hkv⟩
      rcases List.mem_cons.1 hc' with rfl | hmem
      · rw [hs] at hcs
        cases hcs
      · exact ⟨c', hmem, hcs, hkv⟩
    · have hs' : c.skipped = false := by
        cases hcs : c.skipped
        · rfl
        · exact absurd hcs hs
      cases hfind : c.edges.find? (fun kv => kv.1 == srcID) with
      | some kv =>
        cases hfind2 : kv.2.find? (fun tv => tv.1 == tgtID) with
        | some tv =>
          refine Or.inl ⟨tv.2, ?_⟩
          simp only [getEdgeInfoAux, hs', Bool.false_eq_true, if_false, hfind,
            hfind2]
        | none =>
          refine Or.inr ?_
          simp only [getEdgeInfoAux, hs', Bool.false_eq_true, if_false, hfind,
            hfind2]
      | none =>
        have heq : getEdgeInfoAux (c :: rest) srcID tgtID =
            getEdgeInfoAux rest srcID tgtID := by
          simp only [getEdgeInfoAux, hs', Bool.false_eq_true, if_false, hfind]
        rw [heq]
        apply ih
        rcases h with ⟨c', hc', hcs, kv, hkv, hkey⟩
        rcases List.mem_cons.1 hc' with rfl | hmem
        · have hnone := List.find?_eq_none.1 hfind kv hkv
          simp [hkey] at hnone
        · exact ⟨c', hmem, hcs, kv, hkv, hkey⟩

lemma getEdgeInfoAux_missing {ν ε π : Type} (l : List (DHComponent ν ε π))
    (srcID tgtID : Nat)
    (h : getEdgeInfoAux l srcID tgtID =
      Except.error LookupErr.edgeMissingFromSource) :
    ∃ c ∈ l, c.skipped = false ∧
      ∃ kv ∈ c.edges, kv.1 = srcID ∧ ∀ tv ∈ kv.2, ¬tv.1 = tgtID := by
  induction l with
  | nil => simp [getEdgeInfoAux] at h
  | cons c rest ih =>
    by_cases hs : c.skipped = true
    · simp only [getEdgeInfoAux, hs, if_true] at h
      rcases ih h with ⟨c', hc', hcs, hkv⟩
      exact ⟨c', List.mem_cons_of_mem c hc', hcs, hkv⟩
    · have hs' : c.skipped = false := by
        cases hcs : c.skipped
        · rfl
        · exact absurd hcs hs
      simp only [getEdgeInfoAux, hs', Bool.false_eq_true, if_false] at h
      cases hfind : c.edges.find? (fun kv => kv.1 == srcID) with
      | none =>
        rw [hfind] at h
        rcases ih h with ⟨c', hc', hcs, hkv⟩
        exact ⟨c', List.mem_cons_of_mem c hc', hcs, hkv⟩
      | some kv =>
        rw [hfind] at h
        have h' : (match kv.2.find? (fun tv => tv.1 == tgtID) with
            | some tv => Except.ok tv.2
            | none =>
              (Except.error LookupErr.edgeMissingFromSource :
                Except LookupErr ε)) =
            Except.error LookupErr.edgeMissingFromSource := h
        cases hfind2 : kv.2.find? (fun tv => tv.1 == tgtID) with
        | some tv =>
          rw [hfind2] at h'
          cases h'
        | none =>
          have hkey : kv.1 = srcID := by
            simpa using List.find?_some hfind
          refine ⟨c, List.mem_cons_self c rest, hs',
            kv, List.mem_of_find?_eq_some hfind, hkey, ?_⟩
          intro tv htv
          have hnone := List.find?_eq_none.1 hfind2 tv htv
          simpa using hnone

lemma getEdgeInfoAux_found {ν ε π : Type} (l : List (DHComponent ν ε π))
    (srcID tgtID : Nat)
    (h : ∃ c ∈ l, c.skipped = false ∧ ∃ kv ∈ c.edges, kv.1 = srcID)
    (hall : ∀ c ∈ l, c.skipped = false → ∀ kv ∈ c.edges, kv.1 = srcID →
      ∃ tv ∈ kv.2, tv.1 = tgtID) :
    ∃ r, getEdgeInfoAux l srcID tgtID = Except.ok r := by
  rcases getEdgeInfoAux_srcFound l srcID tgtID h with hok | hmiss
  · exact hok
  · exfalso
    rcases getEdgeInfoAux_missing l srcID tgtID hmiss with
      ⟨c, hc, hcs, kv, hkv, hkey, hno⟩
    rcases hall c hc hcs kv hkv hkey with ⟨tv, htv, htkey⟩
    exact hno tv htv htkey

lemma getPatternInfoAux_found {ν ε π : Type} (l : List (DHComponent ν ε π))
    (pid : Int)
    (h : ∃ c ∈ l, c.skipped = false ∧ ∃ kv ∈ c.patts, kv.1 = pid) :
    ∃ r, getPatternInfoAux l pid = Except.ok r := by
  induction l with
  | nil =>
    rcases h with ⟨c, hc, _⟩
    cases hc
  | cons c rest ih =>
    by_cases hs : c.skipped = true
    · have heq : getPatternInfoAux (c :: rest) pid =
          getPatternInfoAux rest pid := by
        simp only [getPatternInfoAux, hs, if_true]
      rw [heq]
      apply ih
      rcases h with ⟨c', hc', hcs, hkv⟩
      rcases List.mem_cons.1 hc' with rfl | hmem
      · rw [hs] at hcs
        cases hcs
      · exact ⟨c', hmem, hcs, hkv⟩
    · have hs' : c.skipped = false := by
        cases hcs : c.skipped
        · rfl
        · exact absurd hcs hs
      cases hfind : c.patts.find? (fun kv => kv.1 == pid) with
      | some kv =>
        refine ⟨kv.2, ?_⟩
        simp only [getPatternInfoAux, hs', Bool.false_eq_true, if_false, hfind]
      | none =>
        have heq : getPatternInfoAux (c :: rest) pid =
            getPatternInfoAux rest pid := by
          simp only [getPatternInfoAux, hs', Bool.false_eq_true, if_false,
            hfind]
        rw [heq]
        apply ih
        rcases h with ⟨c', hc', hcs, kv, hkv, hkey⟩
        rcases List.mem_cons.1 hc' with rfl | hmem
        · have hnone := List.find?_eq_none.1 hfind kv hkv
          simp [hkey] at hnone
        · exact ⟨c', hmem, hcs, kv, hkv, hkey⟩

/-- C8: DataHolder.validateComponentRank throws the "isn't a positive
integer" error for every rank that is zero, negative or not an integer,
throws the distinct "too large" error for every integer rank strictly above
the component count, and returns true for every integer rank in
[1, componentCount]. -/
theorem C8_validateComponentRank_cases {ν ε π : Type} (d : DataHolder ν ε π)
    (sizeRank : ℚ) :
    ((sizeRank ≤ 0 ∨ ¬sizeRank.isInt = true) →
        validateComponentRank d sizeRank =
          Except.error RankErr.notPositiveInteger) ∧
      ((sizeRank.isInt = true ∧ (d.components.length : ℚ) < sizeRank) →
        validateComponentRank d sizeRank = Except.error RankErr.tooLarge) ∧
      ((sizeRank.isInt = true ∧ 1 ≤ sizeRank ∧
          sizeRank ≤ (d.components.length : ℚ)) →
        validateComponentRank d sizeRank = Except.ok true) := by
  unfold validateComponentRank
  refine ⟨?_, ?_, ?_⟩
  · intro h
    rw [if_neg]
    rintro ⟨hpos, hint⟩
    rcases h with hle | hnotint
    · exact absurd hpos (not_lt.2 hle)
    · exact hnotint hint
  · rintro ⟨hint, hlarge⟩
    have hpos : 0 < sizeRank :=
      lt_of_le_of_lt (by positivity) hlarge
    rw [if_pos ⟨hpos, hint⟩, if_neg (not_le.2 hlarge)]
  · rintro ⟨hint, hone, hle⟩
    have hpos : 0 < sizeRank := lt_of_lt_of_le one_pos hone
    rw [if_pos ⟨hpos, hint⟩, if_pos hle]

/-- Witness for C8 on a two-component data set: rank 1/2 is rejected as not a
positive integer, rank 3 as too large, and rank 2 is accepted. -/
theorem C8_validateComponentRank_cases_witness :
    (((1 : ℚ)/2 ≤ 0 ∨ ¬((1 : ℚ)/2).isInt = true) ∧
        validateComponentRank dTwo ((1 : ℚ)/2) =
          Except.error RankErr.notPositiveInteger) ∧
      (((3 : ℚ).isInt = true ∧ ((dTwo.components.length : ℚ) < 3)) ∧
        validateComponentRank dTwo 3 = Except.error RankErr.tooLarge) ∧
      (((2 : ℚ).isInt = true ∧ (1 : ℚ) ≤ 2 ∧
          (2 : ℚ) ≤ (dTwo.components.length : ℚ)) ∧
        validateComponentRank dTwo 2 = Except.ok true) :=
  ⟨⟨Or.inr (by simp [Rat.isInt]), (C8_validateComponentRank_cases dTwo ((1 : ℚ)/2)).1
      (Or.inr (by simp [Rat.isInt]))⟩,
    ⟨⟨by decide, by norm_num [dTwo]⟩,
      (C8_validateComponentRank_cases dTwo 3).2.1 ⟨by decide, by norm_num [dTwo]⟩⟩,
    ⟨⟨by decide, by norm_num, by norm_num [dTwo]⟩,
      (C8_validateComponentRank_cases dTwo 2).2.2
        ⟨by decide, by norm_num, by norm_num [dTwo]⟩⟩⟩

/-- C9 counterexample: node 0 is present in the loaded data (in the skipped
first component of `dSkip`), yet DataHolder.getNodeInfo throws the not-found
error instead of returning the stored record. -/
theorem C9_counterexample_skipped_component :
    (∃ c ∈ dSkip.components, ∃ kv ∈ c.nodes, kv.1 = 0) ∧
      getNodeInfo dSkip 0 = Except.error LookupErr.nodeNotFound := by
  constructor
  · exact ⟨⟨true, [(0, "zero")], [(1, [(2, ())])], [(5, ())]⟩,
      by simp [dSkip], (0, "zero"), by simp, rfl⟩
  · rfl

/-- C9 (amended): the by-id lookups search only non-skipped components. The
node, name and pattern lookups return a record stored under the requested id
in some non-skipped component whenever one contains the id, and throw the
not-found error when none does (an element present only in skipped
components included; for patterns under the nonnegative-id pre-check). The
edge lookup throws its not-found error exactly when no non-skipped component
has an edge row for the source id; when some non-skipped component has such
a row, it either returns a record stored under (source, target) in a
non-skipped component or throws the distinct found-source-but-no-edge
error, the latter only when some non-skipped component's source row lacks
the target — in particular, when every non-skipped source row contains the
target, the stored record is returned. -/
theorem C9_lookups_nonskipped {ν ε π : Type} (d : DataHolder ν ε π)
    (i src tgt : Nat) (pid : Int) :
    ((∀ c ∈ d.components, c.skipped = false → ∀ kv ∈ c.nodes, ¬kv.1 = i) →
        getNodeInfo d i = Except.error LookupErr.nodeNotFound ∧
          getNodeName d i = Except.error LookupErr.nodeNotFound) ∧
      ((∃ c ∈ d.components, c.skipped = false ∧ ∃ kv ∈ c.nodes, kv.1 = i) →
        (∃ r, getNodeInfo d i = Except.ok r ∧
            ∃ c ∈ d.components, c.skipped = false ∧ (i, r) ∈ c.nodes) ∧
          ∃ r, getNodeName d i = Except.ok r ∧
            ∃ c ∈ d.components, c.skipped = false ∧
              ∃ kv ∈ c.nodes, kv.1 = i ∧ r = d.nodeName kv.2) ∧
      (∀ r, getNodeInfo d i = Except.ok r →
        ∃ c ∈ d.components, c.skipped = false ∧ (i, r) ∈ c.nodes) ∧
      (∀ r, getNodeName d i = Except.ok r →
        ∃ c ∈ d.components, c.skipped = false ∧
          ∃ kv ∈ c.nodes, kv.1 = i ∧ r = d.nodeName kv.2) ∧
      ((∀ c ∈ d.components, c.skipped = false → ∀ kv ∈ c.edges, ¬kv.1 = src) →
        getEdgeInfo d src tgt = Except.error LookupErr.edgeNotFound) ∧
      ((∃ c ∈ d.components, c.skipped = false ∧ ∃ kv ∈ c.edges, kv.1 = src) →
        (∃ r, getEdgeInfo d src tgt = Except.ok r) ∨
          getEdgeInfo d src tgt =
            Except.error LookupErr.edgeMissingFromSource) ∧
      ((∃ c ∈ d.components, c.skipped = false ∧ ∃ kv ∈ c.edges, kv.1 = src) →
        (∀ c ∈ d.components, c.skipped = false → ∀ kv ∈ c.edges,
          kv.1 = src → ∃ tv ∈ kv.2, tv.1 = tgt) →
        ∃ r, getEdgeInfo d src tgt = Except.ok r ∧
          ∃ c ∈ d.components, c.skipped = false ∧
            ∃ kv ∈ c.edges, kv.1 = src ∧ (tgt, r) ∈ kv.2) ∧
      (getEdgeInfo d src tgt = Except.error LookupErr.edgeMissingFromSource →
        ∃ c ∈ d.components, c.skipped = false ∧
          ∃ kv ∈ c.edges, kv.1 = src ∧ ∀ tv ∈ kv.2, ¬tv.1 = tgt) ∧
      (∀ r, getEdgeInfo d src tgt = Except.ok r →
        ∃ c ∈ d.components, c.skipped = false ∧
          ∃ kv ∈ c.edges, kv.1 = src ∧ (tgt, r) ∈ kv.2) ∧
      ((0 ≤ pid ∧
          ∀ c ∈ d.components, c.skipped = false → ∀ kv ∈ c.patts, ¬kv.1 = pid) →
        getPatternInfo d pid = Except.error LookupErr.pattNotFound) ∧
      ((0 ≤ pid ∧
          ∃ c ∈ d.components, c.skipped = false ∧ ∃ kv ∈ c.patts, kv.1 = pid) →
        ∃ r, getPatternInfo d pid = Except.ok r ∧
          ∃ c ∈ d.components, c.skipped = false ∧ (pid, r) ∈ c.patts) ∧
      ∀ r, getPatternInfo d pid = Except.ok r →
        ∃ c ∈ d.components, c.skipped = false ∧ (pid, r) ∈ c.patts := by
  refine ⟨fun h => ⟨getNodeInfoAux_error d.components i h,
      getNodeNameAux_error d.nodeName d.components i h⟩,
    ?_,
    fun r hr => getNodeInfoAux_ok d.components i r hr,
    fun r hr => getNodeNameAux_ok d.nodeName d.components i r hr,
    fun h => getEdgeInfoAux_error d.components src tgt h,
    fun h => getEdgeInfoAux_srcFound d.components src tgt h,
    ?_,
    fun h => getEdgeInfoAux_missing d.components src tgt h,
    fun r hr => getEdgeInfoAux_ok d.components src tgt r hr,
    ?_, ?_, ?_⟩
  · intro h
    constructor
    · rcases getNodeInfoAux_found d.components i h with ⟨r, hr⟩
      exact ⟨r, hr, getNodeInfoAux_ok d.components i r hr⟩
    · rcases getNodeNameAux_found d.nodeName d.components i h with ⟨r, hr⟩
      exact ⟨r, hr, getNodeNameAux_ok d.nodeName d.components i r hr⟩
  · intro h hall
    rcases getEdgeInfoAux_found d.components src tgt h hall with ⟨r, hr⟩
    exact ⟨r, hr, getEdgeInfoAux_ok d.components src tgt r hr⟩
  · rintro ⟨hpid, h⟩
    unfold getPatternInfo
    rw [if_neg (not_lt.2 hpid)]
    exact getPatternInfoAux_error d.components pid h
  · rintro ⟨hpid, h⟩
    have heq : getPatternInfo d pid = getPatternInfoAux d.components pid := by
      unfold getPatternInfo
      rw [if_neg (not_lt.2 hpid)]
    rcases getPatternInfoAux_found d.components pid h with ⟨r, hr⟩
    exact ⟨r, heq.trans hr, getPatternInfoAux_ok d.components pid r hr⟩
  · intro r hr
    unfold getPatternInfo at hr
    by_cases hpid : pid < 0
    · rw [if_pos hpid] at hr
      cases hr
    · rw [if_neg hpid] at hr
      exact getPatternInfoAux_ok d.components pid r hr

/-- Witness for the amended C9 on `dSkip`: node 0 lives only in the skipped
component, so its lookups throw not-found; node 7, edge 8→9 and pattern 6
live in the laid-out component, so their lookups return the stored records. -/
theorem C9_lookups_nonskipped_witness :
    ((∀ c ∈ dSkip.components, c.skipped = false → ∀ kv ∈ c.nodes, ¬kv.1 = 0) ∧
      getNodeInfo dSkip 0 = Except.error LookupErr.nodeNotFound ∧
        getNodeName dSkip 0 = Except.error LookupErr.nodeNotFound) ∧
      ((∃ c ∈ dSkip.components, c.skipped = false ∧
          ∃ kv ∈ c.nodes, kv.1 = 7) ∧
        ∃ r, getNodeInfo dSkip 7 = Except.ok r ∧
          ∃ c ∈ dSkip.components, c.skipped = false ∧
            ((7 : Nat), r) ∈ c.nodes) ∧
      ((∃ c ∈ dSkip.components, c.skipped = false ∧
          ∃ kv ∈ c.edges, kv.1 = 8) ∧
        (∀ c ∈ dSkip.components, c.skipped = false → ∀ kv ∈ c.edges,
          kv.1 = 8 → ∃ tv ∈ kv.2, tv.1 = 9) ∧
        ∃ r, getEdgeInfo dSkip 8 9 = Except.ok r ∧
          ∃ c ∈ dSkip.components, c.skipped = false ∧
            ∃ kv ∈ c.edges, kv.1 = 8 ∧ ((9 : Nat), r) ∈ kv.2) ∧
      (((0 : Int) ≤ 6 ∧
          ∃ c ∈ dSkip.components, c.skipped = false ∧
            ∃ kv ∈ c.patts, kv.1 = 6) ∧
        ∃ r, getPatternInfo dSkip 6 = Except.ok r ∧
          ∃ c ∈ dSkip.components, c.skipped = false ∧
            ((6 : Int), r) ∈ c.patts) :=
  ⟨⟨by decide, (C9_lookups_nonskipped dSkip 0 8 9 6).1 (by decide)⟩,
    ⟨by decide, ((C9_lookups_nonskipped dSkip 7 8 9 6).2.1 (by decide)).1⟩,
    ⟨by decide, by decide,
      (C9_lookups_nonskipped dSkip 0 8 9 6).2.2.2.2.2.2.1 (by decide)
        (by decide)⟩,
    ⟨⟨by decide, by decide⟩,
      (C9_lookups_nonskipped dSkip 0 8 9 6).2.2.2.2.2.2.2.2.2.2.1
        ⟨by decide, by decide⟩⟩⟩

/-- C10: every by-id lookup searches only non-skipped components, so an
element present only in a skipped component yields the not-found error even
though it is present in the loaded data. -/
theorem C10_lookups_skip_skipped_components {ν ε π : Type}
    (d : DataHolder ν ε π) (i src tgt : Nat) (pid : Int)
    (hnode : (∃ c ∈ d.components, c.skipped = true ∧ ∃ kv ∈ c.nodes, kv.1 = i) ∧
      ∀ c ∈ d.components, c.skipped = false → ∀ kv ∈ c.nodes, ¬kv.1 = i)
    (hedge : (∃ c ∈ d.components, c.skipped = true ∧
        ∃ kv ∈ c.edges, kv.1 = src ∧ ∃ tv ∈ kv.2, tv.1 = tgt) ∧
      ∀ c ∈ d.components, c.skipped = false → ∀ kv ∈ c.edges, ¬kv.1 = src)
    (hpatt : (0 ≤ pid ∧
        ∃ c ∈ d.components, c.skipped = true ∧ ∃ kv ∈ c.patts, kv.1 = pid) ∧
      ∀ c ∈ d.components, c.skipped = false → ∀ kv ∈ c.patts, ¬kv.1 = pid) :
    getNodeInfo d i = Except.error LookupErr.nodeNotFound ∧
      getNodeName d i = Except.error LookupErr.nodeNotFound ∧
      getEdgeInfo d src tgt = Except.error LookupErr.edgeNotFound ∧
      getPatternInfo d pid = Except.error LookupErr.pattNotFound := by
  refine ⟨getNodeInfoAux_error d.components i hnode.2,
    getNodeNameAux_error d.nodeName d.components i hnode.2,
    getEdgeInfoAux_error d.components src tgt hedge.2, ?_⟩
  unfold getPatternInfo
  rw [if_neg (not_lt.2 hpatt.1.1)]
  exact getPatternInfoAux_error d.components pid hpatt.2

/-- Witness for C10 on `dSkip`. -/
theorem C10_lookups_skip_skipped_components_witness :
    ((∃ c ∈ dSkip.components, c.skipped = true ∧ ∃ kv ∈ c.nodes, kv.1 = 0) ∧
        ∀ c ∈ dSkip.components, c.skipped = false →
          ∀ kv ∈ c.nodes, ¬kv.1 = 0) ∧
      ((∃ c ∈ dSkip.components, c.skipped = true ∧
          ∃ kv ∈ c.edges, kv.1 = 1 ∧ ∃ tv ∈ kv.2, tv.1 = 2) ∧
        ∀ c ∈ dSkip.components, c.skipped = false →
          ∀ kv ∈ c.edges, ¬kv.1 = 1) ∧
      (((0 : Int) ≤ 5 ∧
          ∃ c ∈ dSkip.components, c.skipped = true ∧
            ∃ kv ∈ c.patts, kv.1 = 5) ∧
        ∀ c ∈ dSkip.components, c.skipped = false →
          ∀ kv ∈ c.patts, ¬kv.1 = 5) ∧
      (getNodeInfo dSkip 0 = Except.error LookupErr.nodeNotFound ∧
        getNodeName dSkip 0 = Except.error LookupErr.nodeNotFound ∧
        getEdgeInfo dSkip 1 2 = Except.error LookupErr.edgeNotFound ∧
        getPatternInfo dSkip 5 = Except.error LookupErr.pattNotFound) :=
  ⟨by decide, by decide, by decide,
    C10_lookups_skip_skipped_components dSkip 0 1 2 5 (by decide) (by decide)
      (by decide)⟩

/-
Lemmas about the control-point conversion.
-/

lemma processCtrlPt_fst (srcPos tgtPos : ℝ × ℝ) (dy : ℝ) (f l : Bool)
    (cx cy : ℝ) :
    (processCtrlPt srcPos tgtPos dy f l cx cy).1 =
      (if |pointToLineDistance (cx, dy - cy) srcPos tgtPos| >
          CTRL_PT_DIST_EPSILON then true else false) := rfl

lemma processCtrlPt_dist (srcPos tgtPos : ℝ × ℝ) (dy : ℝ) (f l : Bool)
    (cx cy : ℝ) :
    (processCtrlPt srcPos tgtPos dy f l cx cy).2.1 =
      pointToLineDistance (cx, dy - cy) srcPos tgtPos := rfl

lemma convertGo_nil (srcPos tgtPos : ℝ × ℝ) (dy : ℝ) (f : Bool) :
    convertGo srcPos tgtPos dy f [] = (false, [], []) := rfl

lemma convertGo_single (srcPos tgtPos : ℝ × ℝ) (dy : ℝ) (f : Bool) (a : ℝ) :
    convertGo srcPos tgtPos dy f [a] = (false, [], []) := rfl

lemma convertGo_cons (srcPos tgtPos : ℝ × ℝ) (dy : ℝ) (f : Bool) (a b : ℝ)
    (rest : List ℝ) :
    convertGo srcPos tgtPos dy f (a :: b :: rest) =
      ((processCtrlPt srcPos tgtPos dy f (decide (rest = [])) a b).1 ||
          (convertGo srcPos tgtPos dy false rest).1,
        (processCtrlPt srcPos tgtPos dy f (decide (rest = [])) a b).2.1 ::
          (convertGo srcPos tgtPos dy false rest).2.1,
        (processCtrlPt srcPos tgtPos dy f (decide (rest = [])) a b).2.2 ::
          (convertGo srcPos tgtPos dy false rest).2.2) := rfl

lemma convertGo_dists (srcPos tgtPos : ℝ × ℝ) (dy : ℝ) (n : Nat) :
    ∀ pts : List ℝ, pts.length ≤ n → ∀ f : Bool,
      (convertGo srcPos tgtPos dy f pts).2.1 =
        (ctrlPtPairs pts).map
          (fun q => pointToLineDistance (q.1, dy - q.2) srcPos tgtPos) := by
  induction n with
  | zero =>
    intro pts h f
    rw [List.eq_nil_of_length_eq_zero (Nat.le_zero.1 h)]
    rfl
  | succ n ih =>
    intro pts h f
    rcases pts with _ | ⟨a, _ | ⟨b, rest⟩⟩
    · rfl
    · rfl
    · have hr : rest.length ≤ n := by
        simp only [List.length_cons] at h
        omega
      rw [convertGo_cons, processCtrlPt_dist]
      show _ :: _ = ((a, b) :: ctrlPtPairs rest).map _
      rw [List.map_cons, ih rest hr false]

lemma convertGo_complex (srcPos tgtPos : ℝ × ℝ) (dy : ℝ) (n : Nat) :
    ∀ pts : List ℝ, pts.length ≤ n → ∀ f : Bool,
      ((convertGo srcPos tgtPos dy f pts).1 = true ↔
        ∃ d ∈ (convertGo srcPos tgtPos dy f pts).2.1,
          |d| > CTRL_PT_DIST_EPSILON) := by
  induction n with
  | zero =>
    intro pts h f
    rw [List.eq_nil_of_length_eq_zero (Nat.le_zero.1 h)]
    simp [convertGo_nil]
  | succ n ih =>
    intro pts h f
    rcases pts with _ | ⟨a, _ | ⟨b, rest⟩⟩
    · simp [convertGo_nil]
    · simp [convertGo_single]
    · have hr : rest.length ≤ n := by
        simp only [List.length_cons] at h
        omega
      rw [convertGo_cons]
      simp only [Bool.or_eq_true, List.mem_cons]
      rw [ih rest hr false, processCtrlPt_fst]
      constructor
      · rintro (hhead | ⟨d, hd, hdgt⟩)
        · refine ⟨pointToLineDistance (a, dy - b) srcPos tgtPos,
            Or.inl
              (processCtrlPt_dist srcPos tgtPos dy f (decide (rest = []))
                a b).symm, ?_⟩
          by_cases hgt : |pointToLineDistance (a, dy - b) srcPos tgtPos| >
              CTRL_PT_DIST_EPSILON
          · exact hgt
          · rw [if_neg hgt] at hhead
            cases hhead
        · exact ⟨d, Or.inr hd, hdgt⟩
      · rintro ⟨d, hd | hd, hdgt⟩
        · left
          rw [processCtrlPt_dist] at hd
          rw [hd] at hdgt
          rw [if_pos hdgt]
        · exact Or.inr ⟨d, hd, hdgt⟩

/-- C6: Drawer.convertCtrlPtsToDistsAndWeights classifies the edge as
needing full curve data (complex) exactly when some control point's
perpendicular distance to the source-target line exceeds
CTRL_PT_DIST_EPSILON (5.0); when every distance is within the threshold, the
edge is classified as renderable with a straight approximation. -/
theorem C6_complex_iff_ctrl_pt_far (srcPos tgtPos : ℝ × ℝ) (ctrlPts : List ℝ)
    (dx dy : ℝ) :
    (convertCtrlPtsToDistsAndWeights srcPos tgtPos ctrlPts dx dy).complex =
        true ↔
      ∃ q ∈ ctrlPtPairs ctrlPts,
        |pointToLineDistance (q.1, dy - q.2) srcPos tgtPos| >
          CTRL_PT_DIST_EPSILON := by
  have h1 := convertGo_complex srcPos tgtPos dy ctrlPts.length ctrlPts
    le_rfl true
  have h2 := convertGo_dists srcPos tgtPos dy ctrlPts.length ctrlPts
    le_rfl true
  show (convertGo srcPos tgtPos dy true ctrlPts).1 = true ↔ _
  rw [h1, h2]
  simp only [List.mem_map, gt_iff_lt]
  constructor
  · rintro ⟨d, ⟨q, hm, rfl⟩, hgt⟩
    exact ⟨q, hm, hgt⟩
  · rintro ⟨q, hm, hgt⟩
    exact ⟨_, ⟨q, hm, rfl⟩, hgt⟩

lemma clampWeight_first_ne_zero (l : Bool) (w0 : ℝ) :
    clampWeight true l w0 ≠ 0 := by
  unfold clampWeight
  by_cases h0 : w0 = 0
  · rw [if_pos ⟨rfl, h0⟩]
    norm_num
  · rw [if_neg (fun hc => h0 hc.2)]
    by_cases h1 : l = true ∧ w0 = 1
    · rw [if_pos h1]
      norm_num
    · rw [if_neg h1]
      exact h0

lemma clampWeight_last_ne_one (f : Bool) (w0 : ℝ) :
    clampWeight f true w0 ≠ 1 := by
  unfold clampWeight
  by_cases h0 : f = true ∧ w0 = 0
  · rw [if_pos h0]
    norm_num
  · rw [if_neg h0]
    by_cases h1 : w0 = 1
    · rw [if_pos ⟨rfl, h1⟩]
      norm_num
    · rw [if_neg (fun hc => h1 hc.2)]
      exact h1

lemma processCtrlPt_w_first (srcPos tgtPos : ℝ × ℝ) (dy : ℝ) (l : Bool)
    (cx cy : ℝ) : (processCtrlPt srcPos tgtPos dy true l cx cy).2.2 ≠ 0 :=
  clampWeight_first_ne_zero l _

lemma processCtrlPt_w_last (srcPos tgtPos : ℝ × ℝ) (dy : ℝ) (f : Bool)
    (cx cy : ℝ) : (processCtrlPt srcPos tgtPos dy f true cx cy).2.2 ≠ 1 :=
  clampWeight_last_ne_one f _

lemma convertGo_last_ne_one (srcPos tgtPos : ℝ × ℝ) (dy : ℝ) (n : Nat) :
    ∀ pts : List ℝ, pts.length ≤ n → pts.length % 2 = 0 → ∀ (f : Bool) (w : ℝ),
      (convertGo srcPos tgtPos dy f pts).2.2.getLast? = some w → w ≠ 1 := by
  induction n with
  | zero =>
    intro pts h _ f w hw
    rw [List.eq_nil_of_length_eq_zero (Nat.le_zero.1 h)] at hw
    cases hw
  | succ n ih =>
    intro pts h heven f w hw
    rcases pts with _ | ⟨a, _ | ⟨b, rest⟩⟩
    · cases hw
    · simp at heven
    · have hr : rest.length ≤ n := by
        simp only [List.length_cons] at h
        omega
      have hreven : rest.length % 2 = 0 := by
        simp only [List.length_cons] at heven
        omega
      rw [convertGo_cons] at hw
      rcases rest with _ | ⟨c, _ | ⟨d, t⟩⟩
      · simp only [convertGo_nil, List.getLast?_singleton, Option.some.injEq]
          at hw
        rw [← hw]
        exact processCtrlPt_w_last srcPos tgtPos dy f a b
      · simp at hreven
      · rw [convertGo_cons, List.getLast?_cons_cons] at hw
        have := ih (c :: d :: t) hr hreven false w
        rw [convertGo_cons] at this
        exact this hw

/-- C7 counterexample: with source (0,0), target (5,0) and the control
points (5,0) then (0,0), the first weight is exactly 1 (the point sits on
the target) and the second exactly 0 (the point sits on the source), and
both are emitted unclamped — the clamp only fires for weight 0 at the first
point and weight 1 at the last point. -/
theorem C7_counterexample_weight_one_emitted :
    (convertCtrlPtsToDistsAndWeights (0, 0) (5, 0) [5, 0, 0, 0] 0 0).weights =
        [1, 0] ∧
      (1 : ℝ) ∈
        (convertCtrlPtsToDistsAndWeights (0, 0) (5, 0) [5, 0, 0, 0] 0 0).weights ∧
      (0 : ℝ) ∈
        (convertCtrlPtsToDistsAndWeights (0, 0) (5, 0) [5, 0, 0, 0] 0 0).weights := by
  have h25 : Real.sqrt 25 = 5 := by
    rw [show (25 : ℝ) = 5 ^ 2 by norm_num]
    exact Real.sqrt_sq (by norm_num)
  have hd : distance (0, 0) (5, 0) = 5 := by
    unfold distance
    norm_num [h25]
  have hd2 : distance (5, 0 - 0) (0, 0) = 5 := by
    unfold distance
    norm_num [h25]
  have hd3 : distance (5, 0 - 0) (5, 0) = 0 := by
    unfold distance
    norm_num
  have hd4 : distance (0, 0 - 0) (0, 0) = 0 := by
    unfold distance
    norm_num
  have hd5 : distance (0, 0 - 0) (5, 0) = 5 := by
    unfold distance
    norm_num [h25]
  have hpld1 : pointToLineDistance (5, 0 - 0) (0, 0) (5, 0) = 0 := by
    unfold pointToLineDistance
    norm_num
  have hpld2 : pointToLineDistance (0, 0 - 0) (0, 0) (5, 0) = 0 := by
    unfold pointToLineDistance
    norm_num
  have h1 : (processCtrlPt (0, 0) (5, 0) 0 true false 5 0).2.2 = 1 := by
    unfold processCtrlPt
    dsimp only
    rw [hpld1, hd2, hd3, hd]
    unfold clampWeight
    norm_num [h25]
  have h2 : (processCtrlPt (0, 0) (5, 0) 0 false true 0 0).2.2 = 0 := by
    unfold processCtrlPt
    dsimp only
    rw [hpld2, hd4, hd5, hd]
    unfold clampWeight
    norm_num [h25]
  have hw : (convertCtrlPtsToDistsAndWeights (0, 0) (5, 0) [5, 0, 0, 0] 0 0).weights =
      [1, 0] := by
    show (convertGo (0, 0) (5, 0) 0 true [5, 0, 0, 0]).2.2 = [1, 0]
    rw [convertGo_cons, convertGo_cons, convertGo_nil]
    show [(processCtrlPt (0, 0) (5, 0) 0 true false 5 0).2.2,
      (processCtrlPt (0, 0) (5, 0) 0 false true 0 0).2.2] = [1, 0]
    rw [h1, h2]
  exact ⟨hw, by rw [hw]; simp, by rw [hw]; simp⟩

/-- C7 (amended): the clamp away from the exact weights 0 and 1 applies only
at the boundary positions — the first emitted weight is never exactly 0 and
the last emitted weight is never exactly 1; weights 0 or 1 at other
positions (and 1 at the first or 0 at the last) are emitted unchanged. -/
theorem C7_boundary_weights_clamped (srcPos tgtPos : ℝ × ℝ) (ctrlPts : List ℝ)
    (dx dy : ℝ) (hlen : ctrlPts.length % 2 = 0) :
    (∀ w : ℝ,
        (convertCtrlPtsToDistsAndWeights srcPos tgtPos ctrlPts dx dy).weights.head? =
          some w → w ≠ 0) ∧
      ∀ w : ℝ,
        (convertCtrlPtsToDistsAndWeights srcPos tgtPos ctrlPts dx dy).weights.getLast? =
          some w → w ≠ 1 := by
  constructor
  · intro w hw
    rcases ctrlPts with _ | ⟨a, _ | ⟨b, rest⟩⟩
    · cases hw
    · cases hw
    · have hw' : (convertGo srcPos tgtPos dy true (a :: b :: rest)).2.2.head? =
          some w := hw
      rw [convertGo_cons] at hw'
      simp only [List.head?_cons, Option.some.injEq] at hw'
      rw [← hw']
      exact processCtrlPt_w_first srcPos tgtPos dy (decide (rest = [])) a b
  · intro w hw
    exact convertGo_last_ne_one srcPos tgtPos dy ctrlPts.length ctrlPts le_rfl
      hlen true w hw

/-- Witness for the amended C7 at the counterexample input: the list has
even length, and there the first weight is 1 (hence not 0) and the last is 0
(hence not 1). -/
theorem C7_boundary_weights_clamped_witness :
    ([5, 0, 0, 0] : List ℝ).length % 2 = 0 ∧
      ((∀ w : ℝ,
          (convertCtrlPtsToDistsAndWeights (0, 0) (5, 0) [5, 0, 0, 0] 0
            0).weights.head? = some w → w ≠ 0) ∧
        ∀ w : ℝ,
          (convertCtrlPtsToDistsAndWeights (0, 0) (5, 0) [5, 0, 0, 0] 0
            0).weights.getLast? = some w → w ≠ 1) :=
  ⟨by decide, C7_boundary_weights_clamped (0, 0) (5, 0) [5, 0, 0, 0] 0 0
    (by decide)⟩
